import Mathlib

/-!
Flight game: combat simulation core (`src/game.js`).

A shallow embedding of the simulation functions of `game.js`.

Modelling conventions
* JavaScript numbers are exact rationals (`ℚ`); counters that the program only
  ever changes by integer steps (score, kills, level, tiers, ...) are integers.
  Decimal literals are written as in the source.
* The global `state` object, the `player` object and the six module-level arrays
  are the fields of one record `State`, passed explicitly.
* Enemies and bosses are JavaScript objects that are aliased by local variables
  while the arrays holding them are spliced. They live in an object store
  (`enemyObjs`, `bossObjs`); the `enemies` array and `state.boss` hold references.
* `Math.random()` reads the next value of an external stream `Env.rand`; the
  number of values consumed so far is `State.draws`.
* Where `Math.hypot(dx, dy)` is compared with a bound, the comparison is made on
  squares and no square root is taken. Where the value of `Math.hypot` or
  `Math.sin` is used, it is read from `Env.hypot` and `Env.sin`.
* A `TypeError` (reading a property of `undefined`) is the result `none`.
-/

namespace FlightGame

/-! ## Data model -/

/-- Keys of `state.effects`. -/
inductive GearKind where
  | shield | wingman | reflect | laser | beam | flame | missile
  | explosive | homing | giant | ricochet | chain | rapid
  deriving DecidableEq, Repr

/-- The object `state.effects`: gear kind to tier. -/
structure Effects where
  shield : ℤ
  wingman : ℤ
  reflect : ℤ
  laser : ℤ
  beam : ℤ
  flame : ℤ
  missile : ℤ
  explosive : ℤ
  homing : ℤ
  giant : ℤ
  ricochet : ℤ
  chain : ℤ
  rapid : ℤ
  deriving DecidableEq, Repr

/-- Property read `state.effects[type]`. -/
def Effects.get (fx : Effects) : GearKind → ℤ
  | .shield => fx.shield
  | .wingman => fx.wingman
  | .reflect => fx.reflect
  | .laser => fx.laser
  | .beam => fx.beam
  | .flame => fx.flame
  | .missile => fx.missile
  | .explosive => fx.explosive
  | .homing => fx.homing
  | .giant => fx.giant
  | .ricochet => fx.ricochet
  | .chain => fx.chain
  | .rapid => fx.rapid

/-- Property write `state.effects[type] = v`. -/
def Effects.set (fx : Effects) (k : GearKind) (v : ℤ) : Effects :=
  match k with
  | .shield => { fx with shield := v }
  | .wingman => { fx with wingman := v }
  | .reflect => { fx with reflect := v }
  | .laser => { fx with laser := v }
  | .beam => { fx with beam := v }
  | .flame => { fx with flame := v }
  | .missile => { fx with missile := v }
  | .explosive => { fx with explosive := v }
  | .homing => { fx with homing := v }
  | .giant => { fx with giant := v }
  | .ricochet => { fx with ricochet := v }
  | .chain => { fx with chain := v }
  | .rapid => { fx with rapid := v }

/-- The `x, y, w, h` part of an entity, as read by `rectHit`. -/
structure Rect where
  x : ℚ
  y : ℚ
  w : ℚ
  h : ℚ
  deriving DecidableEq, Repr

/-- The object `player`. -/
structure Player where
  x : ℚ
  y : ℚ
  w : ℚ
  h : ℚ
  speed : ℚ
  deriving DecidableEq, Repr

inductive Motion where
  | sine | zigzag | dive
  deriving DecidableEq, Repr

/-- An enemy object, as pushed by `spawnEnemy`. -/
structure Enemy where
  x : ℚ
  y : ℚ
  w : ℚ
  h : ℚ
  hp : ℚ
  maxHp : ℚ
  speed : ℚ
  fireCooldown : ℚ
  age : ℚ
  motion : Motion
  phase : ℚ
  vx : ℚ
  shadeTier : ℤ
  deriving DecidableEq, Repr

inductive BossMode where
  | shield | laser | missile | homing
  deriving DecidableEq, Repr

/-- A boss object, as created by `spawnBoss`. -/
structure Boss where
  x : ℚ
  y : ℚ
  w : ℚ
  h : ℚ
  hp : ℚ
  maxHp : ℚ
  age : ℚ
  shootCooldown : ℚ
  dashCooldown : ℚ
  targetX : ℚ
  driftPhase : ℚ
  modeIndex : ℕ
  modeTimer : ℚ
  modes : List BossMode
  deriving DecidableEq, Repr

inductive BulletType where
  | normal | laser | missile | wing | homing | reflected | flame
  deriving DecidableEq, Repr

/-- A player-owned bullet, as pushed by `addPlayerBullet`. -/
structure Bullet where
  x : ℚ
  y : ℚ
  w : ℚ
  h : ℚ
  vx : ℚ
  vy : ℚ
  damage : ℚ
  type : BulletType
  pierce : ℤ
  bounces : ℤ
  explosive : Bool
  ttl : ℚ
  deriving DecidableEq, Repr

/-- The argument object of `addPlayerBullet`; the last four properties may be absent. -/
structure BulletData where
  x : ℚ
  y : ℚ
  w : ℚ
  h : ℚ
  vx : ℚ
  vy : ℚ
  damage : ℚ
  type : BulletType
  pierce : Option ℤ
  bounces : Option ℤ
  explosive : Option Bool
  ttl : Option ℚ
  deriving DecidableEq, Repr

inductive EnemyBulletType where
  | normal | spray | boss | bossLaser | bossMissile | homing
  deriving DecidableEq, Repr

/-- An enemy-owned bullet, as pushed by `fireEnemyBullet` and `fireBoss`. -/
structure EnemyBullet where
  x : ℚ
  y : ℚ
  w : ℚ
  h : ℚ
  vx : ℚ
  vy : ℚ
  ttl : ℚ
  type : EnemyBulletType
  damage : ℚ
  pierce : Option ℤ
  homing : Option ℚ
  deriving DecidableEq, Repr

/-- A power-up, as pushed by `spawnPowerup` and `spawnBossReward`. The type is
`none` when the pool lookup was out of range (`undefined`); `bossReward` is
`false` when the property is absent. -/
structure Powerup where
  x : ℚ
  y : ℚ
  w : ℚ
  h : ℚ
  vy : ℚ
  type : Option GearKind
  tier : ℤ
  bossReward : Bool
  deriving DecidableEq, Repr

structure ChainArc where
  x1 : ℚ
  y1 : ℚ
  x2 : ℚ
  y2 : ℚ
  ttl : ℚ
  deriving DecidableEq, Repr

structure Explosion where
  x : ℚ
  y : ℚ
  radius : ℚ
  ttl : ℚ
  deriving DecidableEq, Repr

/-- What the simulation reads from outside: the canvas size, the values
returned by successive calls of `Math.random()`, and the library functions
`Math.sin` and `Math.hypot` where their value (not a comparison) is used. -/
structure Env where
  width : ℚ
  height : ℚ
  rand : ℕ → ℚ
  sin : ℚ → ℚ
  hypot : ℚ → ℚ → ℚ

/-- The whole mutable program state: the fields of `state`, the `player`, the
six module-level arrays, the object store, and the count of random draws. -/
structure State where
  running : Bool
  score : ℤ
  lives : ℚ
  maxLives : ℚ
  time : ℚ
  kills : ℤ
  level : ℤ
  shootCooldown : ℚ
  spawnTimer : ℚ
  hitCooldown : ℚ
  bossLevel : ℤ
  boss : Option ℕ
  nextBossAt : ℤ
  keys : List String
  effects : Effects
  beamActive : Bool
  beamWidth : ℚ
  beamPulse : ℚ
  shieldBlockCooldown : ℚ
  reflectCooldown : ℚ
  player : Player
  playerBullets : List Bullet
  enemyBullets : List EnemyBullet
  enemies : List ℕ
  powerups : List Powerup
  chainArcs : List ChainArc
  explosions : List Explosion
  enemyObjs : ℕ → Enemy
  enemyCount : ℕ
  bossObjs : ℕ → Boss
  bossCount : ℕ
  draws : ℕ

/-- What a local variable of `chainDamage` and `handleHits` can point to: an
enemy object or a boss object. -/
inductive Target where
  | enemy (r : ℕ)
  | boss (r : ℕ)
  deriving DecidableEq, Repr

def Player.rect (p : Player) : Rect := ⟨p.x, p.y, p.w, p.h⟩

def Enemy.rect (e : Enemy) : Rect := ⟨e.x, e.y, e.w, e.h⟩

def Boss.rect (b : Boss) : Rect := ⟨b.x, b.y, b.w, b.h⟩

def Bullet.rect (b : Bullet) : Rect := ⟨b.x, b.y, b.w, b.h⟩

def EnemyBullet.rect (b : EnemyBullet) : Rect := ⟨b.x, b.y, b.w, b.h⟩

def Powerup.rect (p : Powerup) : Rect := ⟨p.x, p.y, p.w, p.h⟩

/-- The `x, y, w, h` of the object a target points to. -/
def State.targetRect (s : State) : Target → Rect
  | .enemy r => (s.enemyObjs r).rect
  | .boss r => (s.bossObjs r).rect

/-- The value of `state.boss` as a target. -/
def State.bossTarget (s : State) : Option Target := s.boss.map Target.boss

/-- Array `splice(i, 1)`. -/
def splice {α : Type} (xs : List α) (i : ℕ) : List α := xs.eraseIdx i

/-- One call of `Math.random()`. -/
def random (env : Env) (s : State) : ℚ × State :=
  (env.rand s.draws, { s with draws := s.draws + 1 })

/-- `Math.round`: the nearest integer, halves rounded up. -/
def Math.round (v : ℚ) : ℤ := ⌊v + 1 / 2⌋

/-- The double `Math.PI`, exactly. -/
def Math.PI : ℚ := 884279719003555 / 281474976710656

/-- The test `Math.hypot(dx, dy) <= r`. -/
def hypotLe (dx dy r : ℚ) : Prop := 0 ≤ r ∧ dx ^ 2 + dy ^ 2 ≤ r ^ 2

instance (dx dy r : ℚ) : Decidable (hypotLe dx dy r) := by
  unfold hypotLe; infer_instance

/-- The test `Math.hypot(dx, dy) < r`. -/
def hypotLt (dx dy r : ℚ) : Prop := 0 < r ∧ dx ^ 2 + dy ^ 2 < r ^ 2

instance (dx dy r : ℚ) : Decidable (hypotLt dx dy r) := by
  unfold hypotLt; infer_instance

/-! ## Constants -/

def POWERUP_POOL : List GearKind :=
  [.shield, .wingman, .laser, .missile, .shield, .laser, .missile]

def BOSS_REWARD_POOL : List GearKind :=
  [.shield, .missile, .laser, .wingman]

def BALANCE.baseDropChance : ℚ := 0.085

def BALANCE.maxDropChance : ℚ := 0.14

def BALANCE.weaponKillStep : ℤ := 12

def BALANCE.earlyGameSeconds : ℚ := 45

def BALANCE.startSpawnDelay : ℚ := 1.15

/-- Array read `pool[i]` at a JavaScript number index. -/
def poolAt (pool : List GearKind) (i : ℤ) : Option GearKind :=
  if i < 0 then none else pool[i.toNat]?

/-! ## Geometry and difficulty model -/

def rectHit (a b : Rect) : Bool :=
  decide (a.x < b.x + b.w ∧ a.x + a.w > b.x ∧ a.y < b.y + b.h ∧ a.y + a.h > b.y)

def clamp (v min max : ℚ) : ℚ := Max.max min (Min.min max v)

def getPlayerPowerLevel (s : State) : ℚ :=
  let equipSum := s.effects.shield + s.effects.missile + s.effects.laser + s.effects.wingman
  1 + s.level * 0.95 + equipSum * 0.9

def getTargetPowerLevel (s : State) : ℚ :=
  2 + s.time * 0.048 + s.bossLevel * 0.9 + s.kills * 0.012

def getPowerGapFactor (s : State) : ℚ :=
  let gap := getPlayerPowerLevel s - getTargetPowerLevel s
  clamp (gap / 8) (-0.8) 0.9

def getPowerupDropChance (s : State) (mult : ℚ) : ℚ :=
  let tBonus := min 0.025 (s.time * 0.0003)
  let powerPenalty := min 0.045 (getPlayerPowerLevel s * 0.0024)
  let gapFactor := getPowerGapFactor s
  let anchorAdjust := -gapFactor * 0.03
  let raw := BALANCE.baseDropChance + tBonus - powerPenalty + anchorAdjust
  min BALANCE.maxDropChance (max 0.045 raw * mult)

def rollPowerupTier (env : Env) (s : State) (minTier : ℤ) : ℤ × State :=
  let t := s.time
  let tier := minTier
  let (r, s) := random env s
  let tier := if r < min 0.22 (0.08 + t * 0.0014) then max tier 2 else tier
  let tier := if r < min 0.09 (0.02 + t * 0.0007) then max tier 3 else tier
  let tier := if r < min 0.03 (0.005 + t * 0.00025) then max tier 4 else tier
  (tier, s)

def spawnPowerup (env : Env) (s : State) (x y : ℚ) : State :=
  let (r, s) := random env s
  let type := poolAt POWERUP_POOL ⌊r * POWERUP_POOL.length⌋
  let (tier, s) := rollPowerupTier env s 1
  { s with powerups := s.powerups ++ [⟨x, y, 18, 18, 90, type, tier, false⟩] }

def maybeDropPowerup (env : Env) (s : State) (x y mult : ℚ) : State :=
  let (r, s) := random env s
  if r < getPowerupDropChance s mult then spawnPowerup env s x y else s

def equipGear (s : State) (type : GearKind) (tier : ℤ) : State :=
  let oldTier := s.effects.get type
  let s := { s with effects := s.effects.set type tier }
  { s with score := s.score + (if tier > oldTier then 16 else 8) }

def spawnBossReward (env : Env) (s : State) (x y : ℚ) : State :=
  let (r, s) := random env s
  let type := poolAt BOSS_REWARD_POOL ⌊r * BOSS_REWARD_POOL.length⌋
  let (tier, s) := rollPowerupTier env s 3
  { s with powerups := s.powerups ++ [⟨x - 11, y - 11, 22, 22, 86, type, tier, true⟩] }

def defeatBoss (env : Env) (s : State) (dropX dropY : ℚ) (scoreBonus : ℤ) : State :=
  match s.boss with
  | none => s
  | some _ =>
    let s := { s with score := s.score + (520 + s.bossLevel * 160 + scoreBonus) }
    let s := spawnBossReward env s dropX dropY
    let s := { s with boss := none }
    { s with nextBossAt := s.nextBossAt + (18 + s.bossLevel * 8) }

def addPlayerBullet (s : State) (data : BulletData) : State :=
  { s with playerBullets := s.playerBullets ++ [
      { x := data.x
        y := data.y
        w := data.w
        h := data.h
        vx := data.vx
        vy := data.vy
        damage := data.damage
        type := data.type
        pierce := data.pierce.getD 0
        bounces := data.bounces.getD 0
        explosive := data.explosive.getD false
        ttl := match data.ttl with
          | some t => if t = 0 then 3 else t
          | none => 3 }] }

/-- Assignment `e.hp = v` through a reference to an enemy object. -/
def State.setEnemyHp (s : State) (r : ℕ) (v : ℚ) : State :=
  { s with enemyObjs := Function.update s.enemyObjs r { s.enemyObjs r with hp := v } }

/-- Assignment `b.hp = v` through a reference to a boss object. -/
def State.setBossHp (s : State) (r : ℕ) (v : ℚ) : State :=
  { s with bossObjs := Function.update s.bossObjs r { s.bossObjs r with hp := v } }

/-- The statements of the enemy loop of `addExplosion` for the enemy object `r`
at index `i` once its centre is known to lie within the radius. -/
def addExplosion.blast (env : Env) (damage : ℚ) (s : State) (i r : ℕ) : State :=
  let e := s.enemyObjs r
  let s := s.setEnemyHp r (e.hp - damage)
  if (s.enemyObjs r).hp ≤ 0 then
    let s := { s with enemies := splice s.enemies i }
    let s := { s with kills := s.kills + 1 }
    let s := { s with score := s.score + 15 }
    maybeDropPowerup env s (e.x + 7) (e.y + 6) 0.75
  else s

/-- The enemy loop of `addExplosion`; the first argument is `i + 1`. Only index
`i` is spliced, so `enemies[i]` is always defined when the loop starts at
`enemies.length - 1`. -/
def addExplosion.enemyLoop (env : Env) (x y radius damage : ℚ) : ℕ → State → State
  | 0, s => s
  | i + 1, s =>
    match s.enemies[i]? with
    | none => addExplosion.enemyLoop env x y radius damage i s
    | some r =>
      let e := s.enemyObjs r
      let ex := e.x + e.w / 2
      let ey := e.y + e.h / 2
      if hypotLe (ex - x) (ey - y) radius then
        addExplosion.enemyLoop env x y radius damage i (addExplosion.blast env damage s i r)
      else addExplosion.enemyLoop env x y radius damage i s

/-- The boss part of `addExplosion`. -/
def addExplosion.bossPart (env : Env) (x y radius damage : ℚ) (s : State) : State :=
  match s.boss with
  | none => s
  | some b =>
    let bx := (s.bossObjs b).x + (s.bossObjs b).w / 2
    let by_ := (s.bossObjs b).y + (s.bossObjs b).h / 2
    if hypotLe (bx - x) (by_ - y) (radius + 32) then
      let s := s.setBossHp b ((s.bossObjs b).hp - damage * 2)
      if (s.bossObjs b).hp ≤ 0 then defeatBoss env s bx by_ 0 else s
    else s

def addExplosion (env : Env) (s : State) (x y radius damage : ℚ) : State :=
  let s := { s with explosions := s.explosions ++ [⟨x, y, radius, 0.26⟩] }
  let s := addExplosion.enemyLoop env x y radius damage s.enemies.length s
  addExplosion.bossPart env x y radius damage s

/-- The tail of `damagePlayer`, after the shield handling. -/
def damagePlayer.apply (s : State) (amount : ℚ) : State :=
  let s := { s with lives := s.lives - amount }
  let s := { s with hitCooldown := 0.5 }
  if s.lives ≤ 0 then { s with lives := 0, running := false } else s

def damagePlayer (s : State) (amount : ℚ) : State :=
  if s.hitCooldown > 0 then s
  else if s.effects.shield > 0 then
    if s.shieldBlockCooldown ≤ 0 then
      let s := { s with shieldBlockCooldown := max 0.18 (0.7 - s.effects.shield * 0.06) }
      { s with hitCooldown := 0.16 }
    else
      damagePlayer.apply s (max 1 (amount - ⌊(s.effects.shield : ℚ) / 3⌋))
  else damagePlayer.apply s amount

/-- Property read `t.hp` through a reference. -/
def State.targetHp (s : State) : Target → ℚ
  | .enemy r => (s.enemyObjs r).hp
  | .boss r => (s.bossObjs r).hp

/-- Assignment `t.hp = v` through a reference. -/
def State.setTargetHp (s : State) (t : Target) (v : ℚ) : State :=
  match t with
  | .enemy r => s.setEnemyHp r v
  | .boss r => s.setBossHp r v

/-- The call `enemies.indexOf(t)`; `none` stands for the result `-1`. -/
def State.enemiesIndexOf (s : State) : Target → Option ℕ
  | .enemy r => if r ∈ s.enemies then some (s.enemies.indexOf r) else none
  | .boss _ => none

/-- The scan `for (const e of enemies)` of `chainDamage` over the rest of the
array: the accumulator is `best` with `bestDist` squared, `none` before any
enemy qualified (`bestDist = Infinity`). The tests `d < 120` and `d < bestDist`
are made on the squared distance. -/
def chainDamage.scan (s : State) (visited : List Target) (source : Target) :
    List ℕ → Option (ℕ × ℚ) → Option (ℕ × ℚ)
  | [], best => best
  | e :: rest, best =>
    if Target.enemy e ∈ visited then chainDamage.scan s visited source rest best
    else
      let er := (s.enemyObjs e).rect
      let sr := s.targetRect source
      let dx := (er.x + er.w / 2) - (sr.x + sr.w / 2)
      let dy := (er.y + er.h / 2) - (sr.y + sr.h / 2)
      let d2 := dx ^ 2 + dy ^ 2
      let closer : Bool := match best with
        | none => true
        | some (_, bestDist2) => decide (d2 < bestDist2)
      if d2 < 120 ^ 2 ∧ closer = true then
        chainDamage.scan s visited source rest (some (e, d2))
      else chainDamage.scan s visited source rest best

/-- The choice of `best` in one iteration of `chainDamage`: the nearest
unvisited enemy within 120, else the boss within 140. -/
def chainDamage.pick (s : State) (visited : List Target) (source : Target) : Option Target :=
  match chainDamage.scan s visited source s.enemies none with
  | some (e, _) => some (Target.enemy e)
  | none =>
    match s.boss with
    | none => none
    | some b =>
      if Target.boss b ∈ visited then none
      else
        let br := (s.bossObjs b).rect
        let sr := s.targetRect source
        let dx := (br.x + br.w / 2) - (sr.x + sr.w / 2)
        let dy := (br.y + br.h / 2) - (sr.y + sr.h / 2)
        if hypotLt dx dy 140 then some (Target.boss b) else none

/-- The statement `chainArcs.push(...)` of `chainDamage`: an arc from the centre
of `source` to the centre of `best`. -/
def chainDamage.addArc (s : State) (source best : Target) : State :=
  let sr := s.targetRect source
  let br := s.targetRect best
  let ax := sr.x + sr.w / 2
  let ay := sr.y + sr.h / 2
  let bx := br.x + br.w / 2
  let by_ := br.y + br.h / 2
  { s with chainArcs := s.chainArcs ++ [ChainArc.mk ax ay bx by_ 0.12] }

/-- The branch `best === state.boss` of `chainDamage`, up to the `break`. -/
def chainDamage.bossHop (env : Env) (s : State) (best : Target) : State :=
  let s := s.setTargetHp best (s.targetHp best - 5)
  if s.targetHp best ≤ 0 then
    let br := s.targetRect best
    let bx := br.x + br.w / 2
    let by_ := br.y + br.h / 2
    defeatBoss env s bx by_ (-100)
  else s

/-- The statements of `chainDamage` that damage an enemy `best` and remove it
when its hit points are used up. -/
def chainDamage.enemyHop (env : Env) (s : State) (best : Target) : State :=
  let s := s.setTargetHp best (s.targetHp best - 2)
  if s.targetHp best ≤ 0 then
    match s.enemiesIndexOf best with
    | some idx =>
      let s := { s with enemies := splice s.enemies idx }
      let s := { s with kills := s.kills + 1 }
      let s := { s with score := s.score + 18 }
      maybeDropPowerup env s ((s.targetRect best).x + 7) ((s.targetRect best).y + 7) 0.72
    | none => s
  else s

/-- The loop `for (let jump = 0; jump < 3; jump++)` of `chainDamage`; the first
argument is the number of iterations left. Besides the state it returns the
successive values of `best`, the hop targets, in order. -/
def chainDamage.loop (env : Env) : ℕ → State → List Target → Target → State × List Target
  | 0, s, _, _ => (s, [])
  | n + 1, s, visited, source =>
    match chainDamage.pick s visited source with
    | none => (s, [])
    | some best =>
      let s := chainDamage.addArc s source best
      if some best = s.bossTarget then (chainDamage.bossHop env s best, [best])
      else
        let s := chainDamage.enemyHop env s best
        let r := chainDamage.loop env n s (visited ++ [best]) best
        (r.1, best :: r.2)

/-- The hop targets of one invocation of `chainDamage`, in order. -/
def chainDamage.hops (env : Env) (s : State) (startTarget : Target) : List Target :=
  if s.effects.chain ≤ 0 then []
  else (chainDamage.loop env 3 s [startTarget] startTarget).2

def chainDamage (env : Env) (s : State) (startTarget : Target) : State :=
  if s.effects.chain ≤ 0 then s
  else (chainDamage.loop env 3 s [startTarget] startTarget).1

/-- The statements of `handleHits` that use up the player bullet `b` at index
`j` after a hit: a pierce is spent, or else the bullet explodes (when it is
explosive, with the given blast radius) and is removed. -/
def handleHits.spendBullet (env : Env) (s : State) (j : ℕ) (b : Bullet) (radius : ℚ) : State :=
  if b.pierce > 0 then
    { s with playerBullets := s.playerBullets.set j { b with pierce := b.pierce - 1 } }
  else
    let s := if b.explosive then addExplosion env s (b.x + b.w / 2) (b.y + b.h / 2) radius 3 else s
    { s with playerBullets := splice s.playerBullets j }

/-- The statement `if (state.effects.chain > 0) chainDamage(t)` of `handleHits`. -/
def handleHits.chainFrom (env : Env) (s : State) (t : Target) : State :=
  if s.effects.chain > 0 then chainDamage env s t else s

/-- The kill accounting of `handleHits` for the enemy object value `e` found at
index `i`. -/
def handleHits.countKill (env : Env) (s : State) (i : ℕ) (e : Enemy) : State :=
  let s := { s with enemies := splice s.enemies i }
  let s := { s with kills := s.kills + 1 }
  let s := { s with score := s.score + 15 }
  let s := maybeDropPowerup env s (e.x + 7) (e.y + 6) 1
  if Int.tmod s.kills BALANCE.weaponKillStep = 0 then { s with level := min 4 (s.level + 1) } else s

/-- The test `if (e.hp <= 0)` of `handleHits` with its kill accounting, for the
enemy object `r` found at index `i`. -/
def handleHits.finishEnemy (env : Env) (s : State) (i r : ℕ) : State :=
  let e := s.enemyObjs r
  if e.hp ≤ 0 then handleHits.countKill env s i e else s

/-- The statements of `handleHits` run when player bullet `b` at index `j` hits
the enemy object `r` found at index `i`, up to the `break`. -/
def handleHits.enemyHit (env : Env) (s : State) (i r j : ℕ) (b : Bullet) : State :=
  let s := s.setEnemyHp r ((s.enemyObjs r).hp - b.damage)
  let s := handleHits.spendBullet env s j b 58
  let s := handleHits.chainFrom env s (Target.enemy r)
  handleHits.finishEnemy env s i r

/-- The inner loop of `handleHits` over `playerBullets` for the enemy object `r`
at index `i`; the first numeric argument is `j + 1`. Nothing changes before the
first hit, so `playerBullets[j]` is always defined. -/
def handleHits.bulletLoop (env : Env) (i r : ℕ) : ℕ → State → State
  | 0, s => s
  | j + 1, s =>
    match s.playerBullets[j]? with
    | none => handleHits.bulletLoop env i r j s
    | some b =>
      if !rectHit b.rect (s.enemyObjs r).rect then handleHits.bulletLoop env i r j s
      else handleHits.enemyHit env s i r j b

/-- The first loop of `handleHits`, over `enemies`; the first argument is
`i + 1`. The body may remove several enemies, so `enemies[i]` can be
`undefined` in a later iteration: `rectHit(player, undefined)` throws. -/
def handleHits.enemyLoop (env : Env) : ℕ → State → Option State
  | 0, s => some s
  | i + 1, s =>
    match s.enemies[i]? with
    | none => none
    | some r =>
      if rectHit s.player.rect (s.enemyObjs r).rect then
        let s := { s with enemies := splice s.enemies i }
        let s := damagePlayer s 1
        handleHits.enemyLoop env i s
      else handleHits.enemyLoop env i (handleHits.bulletLoop env i r s.playerBullets.length s)

/-- The statements of `handleHits` run when the player bullet `bullet` at index
`i` hits the boss object `b`, up to the test of the boss hit points. -/
def handleHits.bossHit (env : Env) (s : State) (b i : ℕ) (bullet : Bullet) : State :=
  let s := s.setBossHp b ((s.bossObjs b).hp - bullet.damage)
  let s := handleHits.spendBullet env s i bullet 64
  handleHits.chainFrom env s (Target.boss b)

/-- The loop of `handleHits` over `playerBullets` for the boss object `b`; the
first numeric argument is `i + 1`. -/
def handleHits.bossLoop (env : Env) (b : ℕ) : ℕ → State → State
  | 0, s => s
  | i + 1, s =>
    match s.playerBullets[i]? with
    | none => handleHits.bossLoop env b i s
    | some bullet =>
      if !rectHit bullet.rect (s.bossObjs b).rect then handleHits.bossLoop env b i s
      else
        let s := handleHits.bossHit env s b i bullet
        if (s.bossObjs b).hp ≤ 0 then
          let bx := (s.bossObjs b).x + (s.bossObjs b).w / 2
          let by_ := (s.bossObjs b).y + (s.bossObjs b).h / 2
          defeatBoss env s bx by_ 0
        else handleHits.bossLoop env b i s

/-- The boss part of `handleHits`. -/
def handleHits.bossPart (env : Env) (s : State) : State :=
  match s.boss with
  | none => s
  | some b =>
    let s := if rectHit s.player.rect (s.bossObjs b).rect then damagePlayer s 2 else s
    handleHits.bossLoop env b s.playerBullets.length s

/-- The statements of the enemy-bullet loop of `handleHits` that turn the enemy
bullet `bullet` at index `i` into a player bullet. -/
def handleHits.reflectBullet (env : Env) (s : State) (i : ℕ) (bullet : EnemyBullet) : State :=
  let (r, s) := random env s
  let reflectVx := bullet.vx * 0.6 + (r - 0.5) * 90
  let reflectVy := -|bullet.vy| - 80
  let s := addPlayerBullet s
    { x := bullet.x
      y := bullet.y
      w := max 4 (bullet.w - 1)
      h := max 6 (bullet.h - 1)
      vx := reflectVx
      vy := reflectVy
      damage := max 1 (if bullet.damage = 0 then 1 else bullet.damage)
      type := BulletType.reflected
      pierce := none
      bounces := some (if s.effects.ricochet > 0 then 1 else 0)
      explosive := none
      ttl := some 2.4 }
  let s := { s with reflectCooldown := max 0.1 (0.52 - s.effects.reflect * 0.05) }
  { s with enemyBullets := splice s.enemyBullets i }

/-- The loop of `handleHits` over `enemyBullets`; the first argument is `i + 1`. -/
def handleHits.enemyBulletLoop (env : Env) : ℕ → State → State
  | 0, s => s
  | i + 1, s =>
    match s.enemyBullets[i]? with
    | none => handleHits.enemyBulletLoop env i s
    | some bullet =>
      if rectHit s.player.rect bullet.rect then
        if s.effects.reflect > 0 ∧ s.reflectCooldown ≤ 0 then
          handleHits.enemyBulletLoop env i (handleHits.reflectBullet env s i bullet)
        else
          let s := { s with enemyBullets := splice s.enemyBullets i }
          let s := damagePlayer s (if bullet.damage = 0 then 1 else bullet.damage)
          handleHits.enemyBulletLoop env i s
      else handleHits.enemyBulletLoop env i s

/-- The statements of the power-up loop of `handleHits` for a power-up `p` that
the player touches, before the splice. -/
def handleHits.pickup (s : State) (p : Powerup) : State :=
  match p.type with
  | some type =>
    if type = GearKind.shield ∨ type = GearKind.missile ∨ type = GearKind.laser
        ∨ type = GearKind.wingman then
      let s := equipGear s type (if p.tier = 0 then 1 else p.tier)
      { s with lives := min s.maxLives (s.lives + (if p.bossReward then 1 else 0)) }
    else s
  | none => s

/-- The loop of `handleHits` over `powerups`; the first argument is `i + 1`. -/
def handleHits.powerupLoop : ℕ → State → State
  | 0, s => s
  | i + 1, s =>
    match s.powerups[i]? with
    | none => handleHits.powerupLoop i s
    | some p =>
      if !rectHit s.player.rect p.rect then handleHits.powerupLoop i s
      else
        let s := handleHits.pickup s p
        let s := { s with powerups := splice s.powerups i }
        handleHits.powerupLoop i s

def handleHits (env : Env) (s : State) : Option State :=
  match handleHits.enemyLoop env s.enemies.length s with
  | none => none
  | some s =>
    let s := handleHits.bossPart env s
    let s := handleHits.enemyBulletLoop env s.enemyBullets.length s
    some (handleHits.powerupLoop s.powerups.length s)

def spawnBoss (env : Env) (s : State) : State :=
  let s := { s with bossLevel := s.bossLevel + 1 }
  let w : ℚ := 102
  let h : ℚ := 84
  let gapFactor := getPowerGapFactor s
  let anchorHp := 1 + gapFactor * 0.22
  let maxHp : ℚ :=
    Math.round ((200 + s.bossLevel * 125 + getPlayerPowerLevel s * 30 + s.time * 0.42) * anchorHp)
  let modes := [BossMode.shield, BossMode.laser]
  let modes := if s.bossLevel ≥ 2 then modes ++ [BossMode.missile] else modes
  let modes := if s.bossLevel ≥ 3 then modes ++ [BossMode.homing] else modes
  let (r, s) := random env s
  let boss : Boss :=
    { x := env.width / 2 - w / 2
      y := -h - 10
      w := w
      h := h
      hp := maxHp
      maxHp := maxHp
      age := 0
      shootCooldown := 1.1
      dashCooldown := 3.2
      targetX := env.width / 2 - w / 2
      driftPhase := r * Math.PI * 2
      modeIndex := 0
      modeTimer := 5
      modes := modes }
  { s with
    bossObjs := Function.update s.bossObjs s.bossCount boss
    boss := some s.bossCount
    bossCount := s.bossCount + 1 }

def maybeSpawnBoss (env : Env) (s : State) : State :=
  match s.boss with
  | some _ => s
  | none =>
    if s.kills ≥ s.nextBossAt then
      let s := { s with enemies := [] }
      spawnBoss env s
    else s

def tryUpgradeEffect (env : Env) (s : State) (key : GearKind) (maxLevel : ℤ) : State :=
  let current := s.effects.get key
  if current ≥ maxLevel then { s with score := s.score + 6 }
  else
    let gapFactor := getPowerGapFactor s
    let successChance := clamp (1 - current * 0.1 - gapFactor * 0.18) 0.38 0.95
    let (r, s) := random env s
    if r < successChance then { s with effects := s.effects.set key (current + 1) }
    else { s with score := s.score + 4 }

def calcEnemyHpByScaleAndShade (s : State) (size : ℚ) (shadeTier : ℤ) : ℤ :=
  let sizeScore := (size - 26) / 6
  let shadeScore : ℚ := shadeTier * 0.9
  let t := s.time
  let playerPower := getPlayerPowerLevel s
  let gapFactor := getPowerGapFactor s
  let earlyEase :=
    if t < BALANCE.earlyGameSeconds then (BALANCE.earlyGameSeconds - t) / BALANCE.earlyGameSeconds
    else 0
  let playerScale := playerPower * (0.18 + min 0.22 (t * 0.0025))
  let timeScale := t * 0.013
  let anchorScale := gapFactor * 1.15
  let easedBase := 1.4 - earlyEase * 0.8
  max 1 (Math.round (easedBase + sizeScore + shadeScore + playerScale + timeScale + anchorScale))

def getEnemySpeedScale (s : State) : ℚ :=
  let t := s.time
  let gapFactor := getPowerGapFactor s
  let anchor := 1 + gapFactor * 0.25
  if t < 45 then (0.58 + t * 0.0046) * anchor
  else (0.79 + (t - 45) * 0.0066) * anchor

def getSpawnInterval (s : State) : ℚ :=
  let t := s.time
  let gapFactor := getPowerGapFactor s
  let anchor := 1 - gapFactor * 0.26
  let base :=
    if t < 40 then 1.08 - t * 0.011
    else if t < 110 then 0.64 - (t - 40) * 0.003
    else 0.38 - (t - 110) * 0.0009
  clamp (base * anchor) 0.24 1.0

def getEnemyCap (s : State) : ℕ :=
  let t := s.time
  if t < 20 then 2
  else if t < 45 then 3
  else if t < 80 then 4
  else if t < 130 then 5
  else 6

/-- Assignment of all the properties of an enemy object through a reference. -/
def State.setEnemy (s : State) (r : ℕ) (e : Enemy) : State :=
  { s with enemyObjs := Function.update s.enemyObjs r e }

/-- Assignment of all the properties of a boss object through a reference. -/
def State.setBoss (s : State) (r : ℕ) (b : Boss) : State :=
  { s with bossObjs := Function.update s.bossObjs r b }

def spawnEnemy (env : Env) (s : State) : State :=
  let (motionRoll, s) := random env s
  let motion := Motion.sine
  let motion := if motionRoll > 0.34 then Motion.zigzag else motion
  let motion := if motionRoll > 0.67 then Motion.dive else motion
  let level : ℤ := ⌊s.time / 24⌋ + 1
  let speedScale := getEnemySpeedScale s
  let (r1, s) := random env s
  let size := 26 + r1 * 18
  let w : ℚ := Math.round size
  let h : ℚ := Math.round (size * 0.9)
  let (r2, s) := random env s
  let shadeTier : ℤ := ⌊r2 * 3⌋
  let hp : ℚ := calcEnemyHpByScaleAndShade s size shadeTier
  let (r3, s) := random env s
  let (r4, s) := random env s
  let (r5, s) := random env s
  let (r6, s) := random env s
  let (r7, s) := random env s
  let (r8, s) := random env s
  let e : Enemy :=
    { x := r3 * (env.width - w)
      y := -h - r4 * 70
      w := w
      h := h
      hp := hp
      maxHp := hp
      speed := (70 + r5 * 45 + level * 6) * speedScale
      fireCooldown := 1 + r6 * 1.6
      age := 0
      motion := motion
      phase := r7 * Math.PI * 2
      vx := if r8 < 0.5 then -95 else 95
      shadeTier := shadeTier }
  { s with
    enemyObjs := Function.update s.enemyObjs s.enemyCount e
    enemies := s.enemies ++ [s.enemyCount]
    enemyCount := s.enemyCount + 1 }

/-- The two fixed side shots of `fireWingman`. -/
def fireWingman.sideShots (s : State) (level : ℤ) (sync : ℚ) : State :=
  let s := addPlayerBullet s
    ⟨s.player.x - 5, s.player.y + 4, 5, 10, -20, -430, 0.8 + sync * 0.14 + level * 0.25,
      BulletType.wing, none, none, none, none⟩
  addPlayerBullet s
    ⟨s.player.x + s.player.w, s.player.y + 4, 5, 10, 20, -430, 0.8 + sync * 0.14 + level * 0.25,
      BulletType.wing, none, none, none, none⟩

/-- The forward shot of `fireWingman`, from wingman tier 2. -/
def fireWingman.forwardShot (s : State) (level : ℤ) (cx : ℚ) : State :=
  if level ≥ 2 then
    addPlayerBullet s
      ⟨cx - 3, s.player.y + 2, 6, 12, 0, -440, 2, BulletType.wing, none, none, none, none⟩
  else s

/-- The two angled shots of `fireWingman`, from wingman tier 3. -/
def fireWingman.angledShots (s : State) (level : ℤ) : State :=
  if level ≥ 3 then
    let s := addPlayerBullet s
      ⟨s.player.x - 8, s.player.y + 10, 5, 11, -90, -360, 1, BulletType.wing,
        none, none, none, none⟩
    addPlayerBullet s
      ⟨s.player.x + s.player.w + 3, s.player.y + 10, 5, 11, 90, -360, 1, BulletType.wing,
        none, none, none, none⟩
  else s

/-- The two explosive missiles of `fireWingman`, at wingman tier 4 with missile
gear equipped. -/
def fireWingman.missiles (s : State) (level : ℤ) : State :=
  if level ≥ 4 ∧ s.effects.missile > 0 then
    let s := addPlayerBullet s
      ⟨s.player.x - 4, s.player.y - 2, 6, 12, -25, -300, 1.6 + s.effects.missile * 0.5,
        BulletType.missile, none, none, some true, some 4⟩
    addPlayerBullet s
      ⟨s.player.x + s.player.w - 2, s.player.y - 2, 6, 12, 25, -300,
        1.6 + s.effects.missile * 0.5, BulletType.missile, none, none, some true, some 4⟩
  else s

def fireWingman (s : State) (cx : ℚ) : State :=
  if s.effects.wingman ≤ 0 then s
  else
    let level := s.effects.wingman
    let sync := getPlayerPowerLevel s
    let s := fireWingman.sideShots s level sync
    let s := fireWingman.forwardShot s level cx
    let s := fireWingman.angledShots s level
    fireWingman.missiles s level

/-- The number of bullets of the normal volley of `firePlayer`. -/
def firePlayer.spread (s : State) : ℕ :=
  if s.level ≥ 4 then 3 else if s.level ≥ 2 then 2 else 1

/-- The body of the volley loop of `firePlayer` for index `i`. -/
def firePlayer.normalShot (s : State) (cx baseDamage sizeMul : ℚ) (spread i : ℕ) : State :=
  let t : ℚ := if spread = 1 then 0 else (i : ℚ) / ((spread : ℚ) - 1) - 0.5
  addPlayerBullet s
    { x := cx - 3 * sizeMul + t * 18
      y := s.player.y - 8
      w := 6 * sizeMul
      h := 12 * sizeMul
      vx := t * 140
      vy := -450
      damage := baseDamage
      type := BulletType.normal
      pierce := none
      bounces := some 0
      explosive := none
      ttl := some 3 }

def firePlayer (s : State) : State :=
  let player := s.player
  let cx := player.x + player.w / 2
  let sync := getPlayerPowerLevel s
  let baseDamage := 1 + sync * 0.22
  let sizeMul := 1 + min 0.45 (sync * 0.035)
  let ricochetCount : ℤ := 0
  let s :=
    if s.effects.laser > 0 then
      let laserLevel := s.effects.laser
      addPlayerBullet s
        { x := cx - 4 * sizeMul
          y := player.y - 24
          w := 8 * sizeMul
          h := 30 + laserLevel * 3
          vx := 0
          vy := -760
          damage := baseDamage + laserLevel * 0.75
          type := BulletType.laser
          pierce := some (8 + laserLevel * 2)
          bounces := some ricochetCount
          explosive := none
          ttl := some 0.6 }
    else s
  let s :=
    if s.effects.missile > 0 then
      let missileLevel := s.effects.missile
      let s := addPlayerBullet s
        ⟨cx - 4, player.y - 10, 8, 14, 0, -300, baseDamage * 0.9 + missileLevel * 0.8,
          BulletType.missile, none, some ricochetCount, some true, some 4⟩
      if missileLevel ≥ 3 then
        let s := addPlayerBullet s
          ⟨cx - 18, player.y - 4, 7, 12, -35, -290, baseDamage * 0.55 + missileLevel * 0.55,
            BulletType.missile, none, some ricochetCount, some true, some 4⟩
        addPlayerBullet s
          ⟨cx + 11, player.y - 4, 7, 12, 35, -290, baseDamage * 0.55 + missileLevel * 0.55,
            BulletType.missile, none, some ricochetCount, some true, some 4⟩
      else s
    else s
  let spread := firePlayer.spread s
  let s := (List.range spread).foldl
    (fun s i => firePlayer.normalShot s cx baseDamage sizeMul spread i) s
  fireWingman s cx

def fireEnemyBullet (env : Env) (s : State) (sourceX sourceY speed : ℚ)
    (kind : EnemyBulletType) : State :=
  let px := s.player.x + s.player.w / 2
  let py := s.player.y + s.player.h / 2
  let dx := px - sourceX
  let dy := py - sourceY
  let len := if env.hypot dx dy = 0 then 1 else env.hypot dx dy
  let vx := (dx / len) * speed
  let vy := (dy / len) * speed
  if kind = EnemyBulletType.spray then
    let (r1, s) := random env s
    let vx := vx + (r1 - 0.5) * 120
    let (r2, s) := random env s
    let vy := vy + r2 * 50
    { s with enemyBullets := s.enemyBullets ++
        [⟨sourceX - 2, sourceY, 6, 10, vx, vy, 5, kind, 1, none, none⟩] }
  else
    { s with enemyBullets := s.enemyBullets ++
        [⟨sourceX - 2, sourceY, 6, 10, vx, vy, 5, kind, 1, none, none⟩] }

/-- The body of the spread loop of `fireBoss` for index `i`. -/
def fireBoss.spreadShot (s : State) (cx y : ℚ) (spread : ℤ) (i : ℕ) : State :=
  let t : ℚ := (i : ℚ) / ((spread : ℚ) - 1) - 0.5
  { s with enemyBullets := s.enemyBullets ++
      [⟨cx - 3 + t * 20, y, 6, 10, t * 220, 180 + |t| * 40, 5, EnemyBulletType.boss, 1,
        none, none⟩] }

/-- The extra attack of `fireBoss` for the current mode `mode`
(`b.modes[b.modeIndex]`, `none` when out of range). -/
def fireBoss.extra (env : Env) (s : State) (mode : Option BossMode) (cx y : ℚ) : State :=
  let s :=
    if mode = some BossMode.laser then
      { s with enemyBullets := s.enemyBullets ++
          [⟨cx - 6, y + 2, 12, 46, 0, 260, 1.4, EnemyBulletType.bossLaser, 2, some 99, none⟩] }
    else s
  let s :=
    if mode = some BossMode.missile then
      { s with enemyBullets := s.enemyBullets ++
          [⟨cx - 4, y, 8, 12, 0, 160, 7, EnemyBulletType.bossMissile, 2, none, some 2.8⟩] }
    else s
  if mode = some BossMode.homing then
    let s := fireEnemyBullet env s (cx - 14) y 220 EnemyBulletType.homing
    fireEnemyBullet env s (cx + 14) y 220 EnemyBulletType.homing
  else s

def fireBoss (env : Env) (s : State) : State :=
  match s.boss with
  | none => s
  | some r =>
    let b := s.bossObjs r
    let cx := b.x + b.w / 2
    let y := b.y + b.h - 8
    let spread : ℤ := 4 + min 3 s.bossLevel
    let s := (List.range spread.toNat).foldl (fun s i => fireBoss.spreadShot s cx y spread i) s
    let mode := b.modes[b.modeIndex]?
    fireBoss.extra env s mode cx y

/-- The test `state.keys.has(" ") || state.keys.has("Spacebar")`. -/
def State.shooting (s : State) : Bool :=
  decide (" " ∈ s.keys) || decide ("Spacebar" ∈ s.keys)

/-- The object `beamRect` of `updateBeamDamage`. -/
def beamRect (s : State) : Rect :=
  let beamX := s.player.x + s.player.w / 2 - s.beamWidth / 2
  ⟨beamX, 0, s.beamWidth, s.player.y⟩

/-- The statements of the enemy loop of `updateBeamDamage` for the enemy object
`r` at index `i` once it is known to touch the beam. -/
def updateBeamDamage.burn (env : Env) (tickDamage : ℚ) (s : State) (i r : ℕ) : State :=
  let e := s.enemyObjs r
  let s := s.setEnemyHp r (e.hp - tickDamage)
  if (s.enemyObjs r).hp ≤ 0 then
    let s := { s with enemies := splice s.enemies i }
    let s := { s with kills := s.kills + 1 }
    let s := { s with score := s.score + 14 }
    maybeDropPowerup env s (e.x + 7) (e.y + 7) 0.7
  else s

/-- The enemy loop of `updateBeamDamage`; the first numeric argument is `i + 1`.
Only index `i` is spliced, so `enemies[i]` is always defined. -/
def updateBeamDamage.enemyLoop (env : Env) (beam : Rect) (tickDamage : ℚ) : ℕ → State → State
  | 0, s => s
  | i + 1, s =>
    match s.enemies[i]? with
    | none => updateBeamDamage.enemyLoop env beam tickDamage i s
    | some r =>
      if !rectHit beam (s.enemyObjs r).rect then
        updateBeamDamage.enemyLoop env beam tickDamage i s
      else updateBeamDamage.enemyLoop env beam tickDamage i
        (updateBeamDamage.burn env tickDamage s i r)

/-- The boss part of `updateBeamDamage`. -/
def updateBeamDamage.bossPart (env : Env) (beam : Rect) (tickDamage : ℚ) (s : State) : State :=
  match s.boss with
  | none => s
  | some b =>
    if rectHit beam (s.bossObjs b).rect then
      let s := s.setBossHp b ((s.bossObjs b).hp - tickDamage * 0.9)
      if (s.bossObjs b).hp ≤ 0 then
        let bx := (s.bossObjs b).x + (s.bossObjs b).w / 2
        let by_ := (s.bossObjs b).y + (s.bossObjs b).h / 2
        defeatBoss env s bx by_ 0
      else s
    else s

def updateBeamDamage (env : Env) (s : State) (dt : ℚ) : State :=
  let s := { s with beamActive := false }
  if s.effects.laser ≤ 0 then s
  else
    let shooting := s.shooting
    if !shooting then s
    else
      let s := { s with beamActive := true }
      let s := { s with beamPulse := s.beamPulse + dt * 16 }
      let beamLevel := s.effects.laser
      let s := { s with beamWidth := 8 + env.sin s.beamPulse * 2 + min 10 (beamLevel * 1.8) }
      let beam := beamRect s
      let tickDamage := (8 + beamLevel * 2.2) * dt
      let s := updateBeamDamage.enemyLoop env beam tickDamage s.enemies.length s
      updateBeamDamage.bossPart env beam tickDamage s

/-- The key handling of `updatePlayer`: the player after the four conditional
position updates. -/
def updatePlayer.shift (s : State) (dt : ℚ) : Player :=
  let left := decide ("ArrowLeft" ∈ s.keys) || decide ("a" ∈ s.keys)
  let right := decide ("ArrowRight" ∈ s.keys) || decide ("d" ∈ s.keys)
  let up := decide ("ArrowUp" ∈ s.keys) || decide ("w" ∈ s.keys)
  let down := decide ("ArrowDown" ∈ s.keys) || decide ("s" ∈ s.keys)
  let player := s.player
  let player := if left then { player with x := player.x - player.speed * dt } else player
  let player := if right then { player with x := player.x + player.speed * dt } else player
  let player := if up then { player with y := player.y - player.speed * dt } else player
  if down then { player with y := player.y + player.speed * dt } else player

/-- The movement part of `updatePlayer`: key handling and boundary clamping. -/
def updatePlayer.move (env : Env) (s : State) (dt : ℚ) : State :=
  let player := updatePlayer.shift s dt
  let player := { player with x := clamp player.x 0 (env.width - player.w) }
  let player := { player with y := clamp player.y (env.height * 0.22) (env.height - player.h) }
  { s with player := player }

/-- The value assigned to `state.shootCooldown` by `updatePlayer` after a shot. -/
def updatePlayer.cooldown (s : State) : ℚ :=
  let cd : ℚ := 0.24 - (s.level - 1) * 0.016 - s.effects.wingman * 0.007
  let cd := if s.effects.laser > 0 then cd + 0.015 else cd
  clamp cd 0.06 0.25

def updatePlayer (env : Env) (s : State) (dt : ℚ) : State :=
  let s := updatePlayer.move env s dt
  let shoot := s.shooting
  if shoot ∧ s.shootCooldown ≤ 0 then
    let s := firePlayer s
    { s with shootCooldown := updatePlayer.cooldown s }
  else s

/-- The movement statements of the loop of `updateEnemies` for one enemy. -/
def updateEnemies.move (env : Env) (s : State) (dt : ℚ) (e : Enemy) : Enemy :=
  let e := { e with age := e.age + dt }
  match e.motion with
  | Motion.sine =>
    let e := { e with x := e.x + env.sin (e.age * 2.1 + e.phase) * 55 * dt }
    { e with y := e.y + e.speed * dt }
  | Motion.zigzag =>
    let e := { e with x := e.x + e.vx * dt }
    let e := { e with y := e.y + (e.speed + 30) * dt }
    if e.x < 0 ∨ e.x + e.w > env.width then { e with vx := e.vx * -1 } else e
  | Motion.dive =>
    let e := { e with y := e.y + (e.speed + 10) * dt }
    let e :=
      if e.y > 90 then
        let tx := s.player.x + s.player.w / 2 - e.w / 2
        { e with x := e.x + (tx - e.x) * min 1 (dt * 1.35) }
      else e
    { e with x := e.x + env.sin (e.age * 6 + e.phase) * 18 * dt }

/-- The firing statements of the loop of `updateEnemies` for the enemy object `r`. -/
def updateEnemies.fire (env : Env) (s : State) (dt : ℚ) (r : ℕ) : State :=
  let e := s.enemyObjs r
  let s := s.setEnemy r { e with fireCooldown := e.fireCooldown - dt }
  let e := s.enemyObjs r
  if e.fireCooldown ≤ 0 ∧ e.y > 24 then
    let (r1, s) := random env s
    let s := fireEnemyBullet env s (e.x + e.w / 2) (e.y + e.h) (180 + r1 * 70)
      EnemyBulletType.spray
    let (r2, s) := random env s
    s.setEnemy r { s.enemyObjs r with fireCooldown := 1 + r2 * 1.6 }
  else s

/-- The loop of `updateEnemies`; the first numeric argument is `i + 1`. Only
index `i` is spliced, so `enemies[i]` is always defined. -/
def updateEnemies.loop (env : Env) (dt : ℚ) : ℕ → State → State
  | 0, s => s
  | i + 1, s =>
    match s.enemies[i]? with
    | none => updateEnemies.loop env dt i s
    | some r =>
      let s := s.setEnemy r (updateEnemies.move env s dt (s.enemyObjs r))
      let s := updateEnemies.fire env s dt r
      let e := s.enemyObjs r
      let s :=
        if e.y > env.height + 80 ∨ e.x < -60 ∨ e.x > env.width + 60 then
          { s with enemies := splice s.enemies i }
        else s
      updateEnemies.loop env dt i s

def updateEnemies (env : Env) (s : State) (dt : ℚ) : State :=
  updateEnemies.loop env dt s.enemies.length s

/-- The hover statements of `updateBoss` on the boss object: sinusoidal drift
and the dash countdown. -/
def updateBoss.drift (env : Env) (dt : ℚ) (b : Boss) : Boss :=
  let b := { b with x := b.x + env.sin (b.age * 1.7 + b.driftPhase) * 24 * dt }
  { b with dashCooldown := b.dashCooldown - dt }

/-- The re-roll of the dash target of the boss object `r` in `updateBoss`. -/
def updateBoss.retarget (env : Env) (s : State) (r : ℕ) : State :=
  let b := s.bossObjs r
  if b.dashCooldown ≤ 0 then
    let px := s.player.x + s.player.w / 2 - b.w / 2
    let (r1, s) := random env s
    let jitter := (r1 - 0.5) * 70
    let b := { b with targetX := clamp (px + jitter) 8 (env.width - b.w - 8) }
    let b := { b with dashCooldown := max 1.2 (3 - s.bossLevel * 0.2) }
    s.setBoss r b
  else s

/-- The chase, mode cycling and fire countdown statements of `updateBoss` on the
boss object. The remainder `(modeIndex + 1) % modes.length` is taken on natural
numbers; an empty mode list (`NaN` in the source) is not modelled. -/
def updateBoss.chase (env : Env) (s : State) (dt : ℚ) (b : Boss) : Boss :=
  let dx := b.targetX - b.x
  let maxStep := (110 + s.bossLevel * 18) * dt
  let b := { b with x := b.x + clamp dx (-maxStep) maxStep }
  let b := { b with x := clamp b.x 8 (env.width - b.w - 8) }
  let b : Boss := { b with modeTimer := b.modeTimer - dt }
  let b : Boss :=
    if b.modeTimer ≤ 0 then
      { b with modeIndex := (b.modeIndex + 1) % b.modes.length, modeTimer := 4.5 }
    else b
  { b with shootCooldown := b.shootCooldown - dt }

/-- The firing statements of `updateBoss` for the boss object `r`. -/
def updateBoss.shoot (env : Env) (s : State) (r : ℕ) : State :=
  if (s.bossObjs r).shootCooldown ≤ 0 then
    let s := fireBoss env s
    s.setBoss r { s.bossObjs r with shootCooldown := max 0.45 (1 - s.bossLevel * 0.08) }
  else s

/-- The statements of `updateBoss` for a boss object `r` that has reached its
hover altitude. -/
def updateBoss.active (env : Env) (s : State) (dt : ℚ) (r : ℕ) : State :=
  let s := s.setBoss r (updateBoss.drift env dt (s.bossObjs r))
  let s := updateBoss.retarget env s r
  let s := s.setBoss r (updateBoss.chase env s dt (s.bossObjs r))
  updateBoss.shoot env s r

def updateBoss (env : Env) (s : State) (dt : ℚ) : State :=
  match s.boss with
  | none => s
  | some r =>
    let b := s.bossObjs r
    let b := { b with age := b.age + dt }
    let s := s.setBoss r b
    if b.y < 36 then s.setBoss r { b with y := b.y + 65 * dt }
    else updateBoss.active env s dt r

/-- The enemy scan of `nearestEnemyOrBoss`: `best` with `bestDist`, `none` while
`bestDist = Infinity`. -/
def nearestEnemyOrBoss.scan (s : State) (x y : ℚ) :
    List ℕ → Option (Target × ℚ) → Option (Target × ℚ)
  | [], best => best
  | r :: rest, best =>
    let e := s.enemyObjs r
    let ex := e.x + e.w / 2
    let ey := e.y + e.h / 2
    let d := (ex - x) ^ 2 + (ey - y) ^ 2
    let closer : Bool := match best with
      | none => true
      | some (_, bestDist) => decide (d < bestDist)
    if closer then nearestEnemyOrBoss.scan s x y rest (some (Target.enemy r, d))
    else nearestEnemyOrBoss.scan s x y rest best

def nearestEnemyOrBoss (s : State) (x y : ℚ) : Option Target :=
  let best := nearestEnemyOrBoss.scan s x y s.enemies none
  let best :=
    match s.boss with
    | none => best
    | some b =>
      let bx := (s.bossObjs b).x + (s.bossObjs b).w / 2
      let by_ := (s.bossObjs b).y + (s.bossObjs b).h / 2
      let d := (bx - x) ^ 2 + (by_ - y) ^ 2
      let closer : Bool := match best with
        | none => true
        | some (_, bestDist) => decide (d < bestDist)
      if closer then some (Target.boss b, d) else best
  best.map Prod.fst

/-- The statements of the loop of `updatePlayerBullets` for one bullet, up to the
removal test. -/
def updatePlayerBullets.step (env : Env) (s : State) (dt : ℚ) (b : Bullet) : Bullet :=
  let b := { b with ttl := b.ttl - dt }
  let b :=
    if b.type = BulletType.homing ∨ (b.type = BulletType.missile ∧ s.effects.homing > 0) then
      match nearestEnemyOrBoss s b.x b.y with
      | some target =>
        let tr := s.targetRect target
        let tx := tr.x + tr.w / 2
        let ty := tr.y + tr.h / 2
        let dx := tx - b.x
        let dy := ty - b.y
        let len := if env.hypot dx dy = 0 then 1 else env.hypot dx dy
        let desiredVx := (dx / len) * 300
        let desiredVy := (dy / len) * 300
        let b := { b with vx := b.vx + (desiredVx - b.vx) * min 1 (4 * dt) }
        { b with vy := b.vy + (desiredVy - b.vy) * min 1 (4 * dt) }
      | none => b
    else b
  let b :=
    if b.type = BulletType.flame then
      let b := { b with vx := b.vx * 0.96 }
      let b := { b with vy := b.vy * 0.94 }
      { b with damage := max 0.2 (b.damage - dt * 0.9) }
    else b
  let b := { b with x := b.x + b.vx * dt }
  let b : Bullet := { b with y := b.y + b.vy * dt }
  if b.bounces > 0 then
    let b : Bullet :=
      if b.x ≤ 0 ∨ b.x + b.w ≥ env.width then
        let b := { b with vx := b.vx * -1 }
        let b := { b with bounces := b.bounces - 1 }
        { b with x := clamp b.x 0 (env.width - b.w) }
      else b
    if b.y ≤ 0 then
      let b := { b with vy := |b.vy| }
      let b := { b with bounces := b.bounces - 1 }
      { b with y := 0 }
    else b
  else b

/-- The loop of `updatePlayerBullets`; the first numeric argument is `i + 1`. -/
def updatePlayerBullets.loop (env : Env) (dt : ℚ) : ℕ → State → State
  | 0, s => s
  | i + 1, s =>
    match s.playerBullets[i]? with
    | none => updatePlayerBullets.loop env dt i s
    | some b =>
      let b := updatePlayerBullets.step env s dt b
      let s := { s with playerBullets := s.playerBullets.set i b }
      let s :=
        if b.ttl ≤ 0 ∨ b.y < -80 ∨ b.y > env.height + 80 ∨ b.x < -80 ∨ b.x > env.width + 80 then
          { s with playerBullets := splice s.playerBullets i }
        else s
      updatePlayerBullets.loop env dt i s

def updatePlayerBullets (env : Env) (s : State) (dt : ℚ) : State :=
  updatePlayerBullets.loop env dt s.playerBullets.length s

/-- The statements of the loop of `updateEnemyBullets` for one bullet, up to the
removal test. -/
def updateEnemyBullets.step (env : Env) (s : State) (dt : ℚ) (b : EnemyBullet) : EnemyBullet :=
  let b := { b with ttl := b.ttl - dt }
  let b :=
    match b.homing with
    | some homing =>
      if homing = 0 then b
      else
        let px := s.player.x + s.player.w / 2
        let py := s.player.y + s.player.h / 2
        let dx := px - b.x
        let dy := py - b.y
        let len := if env.hypot dx dy = 0 then 1 else env.hypot dx dy
        let desiredVx := (dx / len) * 230
        let desiredVy := (dy / len) * 230
        let b := { b with vx := b.vx + (desiredVx - b.vx) * min 1 (homing * dt) }
        { b with vy := b.vy + (desiredVy - b.vy) * min 1 (homing * dt) }
    | none => b
  let b := { b with x := b.x + b.vx * dt }
  { b with y := b.y + b.vy * dt }

/-- The loop of `updateEnemyBullets`; the first numeric argument is `i + 1`. -/
def updateEnemyBullets.loop (env : Env) (dt : ℚ) : ℕ → State → State
  | 0, s => s
  | i + 1, s =>
    match s.enemyBullets[i]? with
    | none => updateEnemyBullets.loop env dt i s
    | some b =>
      let b := updateEnemyBullets.step env s dt b
      let s := { s with enemyBullets := s.enemyBullets.set i b }
      let s :=
        if b.ttl ≤ 0 ∨ b.y < -90 ∨ b.y > env.height + 90 ∨ b.x < -90 ∨ b.x > env.width + 90 then
          { s with enemyBullets := splice s.enemyBullets i }
        else s
      updateEnemyBullets.loop env dt i s

def updateEnemyBullets (env : Env) (s : State) (dt : ℚ) : State :=
  updateEnemyBullets.loop env dt s.enemyBullets.length s

/-- The removal loop of `updatePowerups` over `powerups`; the first numeric
argument is `i + 1`. -/
def updatePowerups.dropLoop (env : Env) : ℕ → List Powerup → List Powerup
  | 0, ps => ps
  | i + 1, ps =>
    match ps[i]? with
    | none => updatePowerups.dropLoop env i ps
    | some p =>
      if p.y > env.height + 30 then updatePowerups.dropLoop env i (splice ps i)
      else updatePowerups.dropLoop env i ps

/-- The ageing loop of `updatePowerups` over `chainArcs`; the first numeric
argument is `i + 1`. -/
def updatePowerups.arcLoop (dt : ℚ) : ℕ → List ChainArc → List ChainArc
  | 0, xs => xs
  | i + 1, xs =>
    match xs[i]? with
    | none => updatePowerups.arcLoop dt i xs
    | some a =>
      let a := { a with ttl := a.ttl - dt }
      let xs := xs.set i a
      if a.ttl ≤ 0 then updatePowerups.arcLoop dt i (splice xs i)
      else updatePowerups.arcLoop dt i xs

/-- The ageing loop of `updatePowerups` over `explosions`; the first numeric
argument is `i + 1`. -/
def updatePowerups.explosionLoop (dt : ℚ) : ℕ → List Explosion → List Explosion
  | 0, xs => xs
  | i + 1, xs =>
    match xs[i]? with
    | none => updatePowerups.explosionLoop dt i xs
    | some a =>
      let a := { a with ttl := a.ttl - dt }
      let xs := xs.set i a
      if a.ttl ≤ 0 then updatePowerups.explosionLoop dt i (splice xs i)
      else updatePowerups.explosionLoop dt i xs

def updatePowerups (env : Env) (s : State) (dt : ℚ) : State :=
  let s := { s with powerups := s.powerups.map (fun p : Powerup => { p with y := p.y + p.vy * dt }) }
  let s := { s with powerups := updatePowerups.dropLoop env s.powerups.length s.powerups }
  let s := { s with chainArcs := updatePowerups.arcLoop dt s.chainArcs.length s.chainArcs }
  { s with explosions := updatePowerups.explosionLoop dt s.explosions.length s.explosions }

/-- The timer statements that open `update`. -/
def update.timers (s : State) (dt : ℚ) : State :=
  let s := { s with time := s.time + dt }
  let s := { s with spawnTimer := s.spawnTimer - dt }
  let s := { s with shootCooldown := s.shootCooldown - dt }
  let s := { s with hitCooldown := max 0 (s.hitCooldown - dt) }
  let s := { s with shieldBlockCooldown := max 0 (s.shieldBlockCooldown - dt) }
  { s with reflectCooldown := max 0 (s.reflectCooldown - dt) }

/-- The spawn decision of `update`: boss first, else one enemy when due. -/
def update.spawn (env : Env) (s : State) : State :=
  let s := maybeSpawnBoss env s
  if s.boss = none ∧ s.spawnTimer ≤ 0 ∧ s.enemies.length < getEnemyCap s then
    let s := spawnEnemy env s
    { s with spawnTimer := getSpawnInterval s }
  else s

/-- The phases of `update` between the spawn decision and `handleHits`. -/
def update.advance (env : Env) (s : State) (dt : ℚ) : State :=
  let s := updateEnemies env s dt
  let s := updateBoss env s dt
  let s := updatePlayerBullets env s dt
  let s := updateEnemyBullets env s dt
  let s := updateBeamDamage env s dt
  updatePowerups env s dt

def update (env : Env) (s : State) (dt : ℚ) : Option State :=
  if !s.running then some s
  else
    let s := update.timers s dt
    let s := updatePlayer env s dt
    let s := update.spawn env s
    let s := update.advance env s dt
    handleHits env s

/-! ## Initial state and restart -/

def Enemy.blank : Enemy := ⟨0, 0, 0, 0, 0, 0, 0, 0, 0, Motion.sine, 0, 0, 0⟩

def Boss.blank : Boss := ⟨0, 0, 0, 0, 0, 0, 0, 0, 0, 0, 0, 0, 0, []⟩

def Effects.zero : Effects := ⟨0, 0, 0, 0, 0, 0, 0, 0, 0, 0, 0, 0, 0⟩

/-- The state at module load: the literals `state` and `player`, empty arrays,
an empty object store. -/
def initState (env : Env) : State :=
  { running := true
    score := 0
    lives := 8
    maxLives := 8
    time := 0
    kills := 0
    level := 1
    shootCooldown := 0
    spawnTimer := 0
    hitCooldown := 0
    bossLevel := 0
    boss := none
    nextBossAt := 18
    keys := []
    effects := Effects.zero
    beamActive := false
    beamWidth := 12
    beamPulse := 0
    shieldBlockCooldown := 0
    reflectCooldown := 0
    player := ⟨env.width / 2 - 22, env.height - 92, 44, 44, 210⟩
    playerBullets := []
    enemyBullets := []
    enemies := []
    powerups := []
    chainArcs := []
    explosions := []
    enemyObjs := fun _ => Enemy.blank
    enemyCount := 0
    bossObjs := fun _ => Boss.blank
    bossCount := 0
    draws := 0 }

def reset (env : Env) (s : State) : State :=
  { s with
    running := true
    score := 0
    lives := s.maxLives
    time := 0
    kills := 0
    level := 1
    shootCooldown := 0
    spawnTimer := BALANCE.startSpawnDelay
    hitCooldown := 0
    bossLevel := 0
    boss := none
    nextBossAt := 18
    beamActive := false
    beamWidth := 12
    beamPulse := 0
    shieldBlockCooldown := 0
    reflectCooldown := 0
    effects := Effects.zero
    player := { s.player with
      x := env.width / 2 - s.player.w / 2
      y := env.height - s.player.h - 20 }
    playerBullets := []
    enemyBullets := []
    enemies := []
    powerups := []
    chainArcs := []
    explosions := [] }

/-! ## Scenarios -/

/-- A 480 by 640 canvas, a random stream that never triggers a drop, and
stand-ins for `Math.sin` and `Math.hypot`. -/
def quietEnv : Env := ⟨480, 640, fun _ => 0.99, fun _ => 0, fun dx dy => |dx| + |dy|⟩

/-- The state after the `reset()` call that ends the module. -/
def startState : State := reset quietEnv (initState quietEnv)

/-- Level 4 with all four counted gear kinds at tier 4, at time zero. -/
def maxedState : State :=
  { startState with
    level := 4
    effects := { Effects.zero with shield := 4, missile := 4, laser := 4, wingman := 4 } }

/-- Shield held at tier 3. -/
def shield3State : State :=
  { startState with effects := { Effects.zero with shield := 3 } }

/-- Shield held at tier 2, block cooldown elapsed. -/
def shield2State : State :=
  { startState with effects := { Effects.zero with shield := 2 } }

/-- Shield held at tier 3, block cooldown running. -/
def shield3CoolingState : State :=
  { shield3State with shieldBlockCooldown := 0.3 }

/-- Shield held at tier 3 and a tier-1 shield power-up lying on the player. -/
def downgradePickupState : State :=
  { shield3State with
    powerups := [⟨shield3State.player.x + 10, shield3State.player.y + 10, 18, 18, 90,
      some GearKind.shield, 1, false⟩] }

/-- No shield, two lives left. -/
def twoLivesState : State :=
  { startState with lives := 2 }

/-- Kill count at the first boss threshold, two enemies standing. -/
def bossDueState : State :=
  { startState with kills := 18, enemies := [0, 1], enemyCount := 2 }

/-- An enemy bullet away from the player, top left. -/
def farBulletA : EnemyBullet := ⟨10, 10, 6, 10, 0, 180, 5, EnemyBulletType.boss, 1, none, none⟩

/-- An enemy bullet on the player: damage 1, moving down at 200. -/
def touchingBullet : EnemyBullet :=
  ⟨startState.player.x + 20, startState.player.y + 5, 6, 10, 30, 200, 5,
    EnemyBulletType.spray, 1, none, none⟩

/-- An enemy bullet away from the player, mid right. -/
def farBulletB : EnemyBullet := ⟨400, 300, 6, 10, 0, 180, 5, EnemyBulletType.boss, 1, none, none⟩

/-- Reflect held at tier 1, cooldown elapsed, and three enemy bullets of which
only the middle one touches the player. -/
def reflectState : State :=
  { startState with
    effects := { Effects.zero with reflect := 1 }
    enemyBullets := [farBulletA, touchingBullet, farBulletB] }

/-- An enemy at (100, 100), 30 by 27, with 1 hit point. -/
def weakEnemy : Enemy := ⟨100, 100, 30, 27, 1, 1, 80, 1, 0, Motion.sine, 0, 95, 0⟩

/-- An explosive player bullet overlapping `weakEnemy`: the centre missile that
`firePlayer` emits at level 1 with missile tier 1 (damage 2.2643, pierce 0). -/
def explosiveBullet : Bullet :=
  ⟨111, 120, 8, 14, 0, -300, 2.2643, BulletType.missile, 0, 0, true, 4⟩

/-- The enemy `weakEnemy` alone on the field, hit by `explosiveBullet`; no chain
gear, no boss. -/
def explosiveHitState : State :=
  { startState with
    effects := { Effects.zero with missile := 1 }
    enemies := [0]
    enemyObjs := fun _ => weakEnemy
    enemyCount := 1
    playerBullets := [explosiveBullet] }

/-- Chain gear held at tier 1 and five enemies of 3 hit points in a row, 50
apart. -/
def chainRowState : State :=
  { startState with
    effects := { Effects.zero with chain := 1 }
    enemies := [0, 1, 2, 3, 4]
    enemyObjs := fun r => { weakEnemy with x := 100 + 50 * r, hp := 3 }
    enemyCount := 5 }

/-- Full lives and a boss-reward power-up (laser, tier 3) lying on the player. -/
def rewardPickupState : State :=
  { startState with
    powerups := [⟨startState.player.x + 10, startState.player.y + 10, 22, 22, 86,
      some GearKind.laser, 3, true⟩] }

/-- Whether two states differ at most in `playerBullets`. -/
def OnlyBullets (s s2 : State) : Prop := ∃ bs, s2 = { s with playerBullets := bs }

/-- A level-1 boss hovering at the top of the field, with 300 hit points. -/
def hoverBoss : Boss :=
  { Boss.blank with
    x := 189
    y := 40
    w := 102
    h := 84
    hp := 300
    maxHp := 300
    shootCooldown := 1.1
    dashCooldown := 3.2
    targetX := 189
    modeTimer := 5
    modes := [BossMode.shield, BossMode.laser] }

/-- The first boss fight: boss tier 1, `hoverBoss` present, next threshold 18. -/
def bossFightState : State :=
  { startState with
    kills := 18
    bossLevel := 1
    boss := some 0
    bossObjs := fun _ => hoverBoss
    bossCount := 1 }

/-- A finished game: no lives left, not running. -/
def gameOverState : State :=
  { startState with running := false, lives := 0 }

/-- The start state with the fire key held. -/
def firingState : State :=
  { startState with keys := [" "] }

/-- The start state with the left and up keys held, the player in the top left
corner region. -/
def cornerState : State :=
  { startState with
    keys := ["ArrowLeft", "ArrowUp"]
    player := { startState.player with x := 2, y := 142 } }

/-- Eleven kills so far; laser tier 1, fire held, and one enemy with 0.1 hit
points inside the beam. -/
def beamKillState : State :=
  { startState with
    kills := 11
    keys := [" "]
    effects := { Effects.zero with laser := 1 }
    enemies := [0]
    enemyObjs := fun _ => { weakEnemy with x := 225, y := 300, hp := 0.1 }
    enemyCount := 1 }

/-- A plain player bullet (damage 1.429, pierce 0) overlapping `weakEnemy`. -/
def plainBullet : Bullet := ⟨111, 120, 6, 12, 0, -450, 1.429, BulletType.normal, 0, 0, false, 3⟩

/-- Eleven kills so far; `weakEnemy` is hit by `plainBullet`. -/
def directKillState : State :=
  { startState with
    kills := 11
    enemies := [0]
    enemyObjs := fun _ => weakEnemy
    enemyCount := 1
    playerBullets := [plainBullet] }

/-- Eleven kills so far; a sturdy enemy (50 hit points) is hit by
`explosiveBullet` and a second enemy with 1 hit point stands inside the blast. -/
def splashKillState : State :=
  { startState with
    kills := 11
    effects := { Effects.zero with missile := 1 }
    enemies := [0, 1]
    enemyObjs := fun r => if r = 0 then { weakEnemy with hp := 50 } else { weakEnemy with x := 130 }
    enemyCount := 2
    playerBullets := [explosiveBullet] }

/-- Eleven kills so far; chain gear at tier 1, a sturdy enemy (50 hit points) is
hit by `plainBullet` and a second enemy with 1 hit point stands 30 to its right. -/
def chainKillState : State :=
  { startState with
    kills := 11
    effects := { Effects.zero with chain := 1 }
    enemies := [0, 1]
    enemyObjs := fun r => if r = 0 then { weakEnemy with hp := 50 } else { weakEnemy with x := 130 }
    enemyCount := 2
    playerBullets := [plainBullet] }

/-- The first boss fight with laser tier 1 and fire held: the boss hovers over
the player, inside the beam. -/
def beamBossState : State :=
  { bossFightState with
    keys := [" "]
    effects := { Effects.zero with laser := 1 } }

/-- Laser tier 1, fire held, and two enemies with 5 hit points: one inside the
beam over the player, one far to the left. -/
def beamHitState : State :=
  { startState with
    keys := [" "]
    effects := { Effects.zero with laser := 1 }
    enemies := [0, 1]
    enemyObjs := fun r =>
      if r = 0 then { weakEnemy with x := 225, y := 300, hp := 5 }
      else { weakEnemy with x := 20, y := 300, hp := 5 }
    enemyCount := 2 }

/-- Whether, from state `s` to state `t`, the shoot cooldown is unchanged and
each of the hit, shield-block and reflect cooldowns stays non-negative. -/
def Kept (s t : State) : Prop :=
  t.shootCooldown = s.shootCooldown
    ∧ (0 ≤ s.hitCooldown → 0 ≤ t.hitCooldown)
    ∧ (0 ≤ s.shieldBlockCooldown → 0 ≤ t.shieldBlockCooldown)
    ∧ (0 ≤ s.reflectCooldown → 0 ≤ t.reflectCooldown)

/-- The explosive hit of `explosiveHitState` with a second enemy (5 hit points)
standing 200 to the right, outside the blast and away from the player. -/
def bystanderState : State :=
  { explosiveHitState with
    enemies := [0, 1]
    enemyObjs := fun r => if r = 0 then weakEnemy else { weakEnemy with x := 300, hp := 5 }
    enemyCount := 2 }

/-- One life left, an enemy bullet of damage 1 on the player and a boss-reward
power-up (laser, tier 3) on the player. -/
def lastLifeState : State :=
  { rewardPickupState with
    lives := 1
    enemyBullets := [touchingBullet] }

/-- The start state during the invulnerability after a hit. -/
def invulnerableState : State :=
  { startState with hitCooldown := 0.3 }

/-- Whether, from state `s` to state `t`, the boss object `r` keeps its mode list
and a mode index below the length of that list stays below it. -/
def ModeOk (r : ℕ) (s t : State) : Prop :=
  (t.bossObjs r).modes = (s.bossObjs r).modes
    ∧ ((s.bossObjs r).modeIndex < (s.bossObjs r).modes.length →
        (t.bossObjs r).modeIndex < (s.bossObjs r).modes.length)

/-- Three enemies of 5 hit points: at (100, 100), 30 to the right of it and 200
to the right of it, with no boss. -/
def blastState : State :=
  { startState with
    enemies := [0, 1, 2]
    enemyObjs := fun r =>
      if r = 0 then { weakEnemy with hp := 5 }
      else if r = 1 then { weakEnemy with x := 130, hp := 5 }
      else { weakEnemy with x := 300, hp := 5 }
    enemyCount := 3 }

/-- Whether state `t` is state `s` with player bullets appended, none of them of
type normal. -/
def AddsOther (s t : State) : Prop :=
  ∃ l : List Bullet, t = { s with playerBullets := s.playerBullets ++ l }
    ∧ ∀ b ∈ l, b.type ≠ BulletType.normal

/-- The bullet that the volley loop of `firePlayer` pushes for index `i`, with
`py` the player's `y`. -/
def firePlayer.volleyBullet (py cx baseDamage sizeMul : ℚ) (spread i : ℕ) : Bullet :=
  { x := cx - 3 * sizeMul + (if spread = 1 then 0 else (i : ℚ) / ((spread : ℚ) - 1) - 0.5) * 18
    y := py - 8
    w := 6 * sizeMul
    h := 12 * sizeMul
    vx := (if spread = 1 then 0 else (i : ℚ) / ((spread : ℚ) - 1) - 0.5) * 140
    vy := -450
    damage := baseDamage
    type := BulletType.normal
    pierce := 0
    bounces := 0
    explosive := false
    ttl := 3 }

/-- Level 4 with the fire key held. -/
def level4State : State :=
  { firingState with level := 4 }

/-- Relation between a state and a later state of the same tick: boss level and
elapsed time are the same, the score has not gone down when the boss level is
not negative, and the enemy list has not grown. -/
def Gain (s t : State) : Prop :=
  t.bossLevel = s.bossLevel ∧ (0 ≤ s.bossLevel → s.score ≤ t.score)
    ∧ t.enemies.length ≤ s.enemies.length ∧ t.time = s.time

/-- A run of `update` calls, one per frame, with the given frame times. -/
def runTicks (env : Env) : State → List ℚ → Option State
  | s, [] => some s
  | s, dt :: dts =>
    match update env s dt with
    | none => none
    | some s2 => runTicks env s2 dts

/-! ## Theorems -/

/-- C4: the gap factor is the clamp of (P - T)/8 to [-0.8, 0.9], with P and T
the player and target power levels, and so always lies in [-0.8, 0.9]. -/
theorem getPowerGapFactor_clamped (s : State) :
    getPowerGapFactor s =
        max (-0.8) (min 0.9
          (((1 + 0.95 * s.level
              + 0.9 * (s.effects.shield + s.effects.missile + s.effects.laser + s.effects.wingman))
            - (2 + 0.048 * s.time + 0.9 * s.bossLevel + 0.012 * s.kills)) / 8))
      ∧ -0.8 ≤ getPowerGapFactor s ∧ getPowerGapFactor s ≤ 0.9 := by
  refine ⟨?_, ?_, ?_⟩
  · simp only [getPowerGapFactor, getPlayerPowerLevel, getTargetPowerLevel, clamp]
    congr 3
    push_cast
    ring
  · exact le_max_left _ _
  · exact max_le (by norm_num) (min_le_left _ _)

/-- C5, as stated, fails: at level 4 with all gear at tier 4 the drop chance for
a beam kill (multiplier 0.7) is 0.0315, below 0.045. -/
theorem getPowerupDropChance_below_floor :
    (maxedState.level = 4 ∧ maxedState.effects.shield = 4 ∧ maxedState.effects.missile = 4
        ∧ maxedState.effects.laser = 4 ∧ maxedState.effects.wingman = 4 ∧ maxedState.time = 0
        ∧ maxedState.bossLevel = 0 ∧ maxedState.kills = 0)
      ∧ getPowerupDropChance maxedState 0.7 = 0.0315
      ∧ ¬ (0.045 ≤ getPowerupDropChance maxedState 0.7
            ∧ getPowerupDropChance maxedState 0.7 ≤ 0.14) := by
  have h : getPowerupDropChance maxedState 0.7 = 0.0315 := by decide!
  refine ⟨by decide!, h, ?_⟩
  rw [h]
  norm_num

/-- C5, amended: for every state and every multiplier m in [0, 1], the drop
chance lies in [0.045 * m, 0.14]. -/
theorem getPowerupDropChance_bounds (s : State) (mult : ℚ) (h0 : 0 ≤ mult) (h1 : mult ≤ 1) :
    0.045 * mult ≤ getPowerupDropChance s mult ∧ getPowerupDropChance s mult ≤ 0.14 := by
  unfold getPowerupDropChance
  constructor
  · apply le_min
    · unfold BALANCE.maxDropChance
      norm_num
      linarith
    · exact mul_le_mul_of_nonneg_right (le_max_left _ _) h0
  · exact min_le_left _ _

/-- The amended C5 at level 4, all gear at tier 4, multiplier 0.7. -/
theorem getPowerupDropChance_bounds_beam_kill :
    ((0 : ℚ) ≤ 0.7 ∧ (0.7 : ℚ) ≤ 1)
      ∧ 0.045 * 0.7 ≤ getPowerupDropChance maxedState 0.7
      ∧ getPowerupDropChance maxedState 0.7 ≤ 0.14 :=
  ⟨by norm_num, getPowerupDropChance_bounds maxedState 0.7 (by norm_num) (by norm_num)⟩

/-- C2: the code lowers a held tier. With shield held at tier 3, the call
equipGear(shield, 1) leaves shield at tier 1 and adds the consolation 8 to the
score; the same happens when `handleHits` picks up a tier-1 shield power-up. -/
theorem equipGear_lowers_held_tier :
    shield3State.effects.get GearKind.shield = 3
      ∧ (equipGear shield3State GearKind.shield 1).effects.get GearKind.shield = 1
      ∧ (equipGear shield3State GearKind.shield 1).score = shield3State.score + 8
      ∧ (handleHits quietEnv downgradePickupState).map (fun s => s.effects.shield) = some 1 := by
  decide!

theorem damagePlayer_apply_lives (s : State) (amount : ℚ) :
    (damagePlayer.apply s amount).lives = max 0 (s.lives - amount)
      ∧ (damagePlayer.apply s amount).maxLives = s.maxLives
      ∧ (damagePlayer.apply s amount).hitCooldown = 0.5 := by
  unfold damagePlayer.apply
  by_cases h : s.lives - amount ≤ 0
  · simp [h]
  · simp [h, le_of_lt (not_le.mp h)]

theorem damagePlayer_maxLives (s : State) (amount : ℚ) :
    (damagePlayer s amount).maxLives = s.maxLives := by
  unfold damagePlayer
  split_ifs <;> simp [(damagePlayer_apply_lives _ _).2.1]

theorem equipGear_lives (s : State) (k : GearKind) (t : ℤ) :
    (equipGear s k t).lives = s.lives ∧ (equipGear s k t).maxLives = s.maxLives := by
  simp [equipGear]

theorem pickup_lives (s : State) (p : Powerup) (h0 : 0 ≤ s.lives) (h1 : s.lives ≤ s.maxLives) :
    0 ≤ (handleHits.pickup s p).lives
      ∧ (handleHits.pickup s p).lives ≤ (handleHits.pickup s p).maxLives
      ∧ (handleHits.pickup s p).maxLives = s.maxLives := by
  unfold handleHits.pickup
  cases p.type with
  | none => exact ⟨h0, h1, rfl⟩
  | some type =>
    by_cases hk : type = GearKind.shield ∨ type = GearKind.missile ∨ type = GearKind.laser
        ∨ type = GearKind.wingman
    · have hb : (0 : ℚ) ≤ (if p.bossReward = true then 1 else 0) := by split_ifs <;> norm_num
      simp only [hk, if_true, (equipGear_lives _ _ _).1, (equipGear_lives _ _ _).2]
      exact ⟨le_min (le_trans h0 h1) (by linarith), min_le_left _ _, trivial⟩
    · simp only [hk, if_false]
      exact ⟨h0, h1, trivial⟩

theorem powerupLoop_lives (n : ℕ) :
    ∀ s : State, 0 ≤ s.lives → s.lives ≤ s.maxLives →
      0 ≤ (handleHits.powerupLoop n s).lives
        ∧ (handleHits.powerupLoop n s).lives ≤ (handleHits.powerupLoop n s).maxLives
        ∧ (handleHits.powerupLoop n s).maxLives = s.maxLives := by
  induction n with
  | zero => intro s h0 h1; exact ⟨h0, h1, rfl⟩
  | succ i ih =>
    intro s h0 h1
    unfold handleHits.powerupLoop
    cases s.powerups[i]? with
    | none => exact ih s h0 h1
    | some p =>
      by_cases hhit : (!rectHit s.player.rect p.rect) = true
      · simp only [hhit, if_true]
        exact ih s h0 h1
      · simp only [hhit]
        have hp := pickup_lives s p h0 h1
        have := ih { handleHits.pickup s p with
          powerups := splice (handleHits.pickup s p).powerups i } hp.1 hp.2.1
        exact ⟨this.1, this.2.1, this.2.2.trans hp.2.2⟩

/-- C3: from 0 <= lives <= maxLives and a damage amount >= 0, `damagePlayer`
leaves 0 <= lives <= maxLives; and the power-up pickups of `handleHits`
(boss rewards included) leave 0 <= lives <= maxLives. -/
theorem lives_stay_in_bounds (s : State) (amount : ℚ)
    (h0 : 0 ≤ s.lives) (h1 : s.lives ≤ s.maxLives) (ha : 0 ≤ amount) :
    (0 ≤ (damagePlayer s amount).lives
        ∧ (damagePlayer s amount).lives ≤ (damagePlayer s amount).maxLives)
      ∧ (0 ≤ (handleHits.powerupLoop s.powerups.length s).lives
        ∧ (handleHits.powerupLoop s.powerups.length s).lives
            ≤ (handleHits.powerupLoop s.powerups.length s).maxLives) := by
  refine ⟨?_, (powerupLoop_lives _ s h0 h1).1, (powerupLoop_lives _ s h0 h1).2.1⟩
  rw [damagePlayer_maxLives]
  unfold damagePlayer
  split_ifs with hc hs hb
  · exact ⟨h0, h1⟩
  · exact ⟨h0, h1⟩
  · rw [(damagePlayer_apply_lives _ _).1]
    have : (1 : ℚ) ≤ max 1 (amount - ⌊(s.effects.shield : ℚ) / 3⌋) := le_max_left _ _
    exact ⟨le_max_left _ _, max_le (le_trans h0 h1) (by linarith)⟩
  · rw [(damagePlayer_apply_lives _ _).1]
    exact ⟨le_max_left _ _, max_le (le_trans h0 h1) (by linarith)⟩

/-- C3 at full lives (8 of 8) with a boss-reward power-up on the player: a hit
of 2 leaves 6 lives, and the pickup leaves lives at 8, not 9. -/
theorem lives_stay_in_bounds_example :
    rewardPickupState.lives = 8 ∧ rewardPickupState.maxLives = 8
      ∧ (damagePlayer rewardPickupState 2).lives = 6
      ∧ (handleHits.powerupLoop rewardPickupState.powerups.length rewardPickupState).lives = 8
      ∧ (handleHits.powerupLoop rewardPickupState.powerups.length rewardPickupState).powerups = []
      ∧ (0 ≤ (damagePlayer rewardPickupState 2).lives
        ∧ (damagePlayer rewardPickupState 2).lives ≤ (damagePlayer rewardPickupState 2).maxLives)
      ∧ (0 ≤ (handleHits.powerupLoop rewardPickupState.powerups.length rewardPickupState).lives
        ∧ (handleHits.powerupLoop rewardPickupState.powerups.length rewardPickupState).lives
            ≤ (handleHits.powerupLoop rewardPickupState.powerups.length
                rewardPickupState).maxLives) := by
  have h := lives_stay_in_bounds rewardPickupState 2 (by decide!) (by decide!) (by norm_num)
  exact ⟨by decide!, by decide!, by decide!, by decide!, by decide!, h.1, h.2⟩

/-- C8: with the hit cooldown at zero, a shield of tier s >= 1 and the block
cooldown at zero, `damagePlayer` blocks the hit: lives and running are
unchanged, the block cooldown becomes max(0.18, 0.7 - 0.06 s) and the hit
cooldown 0.16. -/
theorem damagePlayer_blocks (s : State) (amount : ℚ)
    (hc : s.hitCooldown = 0) (hs : 1 ≤ s.effects.shield) (hb : s.shieldBlockCooldown = 0) :
    (damagePlayer s amount).lives = s.lives
      ∧ (damagePlayer s amount).running = s.running
      ∧ (damagePlayer s amount).shieldBlockCooldown
          = max (0.18 : ℚ) (0.7 - 0.06 * (s.effects.shield : ℚ))
      ∧ (damagePlayer s amount).hitCooldown = 0.16 := by
  have hs2 : s.effects.shield > 0 := by omega
  simp [damagePlayer, hc, hb, hs2, mul_comm]

/-- C8 at shield tier 2: the block cooldown becomes 0.58 and no life is lost. -/
theorem damagePlayer_blocks_tier2 :
    (damagePlayer shield2State 1).lives = 8
      ∧ (damagePlayer shield2State 1).running = true
      ∧ (damagePlayer shield2State 1).shieldBlockCooldown = 0.58
      ∧ (damagePlayer shield2State 1).hitCooldown = 0.16 := by
  have h := damagePlayer_blocks shield2State 1 (by decide!) (by decide!) (by decide!)
  refine ⟨h.1.trans (by decide!), h.2.1.trans (by decide!), h.2.2.1.trans (by decide!), h.2.2.2⟩

/-- C9: with the hit cooldown at zero, a shield of tier s >= 1 whose block
cooldown is running makes `damagePlayer` remove max(1, amount - floor(s/3))
lives, and no shield makes it remove amount; in both cases lives are floored
at 0 and the hit cooldown becomes 0.5. -/
theorem damagePlayer_removes (s : State) (amount : ℚ) (hc : s.hitCooldown = 0) :
    (1 ≤ s.effects.shield → 0 < s.shieldBlockCooldown →
        (damagePlayer s amount).lives
            = max 0 (s.lives - max 1 (amount - ⌊(s.effects.shield : ℚ) / 3⌋))
          ∧ (damagePlayer s amount).hitCooldown = 0.5)
      ∧ (s.effects.shield = 0 →
        (damagePlayer s amount).lives = max 0 (s.lives - amount)
          ∧ (damagePlayer s amount).hitCooldown = 0.5) := by
  constructor
  · intro hs hb
    have hs2 : s.effects.shield > 0 := by omega
    have hb2 : ¬ s.shieldBlockCooldown ≤ 0 := not_le.mpr hb
    simp only [damagePlayer, hc, lt_irrefl, gt_iff_lt, if_false, hs2, if_true, hb2]
    exact ⟨(damagePlayer_apply_lives _ _).1, (damagePlayer_apply_lives _ _).2.2⟩
  · intro hs
    simp only [damagePlayer, hc, lt_irrefl, gt_iff_lt, if_false, hs]
    exact ⟨(damagePlayer_apply_lives _ _).1, (damagePlayer_apply_lives _ _).2.2⟩

/-- C9 at concrete inputs: shield tier 3 on cooldown turns a hit of 2 into a
loss of 1 life (8 to 7); without a shield a hit of 3 on 2 lives leaves 0. -/
theorem damagePlayer_removes_examples :
    shield3CoolingState.hitCooldown = 0
      ∧ (damagePlayer shield3CoolingState 2).lives = 7
      ∧ (damagePlayer shield3CoolingState 2).hitCooldown = 0.5
      ∧ (damagePlayer twoLivesState 3).lives = 0
      ∧ (damagePlayer twoLivesState 3).hitCooldown = 0.5 := by
  have h1 := (damagePlayer_removes shield3CoolingState 2 (by decide!)).1 (by decide!) (by decide!)
  have h2 := (damagePlayer_removes twoLivesState 3 (by decide!)).2 (by decide!)
  refine ⟨by decide!, h1.1.trans (by decide!), h1.2, h2.1.trans (by decide!), h2.2⟩

theorem spawnBoss_fields (env : Env) (s : State) :
    (spawnBoss env s).enemies = s.enemies
      ∧ (spawnBoss env s).boss = some s.bossCount
      ∧ (spawnBoss env s).bossLevel = s.bossLevel + 1 := by
  simp [spawnBoss, random]

/-- C6: with no boss present `maybeSpawnBoss` spawns a boss exactly when
kills >= nextBossAt; a spawn empties the enemy list, makes a boss present and
raises bossLevel by 1; with a boss present or kills < nextBossAt the state is
unchanged. -/
theorem maybeSpawnBoss_spec (env : Env) (s : State) :
    (s.boss = none → ((maybeSpawnBoss env s).boss ≠ none ↔ s.nextBossAt ≤ s.kills))
      ∧ (s.boss = none → s.nextBossAt ≤ s.kills →
          (maybeSpawnBoss env s).enemies = []
            ∧ (maybeSpawnBoss env s).boss ≠ none
            ∧ (maybeSpawnBoss env s).bossLevel = s.bossLevel + 1)
      ∧ (s.boss ≠ none ∨ s.kills < s.nextBossAt → maybeSpawnBoss env s = s) := by
  refine ⟨?_, ?_, ?_⟩
  · intro hb
    by_cases hk : s.kills ≥ s.nextBossAt
    · simp [maybeSpawnBoss, hb, hk, (spawnBoss_fields _ _).2.1]
    · simp [maybeSpawnBoss, hb, hk]
  · intro hb hk
    have hk2 : s.kills ≥ s.nextBossAt := hk
    simp [maybeSpawnBoss, hb, hk2, (spawnBoss_fields _ _).1, (spawnBoss_fields _ _).2.1,
      (spawnBoss_fields _ _).2.2]
  · intro h
    rcases h with h | h
    · cases hb : s.boss with
      | none => exact absurd hb h
      | some b => simp [maybeSpawnBoss, hb]
    · have hk : ¬ s.kills ≥ s.nextBossAt := not_le.mpr h
      cases hb : s.boss with
      | none => simp [maybeSpawnBoss, hb, hk]
      | some b => simp [maybeSpawnBoss, hb]

/-- C6 at kills = 18, nextBossAt = 18, bossLevel = 0, no boss, two enemies: the
boss spawns, bossLevel becomes 1 and no enemy is left. -/
theorem maybeSpawnBoss_first_boss :
    bossDueState.kills = 18 ∧ bossDueState.nextBossAt = 18 ∧ bossDueState.bossLevel = 0
      ∧ bossDueState.boss = none ∧ bossDueState.enemies = [0, 1]
      ∧ (maybeSpawnBoss quietEnv bossDueState).enemies = []
      ∧ (maybeSpawnBoss quietEnv bossDueState).boss ≠ none
      ∧ (maybeSpawnBoss quietEnv bossDueState).bossLevel = 1 := by
  have h := (maybeSpawnBoss_spec quietEnv bossDueState).2.1 (by decide!) (by decide!)
  refine ⟨by decide!, by decide!, by decide!, by decide!, by decide!, h.1, h.2.1,
    h.2.2.trans (by decide!)⟩

theorem enemyBulletLoop_no_hit (env : Env) (n : ℕ) :
    ∀ s : State,
      (∀ j b, j < n → s.enemyBullets[j]? = some b → rectHit s.player.rect b.rect = false) →
      handleHits.enemyBulletLoop env n s = s := by
  induction n with
  | zero => intro s _; rfl
  | succ i ih =>
    intro s h
    unfold handleHits.enemyBulletLoop
    have hrest := ih s (fun j b hj hb => h j b (Nat.lt_succ_of_lt hj) hb)
    cases hb : s.enemyBullets[i]? with
    | none => exact hrest
    | some bullet =>
      have := h i bullet (Nat.lt_succ_self i) hb
      simp only [this]
      exact hrest

theorem enemyBulletLoop_skip (env : Env) (s : State) (n : ℕ) (m : ℕ)
    (h : ∀ j b, n ≤ j → j < n + m → s.enemyBullets[j]? = some b →
      rectHit s.player.rect b.rect = false) :
    handleHits.enemyBulletLoop env (n + m) s = handleHits.enemyBulletLoop env n s := by
  induction m with
  | zero => rfl
  | succ k ih =>
    have hrest := ih (fun j b h1 h2 hb => h j b h1 (by omega) hb)
    rw [← hrest, ← Nat.add_assoc]
    conv_lhs => unfold handleHits.enemyBulletLoop
    cases hb : s.enemyBullets[n + k]? with
    | none => rfl
    | some bullet =>
      have := h (n + k) bullet (by omega) (by omega) hb
      simp only [this]
      rfl

theorem reflectBullet_fields (env : Env) (s : State) (i : ℕ) (bullet : EnemyBullet) :
    (handleHits.reflectBullet env s i bullet).enemyBullets = s.enemyBullets.eraseIdx i
      ∧ (handleHits.reflectBullet env s i bullet).player = s.player
      ∧ (handleHits.reflectBullet env s i bullet).lives = s.lives
      ∧ (handleHits.reflectBullet env s i bullet).reflectCooldown
          = max (0.1 : ℚ) (0.52 - 0.05 * (s.effects.reflect : ℚ))
      ∧ ∃ b : Bullet,
          (handleHits.reflectBullet env s i bullet).playerBullets = s.playerBullets ++ [b]
            ∧ b.type = BulletType.reflected ∧ b.vy = -|bullet.vy| - 80 := by
  refine ⟨rfl, rfl, rfl, ?_, ?_⟩
  · simp [handleHits.reflectBullet, random, addPlayerBullet, mul_comm]
  · exact ⟨_, rfl, rfl, rfl⟩

/-- C10: with reflect at tier r >= 1 and the reflect cooldown at zero, when
exactly one enemy bullet overlaps the player, the enemy-bullet loop of
`handleHits` removes that bullet from the enemy bullets, appends exactly one
player bullet of type reflected with vertical velocity -|vy| - 80 < 0, leaves
lives unchanged and sets the reflect cooldown to max(0.1, 0.52 - 0.05 r). -/
theorem handleHits_reflects (env : Env) (s : State) (pre post : List EnemyBullet)
    (bullet : EnemyBullet)
    (hr : 1 ≤ s.effects.reflect) (hc : s.reflectCooldown = 0)
    (hlist : s.enemyBullets = pre ++ bullet :: post)
    (hhit : rectHit s.player.rect bullet.rect = true)
    (hpre : ∀ b ∈ pre, rectHit s.player.rect b.rect = false)
    (hpost : ∀ b ∈ post, rectHit s.player.rect b.rect = false) :
    (handleHits.enemyBulletLoop env s.enemyBullets.length s).enemyBullets = pre ++ post
      ∧ (∃ b : Bullet,
          (handleHits.enemyBulletLoop env s.enemyBullets.length s).playerBullets
              = s.playerBullets ++ [b]
            ∧ b.type = BulletType.reflected ∧ b.vy = -|bullet.vy| - 80 ∧ b.vy < 0)
      ∧ (handleHits.enemyBulletLoop env s.enemyBullets.length s).lives = s.lives
      ∧ (handleHits.enemyBulletLoop env s.enemyBullets.length s).reflectCooldown
          = max (0.1 : ℚ) (0.52 - 0.05 * (s.effects.reflect : ℚ)) := by
  have hlen : s.enemyBullets.length = (pre.length + 1) + post.length := by
    rw [hlist]; simp; omega
  have hat : s.enemyBullets[pre.length]? = some bullet := by
    rw [hlist, List.getElem?_append_right (le_refl _)]; simp
  have hskip : handleHits.enemyBulletLoop env s.enemyBullets.length s
      = handleHits.enemyBulletLoop env (pre.length + 1) s := by
    rw [hlen]
    apply enemyBulletLoop_skip
    intro j b h1 h2 hb
    apply hpost b
    rw [hlist, List.getElem?_append_right (by omega)] at hb
    have hj : j - pre.length = (j - pre.length - 1) + 1 := by omega
    rw [hj, List.getElem?_cons_succ] at hb
    exact List.getElem?_mem hb
  have hcond : s.effects.reflect > 0 ∧ s.reflectCooldown ≤ 0 := ⟨by omega, by rw [hc]⟩
  have hf := reflectBullet_fields env s pre.length bullet
  have hstep : handleHits.enemyBulletLoop env (pre.length + 1) s
      = handleHits.reflectBullet env s pre.length bullet := by
    conv_lhs => unfold handleHits.enemyBulletLoop
    simp only [hat, hhit, if_true, hcond, and_self]
    apply enemyBulletLoop_no_hit
    intro j b hj hb
    rw [hf.2.1]
    apply hpre b
    rw [hf.1, hlist, List.eraseIdx_append_of_length_le (le_refl _)] at hb
    rw [List.getElem?_append_left hj] at hb
    exact List.getElem?_mem hb
  rw [hskip, hstep]
  obtain ⟨b, hb1, hb2, hb3⟩ := hf.2.2.2.2
  refine ⟨?_, ⟨b, hb1, hb2, hb3, ?_⟩, hf.2.2.1, hf.2.2.2.1⟩
  · rw [hf.1, hlist, List.eraseIdx_append_of_length_le (le_refl _)]
    simp
  · rw [hb3]
    have := abs_nonneg bullet.vy
    linarith

/-- C10 at reflect tier 1 and a bullet of damage 1: the touching bullet is
removed, one reflected player bullet with vertical velocity -280 is added, no
life is lost and the reflect cooldown becomes 0.47; the same holds for the
whole of `handleHits`. -/
theorem handleHits_reflects_tier1 :
    (handleHits.enemyBulletLoop quietEnv reflectState.enemyBullets.length
        reflectState).enemyBullets = [farBulletA, farBulletB]
      ∧ (∃ b : Bullet,
          (handleHits.enemyBulletLoop quietEnv reflectState.enemyBullets.length
              reflectState).playerBullets = [b]
            ∧ b.type = BulletType.reflected ∧ b.vy = -280)
      ∧ (handleHits.enemyBulletLoop quietEnv reflectState.enemyBullets.length
          reflectState).lives = 8
      ∧ (handleHits.enemyBulletLoop quietEnv reflectState.enemyBullets.length
          reflectState).reflectCooldown = 0.47
      ∧ (handleHits quietEnv reflectState).map
          (fun s => (s.enemyBullets, s.playerBullets.map (fun b => (b.type, b.vy)), s.lives,
            s.reflectCooldown))
          = some ([farBulletA, farBulletB], [(BulletType.reflected, -280)], 8, 0.47) := by
  have h := handleHits_reflects quietEnv reflectState [farBulletA] [farBulletB] touchingBullet
    (by decide!) (by decide!) (by decide!) (by decide!) (by decide!) (by decide!)
  obtain ⟨h1, ⟨b, hb1, hb2, hb3, _⟩, h3, h4⟩ := h
  refine ⟨h1, ⟨b, hb1, hb2, hb3.trans (by decide!)⟩, h3.trans (by decide!),
    h4.trans (by decide!), by decide!⟩

/-- C1: the code counts the kill twice. `weakEnemy` (hp 1, at (100, 100)) is
alone on the field and is hit by an explosive bullet with pierce 0; no chain
gear, no boss. After `handleHits` the enemy is removed and one explosion record
lies at the centre of the bullet, but the kill count has risen by 2 and the
score by 30: `addExplosion` finds the hit enemy inside its own blast and counts
it, and `handleHits` counts it again. -/
theorem handleHits_explosive_double_kill :
    explosiveHitState.kills = 0 ∧ explosiveHitState.score = 0
      ∧ explosiveHitState.effects.chain = 0 ∧ explosiveHitState.boss = none
      ∧ (handleHits quietEnv explosiveHitState).map
          (fun s => (s.enemies, s.explosions, s.playerBullets, s.kills, s.score))
          = some ([], [⟨115, 127, 58, 0.26⟩], [], 2, 30) := by
  decide!

theorem maybeDropPowerup_frame (env : Env) (s : State) (x y mult : ℚ) :
    (maybeDropPowerup env s x y mult).chainArcs = s.chainArcs
      ∧ (maybeDropPowerup env s x y mult).enemyObjs = s.enemyObjs
      ∧ (maybeDropPowerup env s x y mult).bossObjs = s.bossObjs := by
  unfold maybeDropPowerup
  simp only [random]
  split_ifs
  · exact ⟨rfl, rfl, rfl⟩
  · exact ⟨rfl, rfl, rfl⟩

theorem defeatBoss_frame (env : Env) (s : State) (x y : ℚ) (bonus : ℤ) :
    (defeatBoss env s x y bonus).chainArcs = s.chainArcs
      ∧ (defeatBoss env s x y bonus).enemyObjs = s.enemyObjs
      ∧ (defeatBoss env s x y bonus).bossObjs = s.bossObjs := by
  unfold defeatBoss
  cases s.boss with
  | none => exact ⟨rfl, rfl, rfl⟩
  | some b => exact ⟨rfl, rfl, rfl⟩

theorem targetHp_congr (s s2 : State) (t : Target)
    (he : s2.enemyObjs = s.enemyObjs) (hb : s2.bossObjs = s.bossObjs) :
    s2.targetHp t = s.targetHp t := by
  cases t <;> simp [State.targetHp, he, hb]

theorem setTargetHp_frame (s : State) (t : Target) (v : ℚ) :
    (s.setTargetHp t v).chainArcs = s.chainArcs
      ∧ ∀ u, u ≠ t → (s.setTargetHp t v).targetHp u = s.targetHp u := by
  refine ⟨by cases t <;> rfl, ?_⟩
  intro u hu
  cases t with
  | enemy r =>
    cases u with
    | enemy q =>
      have hq : q ≠ r := fun h => hu (by rw [h])
      simp [State.setTargetHp, State.setEnemyHp, State.targetHp, Function.update, hq]
    | boss q => rfl
  | boss r =>
    cases u with
    | enemy q => rfl
    | boss q =>
      have hq : q ≠ r := fun h => hu (by rw [h])
      simp [State.setTargetHp, State.setBossHp, State.targetHp, Function.update, hq]

theorem addArc_frame (s : State) (source best : Target) :
    (chainDamage.addArc s source best).chainArcs.length = s.chainArcs.length + 1
      ∧ ∀ u, (chainDamage.addArc s source best).targetHp u = s.targetHp u := by
  refine ⟨by simp [chainDamage.addArc], fun u => targetHp_congr _ _ _ rfl rfl⟩

theorem bossHop_frame (env : Env) (s : State) (best : Target) :
    (chainDamage.bossHop env s best).chainArcs = s.chainArcs
      ∧ ∀ u, u ≠ best → (chainDamage.bossHop env s best).targetHp u = s.targetHp u := by
  unfold chainDamage.bossHop
  have hset := setTargetHp_frame s best (s.targetHp best - 5)
  simp only []
  split_ifs
  · have hd := defeatBoss_frame env (s.setTargetHp best (s.targetHp best - 5))
      (((s.setTargetHp best (s.targetHp best - 5)).targetRect best).x
        + ((s.setTargetHp best (s.targetHp best - 5)).targetRect best).w / 2)
      (((s.setTargetHp best (s.targetHp best - 5)).targetRect best).y
        + ((s.setTargetHp best (s.targetHp best - 5)).targetRect best).h / 2) (-100)
    exact ⟨hd.1.trans hset.1,
      fun u hu => (targetHp_congr _ _ u hd.2.1 hd.2.2).trans (hset.2 u hu)⟩
  · exact hset

theorem enemyHop_frame (env : Env) (s : State) (best : Target) :
    (chainDamage.enemyHop env s best).chainArcs = s.chainArcs
      ∧ ∀ u, u ≠ best → (chainDamage.enemyHop env s best).targetHp u = s.targetHp u := by
  unfold chainDamage.enemyHop
  have hset := setTargetHp_frame s best (s.targetHp best - 2)
  simp only []
  split_ifs
  · cases (s.setTargetHp best (s.targetHp best - 2)).enemiesIndexOf best with
    | none => exact hset
    | some idx =>
      simp only []
      refine ⟨((maybeDropPowerup_frame _ _ _ _ _).1).trans hset.1, fun u hu => ?_⟩
      exact (targetHp_congr _ _ u (maybeDropPowerup_frame _ _ _ _ _).2.1
        (maybeDropPowerup_frame _ _ _ _ _).2.2).trans
        ((targetHp_congr _ (s.setTargetHp best (s.targetHp best - 2)) u rfl rfl).trans
          (hset.2 u hu))
  · exact hset

theorem scan_unvisited (s : State) (visited : List Target) (source : Target) (rest : List ℕ) :
    ∀ (acc : Option (ℕ × ℚ)) (e : ℕ) (d : ℚ),
      chainDamage.scan s visited source rest acc = some (e, d) →
      acc = some (e, d) ∨ Target.enemy e ∉ visited := by
  induction rest with
  | nil => intro acc e d h; exact Or.inl h
  | cons x xs ih =>
    intro acc e d h
    unfold chainDamage.scan at h
    by_cases hv : Target.enemy x ∈ visited
    · rw [if_pos hv] at h
      exact ih acc e d h
    · rw [if_neg hv] at h
      simp only [] at h
      split_ifs at h
      · rcases ih _ e d h with h2 | h2
        · simp only [Option.some.injEq, Prod.mk.injEq] at h2
          right
          rw [← h2.1]
          exact hv
        · exact Or.inr h2
      · exact ih acc e d h

theorem pick_unvisited (s : State) (visited : List Target) (source best : Target)
    (h : chainDamage.pick s visited source = some best) : best ∉ visited := by
  unfold chainDamage.pick at h
  cases hs : chainDamage.scan s visited source s.enemies none with
  | some p =>
    rw [hs] at h
    simp only [Option.some.injEq] at h
    rcases scan_unvisited s visited source s.enemies none p.1 p.2 hs with h2 | h2
    · exact absurd h2 (by simp)
    · rw [← h]; exact h2
  | none =>
    rw [hs] at h
    cases hb : s.boss with
    | none => rw [hb] at h; exact absurd h (by simp)
    | some b =>
      rw [hb] at h
      simp only [] at h
      split_ifs at h with hv hd
      simp only [Option.some.injEq] at h
      rw [← h]; exact hv

theorem chainDamage_loop_spec (env : Env) (n : ℕ) :
    ∀ (s : State) (visited : List Target) (source : Target),
      (chainDamage.loop env n s visited source).2.length ≤ n
        ∧ (∀ t ∈ (chainDamage.loop env n s visited source).2, t ∉ visited)
        ∧ (chainDamage.loop env n s visited source).2.Nodup
        ∧ (chainDamage.loop env n s visited source).1.chainArcs.length
            = s.chainArcs.length + (chainDamage.loop env n s visited source).2.length
        ∧ (∀ u, u ∉ (chainDamage.loop env n s visited source).2 →
            (chainDamage.loop env n s visited source).1.targetHp u = s.targetHp u) := by
  induction n with
  | zero =>
    intro s visited source
    simp [chainDamage.loop]
  | succ n ih =>
    intro s visited source
    unfold chainDamage.loop
    cases hp : chainDamage.pick s visited source with
    | none => simp
    | some best =>
      have hbest := pick_unvisited s visited source best hp
      have harc := addArc_frame s source best
      simp only []
      split_ifs with hboss
      · have hf := bossHop_frame env (chainDamage.addArc s source best) best
        refine ⟨by simp, ?_, by simp, ?_, ?_⟩
        · intro t ht
          simp only [List.mem_singleton] at ht
          rw [ht]; exact hbest
        · simp only [List.length_singleton]
          rw [hf.1, harc.1]
        · intro u hu
          simp only [List.mem_singleton] at hu
          rw [hf.2 u hu, harc.2]
      · have hf := enemyHop_frame env (chainDamage.addArc s source best) best
        obtain ⟨h1, h2, h3, h4, h5⟩ := ih (chainDamage.enemyHop env
          (chainDamage.addArc s source best) best) (visited ++ [best]) best
        refine ⟨by simp; omega, ?_, ?_, ?_, ?_⟩
        · intro t ht
          simp only [List.mem_cons] at ht
          rcases ht with ht | ht
          · rw [ht]; exact hbest
          · exact fun hv => h2 t ht (List.mem_append_left _ hv)
        · simp only [List.nodup_cons]
          exact ⟨fun hm => h2 best hm (by simp), h3⟩
        · simp only [List.length_cons]
          rw [h4, hf.1, harc.1]
          omega
        · intro u hu
          simp only [List.mem_cons, not_or] at hu
          rw [h5 u hu.2, hf.2 u hu.1, harc.2]

/-- C7: with chain gear equipped, one invocation of `chainDamage` makes at most
3 hops: it adds one chain arc per hop, changes the hit points of no object
other than the hop targets, and the hop targets are pairwise distinct and all
different from the start target. -/
theorem chainDamage_at_most_three_hops (env : Env) (s : State) (start : Target)
    (hchain : 0 < s.effects.chain) :
    (chainDamage.hops env s start).length ≤ 3
      ∧ (chainDamage env s start).chainArcs.length
          = s.chainArcs.length + (chainDamage.hops env s start).length
      ∧ (∀ u, u ∉ chainDamage.hops env s start →
          (chainDamage env s start).targetHp u = s.targetHp u)
      ∧ (chainDamage.hops env s start).Nodup
      ∧ start ∉ chainDamage.hops env s start := by
  have hc : ¬ s.effects.chain ≤ 0 := not_le.mpr hchain
  obtain ⟨h1, h2, h3, h4, h5⟩ := chainDamage_loop_spec env 3 s [start] start
  simp only [chainDamage.hops, chainDamage, hc, if_false]
  exact ⟨h1, h4, h5, h3, fun hm => h2 start hm (by simp)⟩

/-- C7 on a row of five enemies 50 apart, started at the middle one: two hops,
to the two enemies on the left, each losing 2 hit points; two arcs. -/
theorem chainDamage_row_example :
    chainDamage.hops quietEnv chainRowState (Target.enemy 2) = [Target.enemy 1, Target.enemy 0]
      ∧ (chainDamage quietEnv chainRowState (Target.enemy 2)).chainArcs.length = 2
      ∧ (chainDamage quietEnv chainRowState (Target.enemy 2)).targetHp (Target.enemy 1) = 1
      ∧ (chainDamage quietEnv chainRowState (Target.enemy 2)).targetHp (Target.enemy 3) = 3 := by
  have h := chainDamage_at_most_three_hops quietEnv chainRowState (Target.enemy 2) (by decide!)
  have hh : chainDamage.hops quietEnv chainRowState (Target.enemy 2)
      = [Target.enemy 1, Target.enemy 0] := by decide!
  refine ⟨hh, ?_, by decide!, ?_⟩
  · rw [h.2.1, hh]; decide!
  · rw [h.2.2.1 (Target.enemy 3) (by rw [hh]; decide)]; decide!

theorem spawnBossReward_fields (env : Env) (s : State) (x y : ℚ) :
    (spawnBossReward env s x y).score = s.score
      ∧ (spawnBossReward env s x y).bossLevel = s.bossLevel
      ∧ (spawnBossReward env s x y).nextBossAt = s.nextBossAt
      ∧ ∃ p : Powerup, (spawnBossReward env s x y).powerups = s.powerups ++ [p]
          ∧ p.bossReward = true
          ∧ p.tier = (rollPowerupTier env (random env s).2 3).1 :=
  ⟨rfl, rfl, rfl, _, rfl, rfl, rfl⟩

/-- C12: with a boss present at tier L, `defeatBoss(x, y, bonus)` adds
520 + 160 L + bonus to the score, appends exactly one boss-reward power-up,
clears the boss and raises nextBossAt by 18 + 8 L; with no boss it returns the
state unchanged, so a second call in a row changes nothing. -/
theorem defeatBoss_spec (env : Env) (s : State) (x y : ℚ) (bonus : ℤ) :
    (s.boss ≠ none →
        (defeatBoss env s x y bonus).score = s.score + (520 + 160 * s.bossLevel + bonus)
          ∧ (∃ p : Powerup, (defeatBoss env s x y bonus).powerups = s.powerups ++ [p]
              ∧ p.bossReward = true)
          ∧ (defeatBoss env s x y bonus).boss = none
          ∧ (defeatBoss env s x y bonus).nextBossAt = s.nextBossAt + (18 + 8 * s.bossLevel))
      ∧ (s.boss = none → defeatBoss env s x y bonus = s)
      ∧ defeatBoss env (defeatBoss env s x y bonus) x y bonus = defeatBoss env s x y bonus := by
  have hnone : ∀ t : State, t.boss = none → defeatBoss env t x y bonus = t := by
    intro t ht
    simp [defeatBoss, ht]
  refine ⟨?_, hnone s, ?_⟩
  · intro hb
    cases hs : s.boss with
    | none => exact absurd hs hb
    | some b =>
      simp only [defeatBoss, hs]
      refine ⟨?_, ⟨_, rfl, rfl⟩, trivial, ?_⟩
      · show s.score + (520 + s.bossLevel * 160 + bonus) = _
        ring
      · show s.nextBossAt + (18 + s.bossLevel * 8) = _
        ring
  · apply hnone
    cases hs : s.boss with
    | none => rw [hnone s hs]; exact hs
    | some b => simp [defeatBoss, hs]

/-- C12 at the first boss fight (tier 1): the chain path (bonus -100) adds 580
to the score, leaves one boss-reward power-up, clears the boss and moves the next
threshold from 18 to 44. -/
theorem defeatBoss_first_boss :
    bossFightState.boss = some 0 ∧ bossFightState.bossLevel = 1
      ∧ (defeatBoss quietEnv bossFightState 240 82 (-100)).score = 580
      ∧ (defeatBoss quietEnv bossFightState 240 82 (-100)).powerups.map
          (fun p => p.bossReward) = [true]
      ∧ (defeatBoss quietEnv bossFightState 240 82 (-100)).boss = none
      ∧ (defeatBoss quietEnv bossFightState 240 82 (-100)).nextBossAt = 44 := by
  have h := (defeatBoss_spec quietEnv bossFightState 240 82 (-100)).1 (by decide)
  refine ⟨by decide!, by decide!, h.1.trans (by decide!), by decide!, h.2.2.1,
    h.2.2.2.trans (by decide!)⟩

/-- C13: when the simulation is not running, `update(dt)` returns the state
unchanged: simulation fields, player and every collection. -/
theorem update_not_running (env : Env) (s : State) (dt : ℚ) (h : s.running = false) :
    update env s dt = some s := by
  simp [update, h]

/-- C13 on a finished game. -/
theorem update_game_over :
    gameOverState.running = false ∧ update quietEnv gameOverState 0.033 = some gameOverState :=
  ⟨rfl, update_not_running quietEnv gameOverState 0.033 rfl⟩

/-- C14: `reset` is idempotent: two calls in a row give the state of one call. -/
theorem reset_idempotent (env : Env) (s : State) : reset env (reset env s) = reset env s := by
  rfl

/-- C15: after `reset` the simulation runs with score 0, time 0, kills 0,
level 1, full lives, boss tier 0, no boss, next boss at 18, every gear tier 0,
the four cooldowns 0, spawn timer 1.15, the beam inactive and all six
collections empty. -/
theorem reset_initial_values (env : Env) (s : State) :
    (reset env s).running = true ∧ (reset env s).score = 0 ∧ (reset env s).time = 0
      ∧ (reset env s).kills = 0 ∧ (reset env s).level = 1
      ∧ (reset env s).lives = s.maxLives ∧ (reset env s).maxLives = s.maxLives
      ∧ (reset env s).bossLevel = 0 ∧ (reset env s).boss = none
      ∧ (reset env s).nextBossAt = 18
      ∧ (∀ k : GearKind, (reset env s).effects.get k = 0)
      ∧ (reset env s).shootCooldown = 0 ∧ (reset env s).hitCooldown = 0
      ∧ (reset env s).shieldBlockCooldown = 0 ∧ (reset env s).reflectCooldown = 0
      ∧ (reset env s).spawnTimer = 1.15 ∧ (reset env s).beamActive = false
      ∧ (reset env s).enemies = [] ∧ (reset env s).playerBullets = []
      ∧ (reset env s).enemyBullets = [] ∧ (reset env s).powerups = []
      ∧ (reset env s).chainArcs = [] ∧ (reset env s).explosions = [] := by
  refine ⟨rfl, rfl, rfl, rfl, rfl, rfl, rfl, rfl, rfl, rfl, ?_, rfl, rfl, rfl, rfl, rfl, rfl,
    rfl, rfl, rfl, rfl, rfl, rfl⟩
  intro k
  cases k <;> rfl

theorem onlyBullets_refl (s : State) : OnlyBullets s s := ⟨s.playerBullets, rfl⟩

theorem onlyBullets_trans {s s2 s3 : State} (h1 : OnlyBullets s s2) (h2 : OnlyBullets s2 s3) :
    OnlyBullets s s3 := by
  obtain ⟨b1, rfl⟩ := h1
  obtain ⟨b2, rfl⟩ := h2
  exact ⟨b2, rfl⟩

theorem addPlayerBullet_only (s : State) (d : BulletData) : OnlyBullets s (addPlayerBullet s d) :=
  ⟨_, rfl⟩

theorem onlyBullets_add {s t : State} (h : OnlyBullets s t) (d : BulletData) :
    OnlyBullets s (addPlayerBullet t d) :=
  onlyBullets_trans h ⟨_, rfl⟩

theorem onlyBullets_ite {s a b : State} (c : Prop) [Decidable c]
    (ha : OnlyBullets s a) (hb : OnlyBullets s b) : OnlyBullets s (if c then a else b) := by
  split_ifs
  · exact ha
  · exact hb

theorem fireWingman_only (s : State) (cx : ℚ) : OnlyBullets s (fireWingman s cx) := by
  have h1 : ∀ (t : State) (l : ℤ) (y : ℚ), OnlyBullets t (fireWingman.sideShots t l y) :=
    fun t l y => ⟨_, rfl⟩
  have h2 : ∀ (t : State) (l : ℤ), OnlyBullets t (fireWingman.forwardShot t l cx) := by
    intro t l
    unfold fireWingman.forwardShot
    exact onlyBullets_ite _ ⟨_, rfl⟩ (onlyBullets_refl t)
  have h3 : ∀ (t : State) (l : ℤ), OnlyBullets t (fireWingman.angledShots t l) := by
    intro t l
    unfold fireWingman.angledShots
    exact onlyBullets_ite _ ⟨_, rfl⟩ (onlyBullets_refl t)
  have h4 : ∀ (t : State) (l : ℤ), OnlyBullets t (fireWingman.missiles t l) := by
    intro t l
    unfold fireWingman.missiles
    exact onlyBullets_ite _ ⟨_, rfl⟩ (onlyBullets_refl t)
  unfold fireWingman
  refine onlyBullets_ite _ (onlyBullets_refl s) ?_
  exact onlyBullets_trans (onlyBullets_trans (h1 _ _ _) (h2 _ _))
    (onlyBullets_trans (h3 _ _) (h4 _ _))

theorem normalShots_only (cx baseDamage sizeMul : ℚ) (spread : ℕ) (l : List ℕ) :
    ∀ s t : State, OnlyBullets s t → OnlyBullets s
      (l.foldl (fun s i => firePlayer.normalShot s cx baseDamage sizeMul spread i) t) := by
  induction l with
  | nil => intro s t h; exact h
  | cons i l ih =>
    intro s t h
    simp only [List.foldl_cons]
    exact ih s _ (onlyBullets_trans h ⟨_, rfl⟩)

theorem firePlayer_only (s : State) : OnlyBullets s (firePlayer s) := by
  unfold firePlayer
  simp only []
  refine onlyBullets_trans ?_ (fireWingman_only _ _)
  apply normalShots_only
  repeat' first
    | exact onlyBullets_refl _
    | apply onlyBullets_ite
    | apply onlyBullets_add

theorem updatePlayer_move_fields (env : Env) (s : State) (dt : ℚ) :
    (updatePlayer.move env s dt).keys = s.keys
      ∧ (updatePlayer.move env s dt).shootCooldown = s.shootCooldown
      ∧ (updatePlayer.move env s dt).level = s.level
      ∧ (updatePlayer.move env s dt).effects = s.effects
      ∧ (updatePlayer.move env s dt).playerBullets = s.playerBullets :=
  ⟨rfl, rfl, rfl, rfl, rfl⟩

/-- C17: when the fire action is held and shootCooldown <= 0, `updatePlayer`
sets shootCooldown to clamp(0.24 - 0.016 (level - 1) - 0.007 wingman
(+ 0.015 with a laser), 0.06, 0.25); when fire is not held or shootCooldown > 0
no bullet is emitted and shootCooldown is unchanged. -/
theorem updatePlayer_shootCooldown (env : Env) (s : State) (dt : ℚ) :
    (s.shooting = true → s.shootCooldown ≤ 0 →
        (updatePlayer env s dt).shootCooldown
          = max (0.06 : ℚ) (min 0.25
              (0.24 - 0.016 * ((s.level : ℚ) - 1) - 0.007 * (s.effects.wingman : ℚ)
                + (if 1 ≤ s.effects.laser then 0.015 else 0))))
      ∧ (s.shooting = false ∨ 0 < s.shootCooldown →
        (updatePlayer env s dt).playerBullets = s.playerBullets
          ∧ (updatePlayer env s dt).shootCooldown = s.shootCooldown) := by
  obtain ⟨hk, hc, hl, he, hb⟩ := updatePlayer_move_fields env s dt
  have hshoot : (updatePlayer.move env s dt).shooting = s.shooting := by
    simp [State.shooting, hk]
  constructor
  · intro h1 h2
    have hcond : (updatePlayer.move env s dt).shooting = true
        ∧ (updatePlayer.move env s dt).shootCooldown ≤ 0 := ⟨hshoot.trans h1, hc ▸ h2⟩
    obtain ⟨bs, hbs⟩ := firePlayer_only (updatePlayer.move env s dt)
    simp only [updatePlayer, hcond, and_self, if_true]
    rw [hbs]
    simp only [updatePlayer.cooldown, clamp, hl, he]
    congr 2
    by_cases hz : s.effects.laser > 0
    · have hz2 : 1 ≤ s.effects.laser := by omega
      simp only [hz, hz2, if_true]
      ring
    · have hz2 : ¬ 1 ≤ s.effects.laser := by omega
      simp only [hz, hz2, if_false]
      ring
  · intro h
    have hcond : ¬ ((updatePlayer.move env s dt).shooting = true
        ∧ (updatePlayer.move env s dt).shootCooldown ≤ 0) := by
      rw [hshoot, hc]
      rintro ⟨h1, h2⟩
      rcases h with h | h
      · rw [h] at h1; exact absurd h1 (by decide)
      · exact absurd h2 (not_le.mpr h)
    simp only [updatePlayer, hcond, if_false]
    exact ⟨hb, hc⟩

/-- C17 at the start state: with fire held the cooldown becomes 0.24 and one
bullet is emitted; without fire nothing is emitted and the cooldown stays 0. -/
theorem updatePlayer_shootCooldown_start :
    (updatePlayer quietEnv firingState 0.033).shootCooldown = 0.24
      ∧ (updatePlayer quietEnv firingState 0.033).playerBullets.length = 1
      ∧ (updatePlayer quietEnv startState 0.033).playerBullets = []
      ∧ (updatePlayer quietEnv startState 0.033).shootCooldown = 0 := by
  have h1 := (updatePlayer_shootCooldown quietEnv firingState 0.033).1 (by decide) (by decide!)
  have h2 := (updatePlayer_shootCooldown quietEnv startState 0.033).2 (Or.inl (by decide))
  exact ⟨h1.trans (by decide!), by decide!, h2.1, h2.2⟩

/-- C18: for a minimum tier m <= 4 (so for m in 1..4), `rollPowerupTier(m)`
returns a tier in [m, 4], whatever the elapsed time and the random draw; so the
power-up that `spawnBossReward` appends has tier 3 or 4 and carries the
boss-reward flag. -/
theorem rollPowerupTier_range (env : Env) (s : State) (m : ℤ) (h4 : m ≤ 4) :
    (m ≤ (rollPowerupTier env s m).1 ∧ (rollPowerupTier env s m).1 ≤ 4)
      ∧ ∀ x y : ℚ, ∃ p : Powerup, (spawnBossReward env s x y).powerups = s.powerups ++ [p]
          ∧ (p.tier = 3 ∨ p.tier = 4) ∧ p.bossReward = true := by
  have hroll : ∀ (t : State) (k : ℤ), k ≤ 4 →
      k ≤ (rollPowerupTier env t k).1 ∧ (rollPowerupTier env t k).1 ≤ 4 := by
    intro t k hk
    simp only [rollPowerupTier, random]
    split_ifs <;> omega
  refine ⟨hroll s m h4, ?_⟩
  intro x y
  obtain ⟨_, _, _, p, hp1, hp2, hp3⟩ := spawnBossReward_fields env s x y
  have := hroll (random env s).2 3 (by norm_num)
  exact ⟨p, hp1, by rw [hp3]; omega, hp2⟩

/-- C18 at the start state: the rolled tier for minimum 3 is 3, and the boss
reward is a tier-3 power-up with the boss-reward flag. -/
theorem rollPowerupTier_range_start :
    (rollPowerupTier quietEnv startState 3).1 = 3
      ∧ (3 ≤ (rollPowerupTier quietEnv startState 3).1
        ∧ (rollPowerupTier quietEnv startState 3).1 ≤ 4)
      ∧ (spawnBossReward quietEnv startState 240 82).powerups.map
          (fun p => (p.tier, p.bossReward)) = [(3, true)] :=
  ⟨by decide!, (rollPowerupTier_range quietEnv startState 3 (by norm_num)).1, by decide!⟩

theorem clamp_bounds (v lo hi : ℚ) (h : lo ≤ hi) : lo ≤ clamp v lo hi ∧ clamp v lo hi ≤ hi :=
  ⟨le_max_left _ _, max_le h (min_le_left _ _)⟩

theorem updatePlayer_shift_size (s : State) (dt : ℚ) :
    (updatePlayer.shift s dt).w = s.player.w ∧ (updatePlayer.shift s dt).h = s.player.h := by
  unfold updatePlayer.shift
  simp only []
  split_ifs <;> exact ⟨rfl, rfl⟩

theorem updatePlayer_move_bounds (env : Env) (s : State) (dt : ℚ)
    (hw : s.player.w ≤ env.width) (hh : 0.22 * env.height ≤ env.height - s.player.h) :
    0 ≤ (updatePlayer.move env s dt).player.x
      ∧ (updatePlayer.move env s dt).player.x ≤ env.width - (updatePlayer.move env s dt).player.w
      ∧ 0.22 * env.height ≤ (updatePlayer.move env s dt).player.y
      ∧ (updatePlayer.move env s dt).player.y
          ≤ env.height - (updatePlayer.move env s dt).player.h := by
  obtain ⟨h1, h2⟩ := updatePlayer_shift_size s dt
  have hx := clamp_bounds (updatePlayer.shift s dt).x 0 (env.width - (updatePlayer.shift s dt).w)
    (by rw [h1]; linarith)
  have hy := clamp_bounds (updatePlayer.shift s dt).y (env.height * 0.22)
    (env.height - (updatePlayer.shift s dt).h) (by rw [h2]; linarith)
  refine ⟨hx.1, hx.2, ?_, hy.2⟩
  have := hy.1
  show 0.22 * env.height ≤ clamp _ _ _
  linarith

/-- C20: on a play field with width >= player.w and
0.22 height <= height - player.h, after `updatePlayer` the player satisfies
0 <= x <= width - player.w and 0.22 height <= y <= height - player.h, for every
previous position, key set and dt. -/
theorem updatePlayer_in_bounds (env : Env) (s : State) (dt : ℚ)
    (hw : s.player.w ≤ env.width) (hh : 0.22 * env.height ≤ env.height - s.player.h) :
    0 ≤ (updatePlayer env s dt).player.x
      ∧ (updatePlayer env s dt).player.x ≤ env.width - (updatePlayer env s dt).player.w
      ∧ 0.22 * env.height ≤ (updatePlayer env s dt).player.y
      ∧ (updatePlayer env s dt).player.y ≤ env.height - (updatePlayer env s dt).player.h := by
  have hm := updatePlayer_move_bounds env s dt hw hh
  unfold updatePlayer
  simp only []
  split_ifs
  · obtain ⟨bs, hbs⟩ := firePlayer_only (updatePlayer.move env s dt)
    rw [hbs]
    exact hm
  · exact hm

/-- C20 near the top left corner with left and up held for a long tick: the
player stops at x = 0 and y = 0.22 * 640 = 140.8. -/
theorem updatePlayer_in_bounds_corner :
    (updatePlayer quietEnv cornerState 0.033).player.x = 0
      ∧ (updatePlayer quietEnv cornerState 0.033).player.y = 140.8
      ∧ 0 ≤ (updatePlayer quietEnv cornerState 0.033).player.x
      ∧ (updatePlayer quietEnv cornerState 0.033).player.y
          ≤ quietEnv.height - (updatePlayer quietEnv cornerState 0.033).player.h := by
  have h := updatePlayer_in_bounds quietEnv cornerState 0.033 (by decide!) (by decide!)
  exact ⟨by decide!, by decide!, h.1, h.2.2.2⟩

/-- C11: only the direct bullet hit raises the level. From 11 kills, a direct
hit brings the count to 12 and the level to 2; a beam kill, an explosion splash
kill and a chain hop kill each bring the count to 12 and leave the level at 1. -/
theorem level_up_only_on_direct_kill :
    (handleHits quietEnv directKillState).map (fun s => (s.kills, s.level)) = some (12, 2)
      ∧ ((updateBeamDamage quietEnv beamKillState 0.033).kills,
          (updateBeamDamage quietEnv beamKillState 0.033).level,
          (updateBeamDamage quietEnv beamKillState 0.033).enemies) = (12, 1, [])
      ∧ (handleHits quietEnv splashKillState).map (fun s => (s.kills, s.level, s.enemies))
          = some (12, 1, [0])
      ∧ (handleHits quietEnv chainKillState).map (fun s => (s.kills, s.level, s.enemies))
          = some (12, 1, [0]) := by
  decide!

theorem maybeDropPowerup_shape (env : Env) (s : State) (x y mult : ℚ) :
    ∃ ps d, maybeDropPowerup env s x y mult = { s with powerups := ps, draws := d } := by
  unfold maybeDropPowerup
  simp only [random]
  split_ifs
  · exact ⟨_, _, rfl⟩
  · exact ⟨_, _, rfl⟩

theorem defeatBoss_shape (env : Env) (s : State) (x y : ℚ) (bonus : ℤ) :
    ∃ sc ps b n d, defeatBoss env s x y bonus
      = { s with score := sc, powerups := ps, boss := b, nextBossAt := n, draws := d } := by
  unfold defeatBoss
  cases s.boss with
  | none => exact ⟨_, _, _, _, _, rfl⟩
  | some b => exact ⟨_, _, _, _, _, rfl⟩

theorem take_eraseIdx_self {α : Type} (l : List α) (i : ℕ) : (l.eraseIdx i).take i = l.take i := by
  rw [List.eraseIdx_eq_take_drop_succ]
  by_cases h : i ≤ l.length
  · exact List.take_left' (List.length_take_of_le h)
  · have h2 : l.length ≤ i := by omega
    rw [List.take_of_length_le h2, List.drop_of_length_le (by omega), List.append_nil,
      List.take_of_length_le h2]

theorem burn_fields (env : Env) (tick : ℚ) (s : State) (i r : ℕ) :
    (updateBeamDamage.burn env tick s i r).enemyObjs
        = Function.update s.enemyObjs r { s.enemyObjs r with hp := (s.enemyObjs r).hp - tick }
      ∧ (updateBeamDamage.burn env tick s i r).enemies.take i = s.enemies.take i
      ∧ (updateBeamDamage.burn env tick s i r).bossObjs = s.bossObjs
      ∧ (updateBeamDamage.burn env tick s i r).boss = s.boss
      ∧ (updateBeamDamage.burn env tick s i r).player = s.player
      ∧ (updateBeamDamage.burn env tick s i r).beamWidth = s.beamWidth
      ∧ (updateBeamDamage.burn env tick s i r).beamActive = s.beamActive := by
  unfold updateBeamDamage.burn
  simp only []
  split_ifs
  · obtain ⟨ps, d, h⟩ := maybeDropPowerup_shape env
      { s.setEnemyHp r ((s.enemyObjs r).hp - tick) with
        enemies := splice (s.setEnemyHp r ((s.enemyObjs r).hp - tick)).enemies i
        kills := (s.setEnemyHp r ((s.enemyObjs r).hp - tick)).kills + 1
        score := (s.setEnemyHp r ((s.enemyObjs r).hp - tick)).score + 14 }
      ((s.enemyObjs r).x + 7) ((s.enemyObjs r).y + 7) 0.7
    rw [h]
    exact ⟨rfl, take_eraseIdx_self _ _, rfl, rfl, rfl, rfl, rfl⟩
  · exact ⟨rfl, rfl, rfl, rfl, rfl, rfl, rfl⟩

theorem beam_enemyLoop_spec (env : Env) (beam : Rect) (tick : ℚ) (n : ℕ) :
    ∀ s : State, (s.enemies.take n).Nodup →
      (∀ r, (updateBeamDamage.enemyLoop env beam tick n s).enemyObjs r
          = if r ∈ s.enemies.take n ∧ rectHit beam (s.enemyObjs r).rect = true then
              { s.enemyObjs r with hp := (s.enemyObjs r).hp - tick }
            else s.enemyObjs r)
        ∧ (updateBeamDamage.enemyLoop env beam tick n s).bossObjs = s.bossObjs
        ∧ (updateBeamDamage.enemyLoop env beam tick n s).boss = s.boss
        ∧ (updateBeamDamage.enemyLoop env beam tick n s).player = s.player
        ∧ (updateBeamDamage.enemyLoop env beam tick n s).beamWidth = s.beamWidth
        ∧ (updateBeamDamage.enemyLoop env beam tick n s).beamActive = s.beamActive := by
  induction n with
  | zero =>
    intro s _
    simp [updateBeamDamage.enemyLoop]
  | succ i ih =>
    intro s hnd
    have htake : s.enemies.take (i + 1) = s.enemies.take i ++ s.enemies[i]?.toList :=
      List.take_succ
    rw [htake] at hnd
    have hnd0 : (s.enemies.take i).Nodup := (List.nodup_append.mp hnd).1
    unfold updateBeamDamage.enemyLoop
    cases hr : s.enemies[i]? with
    | none =>
      simp only [htake, hr, Option.toList, List.append_nil]
      exact ih s hnd0
    | some r =>
      have hrnot : r ∉ s.enemies.take i := by
        rw [hr] at hnd
        intro hm
        exact (List.nodup_append.mp hnd).2.2 hm (by simp)
      simp only [htake, hr, Option.toList, List.mem_append, List.mem_singleton]
      by_cases hhit : rectHit beam (s.enemyObjs r).rect = true
      · simp only [hhit, Bool.not_true, Bool.false_eq_true, if_false]
        obtain ⟨b1, b2, b3, b4, b5, b6, b7⟩ := burn_fields env tick s i r
        obtain ⟨h1, h2, h3, h4, h5, h6⟩ :=
          ih (updateBeamDamage.burn env tick s i r) (by rw [b2]; exact hnd0)
        refine ⟨?_, h2.trans b3, h3.trans b4, h4.trans b5, h5.trans b6, h6.trans b7⟩
        intro q
        rw [h1 q, b1, b2]
        by_cases hq : q = r
        · subst hq
          simp [hrnot, hhit]
        · simp [Function.update, hq]
      · have hhit2 : rectHit beam (s.enemyObjs r).rect = false := by
          simpa using hhit
        simp only [hhit2, Bool.not_false, if_true]
        obtain ⟨h1, h2, h3, h4, h5, h6⟩ := ih s hnd0
        refine ⟨?_, h2, h3, h4, h5, h6⟩
        intro q
        rw [h1 q]
        by_cases hq : q = r
        · subst hq
          simp [hrnot, hhit2]
        · simp [hq]

theorem beam_bossPart_spec (env : Env) (beam : Rect) (tick : ℚ) (s : State) :
    (updateBeamDamage.bossPart env beam tick s).enemyObjs = s.enemyObjs
      ∧ (updateBeamDamage.bossPart env beam tick s).player = s.player
      ∧ (updateBeamDamage.bossPart env beam tick s).beamWidth = s.beamWidth
      ∧ (updateBeamDamage.bossPart env beam tick s).beamActive = s.beamActive
      ∧ ∀ b, s.boss = some b →
          ((updateBeamDamage.bossPart env beam tick s).bossObjs b).hp
            = (s.bossObjs b).hp - (if rectHit beam (s.bossObjs b).rect = true then tick * 0.9
                else 0) := by
  unfold updateBeamDamage.bossPart
  cases hb : s.boss with
  | none => simp
  | some b =>
    simp only []
    by_cases hhit : rectHit beam (s.bossObjs b).rect = true
    · simp only [hhit, if_true]
      split_ifs
      · obtain ⟨sc, ps, b2, n, d, h⟩ := defeatBoss_shape env
          (s.setBossHp b ((s.bossObjs b).hp - tick * 0.9))
          (((s.setBossHp b ((s.bossObjs b).hp - tick * 0.9)).bossObjs b).x
            + ((s.setBossHp b ((s.bossObjs b).hp - tick * 0.9)).bossObjs b).w / 2)
          (((s.setBossHp b ((s.bossObjs b).hp - tick * 0.9)).bossObjs b).y
            + ((s.setBossHp b ((s.bossObjs b).hp - tick * 0.9)).bossObjs b).h / 2) 0
        rw [h]
        refine ⟨rfl, rfl, rfl, rfl, ?_⟩
        intro b3 hb3
        simp only [Option.some.injEq] at hb3
        subst hb3
        simp [State.setBossHp, hhit]
      · refine ⟨rfl, rfl, rfl, rfl, ?_⟩
        intro b3 hb3
        simp only [Option.some.injEq] at hb3
        subst hb3
        simp [State.setBossHp, hhit]
    · simp only [hhit, if_false]
      refine ⟨rfl, rfl, rfl, rfl, ?_⟩
      intro b3 hb3
      simp only [Option.some.injEq] at hb3
      subst hb3
      simp [hhit]

/-- The state of `updateBeamDamage` when its two loops start: beam active, pulse
advanced and width recomputed. -/
theorem updateBeamDamage_unfold (env : Env) (s : State) (dt : ℚ)
    (hl : 1 ≤ s.effects.laser) (hf : s.shooting = true) :
    ∃ s4 : State,
      s4.beamActive = true ∧ s4.player = s.player ∧ s4.enemies = s.enemies
        ∧ s4.enemyObjs = s.enemyObjs ∧ s4.bossObjs = s.bossObjs ∧ s4.boss = s.boss
        ∧ s4.beamWidth
            = 8 + env.sin (s.beamPulse + dt * 16) * 2 + min 10 ((s.effects.laser : ℚ) * 1.8)
        ∧ updateBeamDamage env s dt
            = updateBeamDamage.bossPart env (beamRect s4) ((8 + (s.effects.laser : ℚ) * 2.2) * dt)
                (updateBeamDamage.enemyLoop env (beamRect s4)
                  ((8 + (s.effects.laser : ℚ) * 2.2) * dt) s4.enemies.length s4) := by
  have hl2 : ¬ s.effects.laser ≤ 0 := by omega
  have hf2 : ({ s with beamActive := false } : State).shooting = true := hf
  refine ⟨{ s with
      beamActive := true
      beamPulse := s.beamPulse + dt * 16
      beamWidth := 8 + env.sin (s.beamPulse + dt * 16) * 2
        + min 10 ((s.effects.laser : ℚ) * 1.8) },
    rfl, rfl, rfl, rfl, rfl, rfl, rfl, ?_⟩
  unfold updateBeamDamage
  simp only []
  rw [if_neg hl2, hf2]
  rfl

/-- C19, as stated, fails for the boss: with laser tier 1 and a tick of 0.033 the
boss inside the beam loses 0.30294 hit points, 0.9 times the 0.3366 that the
claim states. -/
theorem updateBeamDamage_boss_scaled :
    beamBossState.effects.laser = 1 ∧ beamBossState.shooting = true
      ∧ beamBossState.boss = some 0
      ∧ rectHit (beamRect (updateBeamDamage quietEnv beamBossState 0.033))
          (beamBossState.bossObjs 0).rect = true
      ∧ ((updateBeamDamage quietEnv beamBossState 0.033).bossObjs 0).hp
          = (beamBossState.bossObjs 0).hp - 0.30294
      ∧ ((updateBeamDamage quietEnv beamBossState 0.033).bossObjs 0).hp
          ≠ (beamBossState.bossObjs 0).hp - (8 + 2.2 * 1) * 0.033 := by
  decide!

/-- C19, amended: when the beam is active (laser tier L >= 1, fire held) and no
enemy object occurs twice in the enemy list, `updateBeamDamage(dt)` subtracts
exactly (8 + 2.2 L) dt hit points from every enemy whose rectangle intersects
the beam strip and exactly 0.9 (8 + 2.2 L) dt from a boss that intersects it,
and leaves the hit points of non-intersecting enemies and boss unchanged. The
strip is centred on the player, of width 8 + 2 sin(pulse) + min(10, 1.8 L). -/
theorem updateBeamDamage_damage (env : Env) (s : State) (dt : ℚ)
    (hl : 1 ≤ s.effects.laser) (hf : s.shooting = true) (hnd : s.enemies.Nodup) :
    (updateBeamDamage env s dt).beamActive = true
      ∧ (updateBeamDamage env s dt).player = s.player
      ∧ (updateBeamDamage env s dt).beamWidth
          = 8 + env.sin (s.beamPulse + dt * 16) * 2 + min 10 ((s.effects.laser : ℚ) * 1.8)
      ∧ (∀ r ∈ s.enemies,
          ((updateBeamDamage env s dt).enemyObjs r).hp
            = (s.enemyObjs r).hp
              - (if rectHit (beamRect (updateBeamDamage env s dt)) (s.enemyObjs r).rect = true
                  then (8 + 2.2 * (s.effects.laser : ℚ)) * dt else 0))
      ∧ (∀ b, s.boss = some b →
          ((updateBeamDamage env s dt).bossObjs b).hp
            = (s.bossObjs b).hp
              - (if rectHit (beamRect (updateBeamDamage env s dt)) (s.bossObjs b).rect = true
                  then 0.9 * ((8 + 2.2 * (s.effects.laser : ℚ)) * dt) else 0)) := by
  obtain ⟨s4, a1, a2, a3, a4, a5, a6, a7, heq⟩ := updateBeamDamage_unfold env s dt hl hf
  obtain ⟨l1, l2, l3, l4, l5, l6⟩ := beam_enemyLoop_spec env (beamRect s4)
    ((8 + s.effects.laser * 2.2) * dt) s4.enemies.length s4
    (by rw [List.take_length, a3]; exact hnd)
  obtain ⟨b1, b2, b3, b4, b5⟩ := beam_bossPart_spec env (beamRect s4)
    ((8 + s.effects.laser * 2.2) * dt)
    (updateBeamDamage.enemyLoop env (beamRect s4) ((8 + s.effects.laser * 2.2) * dt)
      s4.enemies.length s4)
  have hsame : ∀ t : State, t.player = s4.player → t.beamWidth = s4.beamWidth →
      beamRect t = beamRect s4 := by
    intro t h1 h2
    simp only [beamRect, h1, h2]
  have hrect : beamRect (updateBeamDamage env s dt) = beamRect s4 := by
    rw [heq]
    exact hsame _ (b2.trans l4) (b3.trans l5)
  rw [hrect]
  rw [heq]
  refine ⟨?_, ?_, ?_, ?_, ?_⟩
  · rw [b4, l6, a1]
  · rw [b2, l4, a2]
  · rw [b3, l5, a7]
  · intro r hr
    rw [b1, l1 r, List.take_length, a3, a4]
    by_cases hhit : rectHit (beamRect s4) (s.enemyObjs r).rect = true
    · simp only [hr, hhit, and_self, if_true]
      ring
    · have hh : rectHit (beamRect s4) (s.enemyObjs r).rect = false := by simpa using hhit
      simp [hh]
  · intro b hb
    rw [b5 b (by rw [l3, a6]; exact hb), l2, a5]
    by_cases hhit : rectHit (beamRect s4) (s.bossObjs b).rect = true
    · simp only [hhit, if_true]
      ring
    · have hh : rectHit (beamRect s4) (s.bossObjs b).rect = false := by simpa using hhit
      simp [hh]

/-- The amended C19 with laser tier 1 and a tick of 0.033: an enemy with 5 hit
points inside the beam is left with 4.6634 and the enemy list is unchanged. -/
theorem updateBeamDamage_damage_example :
    ((updateBeamDamage quietEnv beamHitState 0.033).enemyObjs 0).hp = 4.6634
      ∧ ((updateBeamDamage quietEnv beamHitState 0.033).enemyObjs 1).hp = 5
      ∧ (updateBeamDamage quietEnv beamHitState 0.033).enemies = [0, 1]
      ∧ (updateBeamDamage quietEnv beamHitState 0.033).beamActive = true := by
  have h := updateBeamDamage_damage quietEnv beamHitState 0.033 (by decide) (by decide)
    (by decide)
  refine ⟨(h.2.2.2.1 0 (by decide)).trans (by decide!),
    (h.2.2.2.1 1 (by decide)).trans (by decide!), by decide!, h.1⟩

theorem kept_refl (s : State) : Kept s s := ⟨rfl, id, id, id⟩

theorem kept_trans {s t u : State} (h1 : Kept s t) (h2 : Kept t u) : Kept s u :=
  ⟨h2.1.trans h1.1, fun h => h2.2.1 (h1.2.1 h), fun h => h2.2.2.1 (h1.2.2.1 h),
    fun h => h2.2.2.2 (h1.2.2.2 h)⟩

theorem kept_ite {s a b : State} (c : Prop) [Decidable c] (ha : Kept s a) (hb : Kept s b) :
    Kept s (if c then a else b) := by
  split_ifs
  · exact ha
  · exact hb

theorem kept_of_eq {s t : State} (h1 : t.shootCooldown = s.shootCooldown)
    (h2 : t.hitCooldown = s.hitCooldown) (h3 : t.shieldBlockCooldown = s.shieldBlockCooldown)
    (h4 : t.reflectCooldown = s.reflectCooldown) : Kept s t :=
  ⟨h1, fun h => h2 ▸ h, fun h => h3 ▸ h, fun h => h4 ▸ h⟩

/-- Transitivity of `Kept` with the later step first. -/
theorem kept_step {s t u : State} (h2 : Kept t u) (h1 : Kept s t) : Kept s u :=
  kept_trans h1 h2

theorem maybeDropPowerup_kept (env : Env) (s : State) (x y mult : ℚ) :
    Kept s (maybeDropPowerup env s x y mult) := by
  obtain ⟨ps, d, h⟩ := maybeDropPowerup_shape env s x y mult
  rw [h]
  exact kept_of_eq rfl rfl rfl rfl

theorem defeatBoss_kept (env : Env) (s : State) (x y : ℚ) (bonus : ℤ) :
    Kept s (defeatBoss env s x y bonus) := by
  obtain ⟨sc, ps, b, n, d, h⟩ := defeatBoss_shape env s x y bonus
  rw [h]
  exact kept_of_eq rfl rfl rfl rfl

theorem addExplosion_blast_kept (env : Env) (damage : ℚ) (s : State) (i r : ℕ) :
    Kept s (addExplosion.blast env damage s i r) := by
  unfold addExplosion.blast
  simp only []
  exact kept_ite _
    (kept_step (maybeDropPowerup_kept _ _ _ _ _) (kept_of_eq rfl rfl rfl rfl))
    (kept_of_eq rfl rfl rfl rfl)

theorem addExplosion_enemyLoop_kept (env : Env) (x y radius damage : ℚ) (n : ℕ) :
    ∀ s : State, Kept s (addExplosion.enemyLoop env x y radius damage n s) := by
  induction n with
  | zero => intro s; exact kept_refl s
  | succ i ih =>
    intro s
    unfold addExplosion.enemyLoop
    cases s.enemies[i]? with
    | none => exact ih s
    | some r =>
      simp only []
      exact kept_ite _ (kept_step (ih _) (addExplosion_blast_kept _ _ _ _ _)) (ih s)

theorem addExplosion_bossPart_kept (env : Env) (x y radius damage : ℚ) (s : State) :
    Kept s (addExplosion.bossPart env x y radius damage s) := by
  unfold addExplosion.bossPart
  cases s.boss with
  | none => exact kept_refl s
  | some b =>
    simp only []
    exact kept_ite _
      (kept_ite _ (kept_step (defeatBoss_kept _ _ _ _ _) (kept_of_eq rfl rfl rfl rfl))
        (kept_of_eq rfl rfl rfl rfl))
      (kept_refl s)

theorem addExplosion_kept (env : Env) (s : State) (x y radius damage : ℚ) :
    Kept s (addExplosion env s x y radius damage) :=
  kept_step (addExplosion_bossPart_kept _ _ _ _ _ _)
    (kept_step (addExplosion_enemyLoop_kept _ _ _ _ _ _ _) (kept_of_eq rfl rfl rfl rfl))

theorem setTargetHp_kept (s : State) (t : Target) (v : ℚ) : Kept s (s.setTargetHp t v) := by
  cases t <;> exact kept_of_eq rfl rfl rfl rfl

theorem bossHop_kept (env : Env) (s : State) (best : Target) :
    Kept s (chainDamage.bossHop env s best) := by
  unfold chainDamage.bossHop
  simp only []
  exact kept_ite _ (kept_step (defeatBoss_kept _ _ _ _ _) (setTargetHp_kept _ _ _))
    (setTargetHp_kept _ _ _)

theorem enemyHop_kept (env : Env) (s : State) (best : Target) :
    Kept s (chainDamage.enemyHop env s best) := by
  unfold chainDamage.enemyHop
  simp only []
  refine kept_ite _ ?_ (setTargetHp_kept _ _ _)
  cases (s.setTargetHp best (s.targetHp best - 2)).enemiesIndexOf best with
  | none => exact setTargetHp_kept _ _ _
  | some idx =>
    exact kept_step (maybeDropPowerup_kept _ _ _ _ _)
      (kept_step (kept_of_eq rfl rfl rfl rfl) (setTargetHp_kept s best (s.targetHp best - 2)))

theorem chainDamage_loop_kept (env : Env) (n : ℕ) :
    ∀ (s : State) (visited : List Target) (source : Target),
      Kept s (chainDamage.loop env n s visited source).1 := by
  induction n with
  | zero => intro s _ _; exact kept_refl s
  | succ n ih =>
    intro s visited source
    unfold chainDamage.loop
    cases chainDamage.pick s visited source with
    | none => exact kept_refl s
    | some best =>
      simp only []
      have harc : Kept s (chainDamage.addArc s source best) := kept_of_eq rfl rfl rfl rfl
      split_ifs
      · exact kept_step (bossHop_kept _ _ _) harc
      · exact kept_step (ih _ _ _) (kept_step (enemyHop_kept _ _ _) harc)

theorem chainDamage_kept (env : Env) (s : State) (start : Target) :
    Kept s (chainDamage env s start) := by
  unfold chainDamage
  exact kept_ite _ (kept_refl s) (chainDamage_loop_kept _ _ _ _ _)

theorem damagePlayer_kept (s : State) (amount : ℚ) : Kept s (damagePlayer s amount) := by
  have happly : ∀ a : ℚ, Kept s (damagePlayer.apply s a) := by
    intro a
    unfold damagePlayer.apply
    simp only []
    split_ifs
    · exact ⟨rfl, fun _ => by norm_num, id, id⟩
    · exact ⟨rfl, fun _ => by norm_num, id, id⟩
  unfold damagePlayer
  refine kept_ite _ (kept_refl s) (kept_ite _ (kept_ite _ ?_ (happly _)) (happly _))
  exact ⟨rfl, fun _ => by norm_num, fun _ => le_trans (by norm_num) (le_max_left _ _), id⟩

theorem spendBullet_kept (env : Env) (s : State) (j : ℕ) (b : Bullet) (radius : ℚ) :
    Kept s (handleHits.spendBullet env s j b radius) := by
  unfold handleHits.spendBullet
  simp only []
  refine kept_ite _ (kept_of_eq rfl rfl rfl rfl) ?_
  exact kept_step (kept_of_eq rfl rfl rfl rfl)
    (kept_ite _ (addExplosion_kept _ _ _ _ _ _) (kept_refl s))

theorem chainFrom_kept (env : Env) (s : State) (t : Target) :
    Kept s (handleHits.chainFrom env s t) :=
  kept_ite _ (chainDamage_kept _ _ _) (kept_refl s)

theorem countKill_kept (env : Env) (s : State) (i : ℕ) (e : Enemy) :
    Kept s (handleHits.countKill env s i e) := by
  unfold handleHits.countKill
  simp only []
  have h : Kept s (maybeDropPowerup env
      { s with enemies := splice s.enemies i, kills := s.kills + 1, score := s.score + 15 }
      (e.x + 7) (e.y + 6) 1) :=
    kept_step (maybeDropPowerup_kept _ _ _ _ _) (kept_of_eq rfl rfl rfl rfl)
  exact kept_ite _ (kept_step (kept_of_eq rfl rfl rfl rfl) h) h

theorem finishEnemy_kept (env : Env) (s : State) (i r : ℕ) :
    Kept s (handleHits.finishEnemy env s i r) :=
  kept_ite _ (countKill_kept _ _ _ _) (kept_refl s)

theorem enemyHit_kept (env : Env) (s : State) (i r j : ℕ) (b : Bullet) :
    Kept s (handleHits.enemyHit env s i r j b) :=
  kept_step (finishEnemy_kept _ _ _ _) (kept_step (chainFrom_kept _ _ _)
    (kept_step (spendBullet_kept _ _ _ _ _) (kept_of_eq rfl rfl rfl rfl)))

theorem bulletLoop_kept (env : Env) (i r : ℕ) (n : ℕ) :
    ∀ s : State, Kept s (handleHits.bulletLoop env i r n s) := by
  induction n with
  | zero => intro s; exact kept_refl s
  | succ j ih =>
    intro s
    unfold handleHits.bulletLoop
    cases s.playerBullets[j]? with
    | none => exact ih s
    | some b => exact kept_ite _ (ih s) (enemyHit_kept _ _ _ _ _ _)

theorem enemyLoop_kept (env : Env) (n : ℕ) :
    ∀ s t : State, handleHits.enemyLoop env n s = some t → Kept s t := by
  induction n with
  | zero =>
    intro s t h
    simp only [handleHits.enemyLoop, Option.some.injEq] at h
    rw [← h]
    exact kept_refl s
  | succ i ih =>
    intro s t h
    unfold handleHits.enemyLoop at h
    cases hr : s.enemies[i]? with
    | none => rw [hr] at h; exact absurd h (by simp)
    | some r =>
      rw [hr] at h
      simp only [] at h
      split_ifs at h
      · exact kept_step (ih _ _ h) (kept_step (damagePlayer_kept _ _) (kept_of_eq rfl rfl rfl rfl))
      · exact kept_step (ih _ _ h) (bulletLoop_kept _ _ _ _ _)

theorem bossHit_kept (env : Env) (s : State) (b i : ℕ) (bullet : Bullet) :
    Kept s (handleHits.bossHit env s b i bullet) :=
  kept_step (chainFrom_kept _ _ _)
    (kept_step (spendBullet_kept _ _ _ _ _) (kept_of_eq rfl rfl rfl rfl))

theorem bossLoop_kept (env : Env) (b : ℕ) (n : ℕ) :
    ∀ s : State, Kept s (handleHits.bossLoop env b n s) := by
  induction n with
  | zero => intro s; exact kept_refl s
  | succ i ih =>
    intro s
    unfold handleHits.bossLoop
    cases s.playerBullets[i]? with
    | none => exact ih s
    | some bullet =>
      have h := bossHit_kept env s b i bullet
      simp only []
      exact kept_ite _ (ih s)
        (kept_ite _ (kept_step (defeatBoss_kept _ _ _ _ _) h) (kept_step (ih _) h))

theorem bossPart_kept (env : Env) (s : State) : Kept s (handleHits.bossPart env s) := by
  unfold handleHits.bossPart
  cases s.boss with
  | none => exact kept_refl s
  | some b =>
    simp only []
    exact kept_step (bossLoop_kept _ _ _ _)
      (kept_ite _ (damagePlayer_kept _ _) (kept_refl s))

theorem reflectBullet_kept (env : Env) (s : State) (i : ℕ) (bullet : EnemyBullet) :
    Kept s (handleHits.reflectBullet env s i bullet) :=
  ⟨rfl, id, id, fun _ => le_trans (by norm_num) (le_max_left _ _)⟩

theorem enemyBulletLoop_kept (env : Env) (n : ℕ) :
    ∀ s : State, Kept s (handleHits.enemyBulletLoop env n s) := by
  induction n with
  | zero => intro s; exact kept_refl s
  | succ i ih =>
    intro s
    unfold handleHits.enemyBulletLoop
    cases s.enemyBullets[i]? with
    | none => exact ih s
    | some bullet =>
      simp only []
      refine kept_ite _ (kept_ite _ ?_ ?_) (ih s)
      · exact kept_step (ih _) (reflectBullet_kept _ _ _ _)
      · exact kept_step (ih _) (kept_step (damagePlayer_kept _ _) (kept_of_eq rfl rfl rfl rfl))

theorem pickup_kept (s : State) (p : Powerup) : Kept s (handleHits.pickup s p) := by
  unfold handleHits.pickup
  cases p.type with
  | none => exact kept_refl s
  | some type => exact kept_ite _ (kept_of_eq rfl rfl rfl rfl) (kept_refl s)

theorem powerupLoop_kept (n : ℕ) : ∀ s : State, Kept s (handleHits.powerupLoop n s) := by
  induction n with
  | zero => intro s; exact kept_refl s
  | succ i ih =>
    intro s
    unfold handleHits.powerupLoop
    cases s.powerups[i]? with
    | none => exact ih s
    | some p =>
      simp only []
      exact kept_ite _ (ih s)
        (kept_step (ih _) (kept_step (kept_of_eq rfl rfl rfl rfl) (pickup_kept s p)))

theorem handleHits_kept (env : Env) (s t : State) (h : handleHits env s = some t) : Kept s t := by
  unfold handleHits at h
  cases he : handleHits.enemyLoop env s.enemies.length s with
  | none => rw [he] at h; exact absurd h (by simp)
  | some s1 =>
    rw [he] at h
    simp only [Option.some.injEq] at h
    rw [← h]
    exact kept_step (powerupLoop_kept _ _) (kept_step (enemyBulletLoop_kept _ _ _)
      (kept_step (bossPart_kept _ _) (enemyLoop_kept _ _ _ _ he)))

theorem kept_draws (s : State) (d : ℕ) : Kept s { s with draws := d } :=
  kept_of_eq rfl rfl rfl rfl

theorem kept_enemies (s : State) (l : List ℕ) : Kept s { s with enemies := l } :=
  kept_of_eq rfl rfl rfl rfl

theorem kept_enemyBullets (s : State) (l : List EnemyBullet) :
    Kept s { s with enemyBullets := l } :=
  kept_of_eq rfl rfl rfl rfl

theorem kept_playerBullets (s : State) (l : List Bullet) :
    Kept s { s with playerBullets := l } :=
  kept_of_eq rfl rfl rfl rfl

theorem kept_spawnTimer (s : State) (v : ℚ) : Kept s { s with spawnTimer := v } :=
  kept_of_eq rfl rfl rfl rfl

theorem setEnemy_kept (s : State) (r : ℕ) (e : Enemy) : Kept s (s.setEnemy r e) :=
  kept_of_eq rfl rfl rfl rfl

theorem setBoss_kept (s : State) (r : ℕ) (b : Boss) : Kept s (s.setBoss r b) :=
  kept_of_eq rfl rfl rfl rfl

theorem setBossHp_kept (s : State) (r : ℕ) (v : ℚ) : Kept s (s.setBossHp r v) :=
  kept_of_eq rfl rfl rfl rfl

theorem spawnBoss_kept (env : Env) (s : State) : Kept s (spawnBoss env s) :=
  kept_of_eq rfl rfl rfl rfl

theorem maybeSpawnBoss_kept (env : Env) (s : State) : Kept s (maybeSpawnBoss env s) := by
  unfold maybeSpawnBoss
  cases s.boss with
  | some b => exact kept_refl s
  | none =>
    simp only []
    exact kept_ite _ (kept_step (spawnBoss_kept _ _) (kept_enemies s [])) (kept_refl s)

theorem spawnEnemy_kept (env : Env) (s : State) : Kept s (spawnEnemy env s) :=
  kept_of_eq rfl rfl rfl rfl

theorem update_spawn_kept (env : Env) (s : State) : Kept s (update.spawn env s) := by
  unfold update.spawn
  simp only []
  exact kept_ite _
    (kept_step (kept_spawnTimer _ _) (kept_step (spawnEnemy_kept _ _) (maybeSpawnBoss_kept _ _)))
    (maybeSpawnBoss_kept _ _)

theorem fireEnemyBullet_kept (env : Env) (s : State) (x y speed : ℚ) (kind : EnemyBulletType) :
    Kept s (fireEnemyBullet env s x y speed kind) := by
  unfold fireEnemyBullet
  simp only [random]
  exact kept_ite _ (kept_of_eq rfl rfl rfl rfl) (kept_of_eq rfl rfl rfl rfl)

theorem spreadShots_kept (cx y : ℚ) (spread : ℤ) (l : List ℕ) :
    ∀ s t : State, Kept s t →
      Kept s (l.foldl (fun s i => fireBoss.spreadShot s cx y spread i) t) := by
  induction l with
  | nil => intro s t h; exact h
  | cons i l ih =>
    intro s t h
    simp only [List.foldl_cons]
    exact ih s _ (kept_step (kept_of_eq rfl rfl rfl rfl) h)

theorem fireBoss_extra_kept (env : Env) (s : State) (mode : Option BossMode) (cx y : ℚ) :
    Kept s (fireBoss.extra env s mode cx y) := by
  unfold fireBoss.extra
  have h1 : Kept s (if mode = some BossMode.laser then
      { s with enemyBullets := s.enemyBullets ++
          [⟨cx - 6, y + 2, 12, 46, 0, 260, 1.4, EnemyBulletType.bossLaser, 2, some 99, none⟩] }
      else s) := kept_ite _ (kept_enemyBullets _ _) (kept_refl s)
  revert h1
  generalize (if mode = some BossMode.laser then
      { s with enemyBullets := s.enemyBullets ++
          [⟨cx - 6, y + 2, 12, 46, 0, 260, 1.4, EnemyBulletType.bossLaser, 2, some 99, none⟩] }
      else s) = s1
  intro h1
  simp only []
  have h2 : Kept s (if mode = some BossMode.missile then
      { s1 with enemyBullets := s1.enemyBullets ++
          [⟨cx - 4, y, 8, 12, 0, 160, 7, EnemyBulletType.bossMissile, 2, none, some 2.8⟩] }
      else s1) := kept_step (kept_ite _ (kept_enemyBullets _ _) (kept_refl s1)) h1
  exact kept_ite _
    (kept_step (fireEnemyBullet_kept _ _ _ _ _ _) (kept_step (fireEnemyBullet_kept _ _ _ _ _ _) h2))
    h2

theorem fireBoss_kept (env : Env) (s : State) : Kept s (fireBoss env s) := by
  unfold fireBoss
  cases s.boss with
  | none => exact kept_refl s
  | some r =>
    simp only []
    exact kept_step (fireBoss_extra_kept _ _ _ _ _) (spreadShots_kept _ _ _ _ _ _ (kept_refl s))

theorem updateEnemies_fire_kept (env : Env) (s : State) (dt : ℚ) (r : ℕ) :
    Kept s (updateEnemies.fire env s dt r) := by
  unfold updateEnemies.fire
  simp only [random]
  refine kept_ite _ ?_ (setEnemy_kept _ _ _)
  exact kept_step (setEnemy_kept _ _ _) (kept_step (kept_draws _ _)
    (kept_step (fireEnemyBullet_kept _ _ _ _ _ _) (kept_step (kept_draws _ _)
      (setEnemy_kept _ _ _))))

theorem updateEnemies_loop_kept (env : Env) (dt : ℚ) (n : ℕ) :
    ∀ s : State, Kept s (updateEnemies.loop env dt n s) := by
  induction n with
  | zero => intro s; exact kept_refl s
  | succ i ih =>
    intro s
    unfold updateEnemies.loop
    cases s.enemies[i]? with
    | none => exact ih s
    | some r =>
      have hF : Kept s (updateEnemies.fire env
          (s.setEnemy r (updateEnemies.move env s dt (s.enemyObjs r))) dt r) :=
        kept_step (updateEnemies_fire_kept _ _ _ _) (setEnemy_kept _ _ _)
      simp only []
      exact kept_step (ih _) (kept_ite _ (kept_step (kept_enemies _ _) hF) hF)

theorem updateBoss_retarget_kept (env : Env) (s : State) (r : ℕ) :
    Kept s (updateBoss.retarget env s r) := by
  unfold updateBoss.retarget
  simp only [random]
  exact kept_ite _ (kept_step (setBoss_kept _ _ _) (kept_draws _ _)) (kept_refl s)

theorem updateBoss_shoot_kept (env : Env) (s : State) (r : ℕ) :
    Kept s (updateBoss.shoot env s r) := by
  unfold updateBoss.shoot
  simp only []
  exact kept_ite _ (kept_step (setBoss_kept _ _ _) (fireBoss_kept _ _)) (kept_refl s)

theorem updateBoss_kept (env : Env) (s : State) (dt : ℚ) : Kept s (updateBoss env s dt) := by
  unfold updateBoss
  cases s.boss with
  | none => exact kept_refl s
  | some r =>
    simp only []
    refine kept_ite _ (kept_step (setBoss_kept _ _ _) (setBoss_kept _ _ _)) ?_
    unfold updateBoss.active
    simp only []
    exact kept_step (updateBoss_shoot_kept _ _ _) (kept_step (setBoss_kept _ _ _)
      (kept_step (updateBoss_retarget_kept _ _ _) (kept_step (setBoss_kept _ _ _)
        (setBoss_kept _ _ _))))

theorem updatePlayerBullets_loop_kept (env : Env) (dt : ℚ) (n : ℕ) :
    ∀ s : State, Kept s (updatePlayerBullets.loop env dt n s) := by
  induction n with
  | zero => intro s; exact kept_refl s
  | succ i ih =>
    intro s
    unfold updatePlayerBullets.loop
    cases s.playerBullets[i]? with
    | none => exact ih s
    | some b =>
      simp only []
      exact kept_step (ih _)
        (kept_ite _ (kept_of_eq rfl rfl rfl rfl) (kept_of_eq rfl rfl rfl rfl))

theorem updateEnemyBullets_loop_kept (env : Env) (dt : ℚ) (n : ℕ) :
    ∀ s : State, Kept s (updateEnemyBullets.loop env dt n s) := by
  induction n with
  | zero => intro s; exact kept_refl s
  | succ i ih =>
    intro s
    unfold updateEnemyBullets.loop
    cases s.enemyBullets[i]? with
    | none => exact ih s
    | some b =>
      simp only []
      exact kept_step (ih _)
        (kept_ite _ (kept_of_eq rfl rfl rfl rfl) (kept_of_eq rfl rfl rfl rfl))

theorem beam_burn_kept (env : Env) (tick : ℚ) (s : State) (i r : ℕ) :
    Kept s (updateBeamDamage.burn env tick s i r) := by
  unfold updateBeamDamage.burn
  simp only []
  exact kept_ite _
    (kept_step (maybeDropPowerup_kept _ _ _ _ _) (kept_of_eq rfl rfl rfl rfl))
    (kept_of_eq rfl rfl rfl rfl)

theorem beam_enemyLoop_kept (env : Env) (beam : Rect) (tick : ℚ) (n : ℕ) :
    ∀ s : State, Kept s (updateBeamDamage.enemyLoop env beam tick n s) := by
  induction n with
  | zero => intro s; exact kept_refl s
  | succ i ih =>
    intro s
    unfold updateBeamDamage.enemyLoop
    cases s.enemies[i]? with
    | none => exact ih s
    | some r => exact kept_ite _ (ih s) (kept_step (ih _) (beam_burn_kept _ _ _ _ _))

theorem beam_bossPart_kept (env : Env) (beam : Rect) (tick : ℚ) (s : State) :
    Kept s (updateBeamDamage.bossPart env beam tick s) := by
  unfold updateBeamDamage.bossPart
  cases s.boss with
  | none => exact kept_refl s
  | some b =>
    simp only []
    exact kept_ite _
      (kept_ite _ (kept_step (defeatBoss_kept _ _ _ _ _) (setBossHp_kept _ _ _))
        (setBossHp_kept _ _ _))
      (kept_refl s)

theorem updateBeamDamage_kept (env : Env) (s : State) (dt : ℚ) :
    Kept s (updateBeamDamage env s dt) := by
  unfold updateBeamDamage
  simp only []
  refine kept_ite _ (kept_of_eq rfl rfl rfl rfl) (kept_ite _ (kept_of_eq rfl rfl rfl rfl) ?_)
  exact kept_step (beam_bossPart_kept _ _ _ _)
    (kept_step (beam_enemyLoop_kept _ _ _ _ _) (kept_of_eq rfl rfl rfl rfl))

theorem updatePowerups_kept (env : Env) (s : State) (dt : ℚ) :
    Kept s (updatePowerups env s dt) :=
  kept_of_eq rfl rfl rfl rfl

theorem update_advance_kept (env : Env) (s : State) (dt : ℚ) :
    Kept s (update.advance env s dt) :=
  kept_step (updatePowerups_kept _ _ _) (kept_step (updateBeamDamage_kept _ _ _)
    (kept_step (updateEnemyBullets_loop_kept _ _ _ _) (kept_step
      (updatePlayerBullets_loop_kept _ _ _ _) (kept_step (updateBoss_kept _ _ _)
        (updateEnemies_loop_kept _ _ _ _)))))

theorem updatePlayer_cooldowns (env : Env) (s : State) (dt : ℚ) :
    ((updatePlayer env s dt).shootCooldown = s.shootCooldown
        ∨ (0.06 ≤ (updatePlayer env s dt).shootCooldown
          ∧ (updatePlayer env s dt).shootCooldown ≤ 0.25))
      ∧ (updatePlayer env s dt).hitCooldown = s.hitCooldown
      ∧ (updatePlayer env s dt).shieldBlockCooldown = s.shieldBlockCooldown
      ∧ (updatePlayer env s dt).reflectCooldown = s.reflectCooldown := by
  unfold updatePlayer
  simp only []
  split_ifs
  · obtain ⟨bs, hbs⟩ := firePlayer_only (updatePlayer.move env s dt)
    rw [hbs]
    refine ⟨Or.inr ?_, rfl, rfl, rfl⟩
    exact clamp_bounds _ _ _ (by norm_num)
  · exact ⟨Or.inl rfl, rfl, rfl, rfl⟩

/-- C16, as stated, fails for the shoot cooldown: from the start state (all four
cooldowns 0, running) a tick of 0.033 without the fire key leaves the shoot
cooldown at -0.033. -/
theorem update_shootCooldown_negative :
    startState.running = true
      ∧ 0 ≤ startState.shootCooldown ∧ 0 ≤ startState.hitCooldown
      ∧ 0 ≤ startState.shieldBlockCooldown ∧ 0 ≤ startState.reflectCooldown
      ∧ (update quietEnv startState 0.033).map (fun s => s.shootCooldown) = some (-0.033)
      ∧ (update quietEnv startState 0.033).map (fun s => decide (0 ≤ s.shootCooldown))
          = some false := by
  decide!

/-- C16, amended: for every running state and every dt, when `update(dt)`
returns, the hit, shield-block and reflect cooldowns are non-negative
afterwards, and the shoot cooldown, which is not floored, is either the old
value minus dt or the value in [0.06, 0.25] set by a shot fired in the tick. -/
theorem update_cooldowns (env : Env) (s s2 : State) (dt : ℚ)
    (hrun : s.running = true) (h : update env s dt = some s2) :
    0 ≤ s2.hitCooldown ∧ 0 ≤ s2.shieldBlockCooldown ∧ 0 ≤ s2.reflectCooldown
      ∧ (s2.shootCooldown = s.shootCooldown - dt
        ∨ (0.06 ≤ s2.shootCooldown ∧ s2.shootCooldown ≤ 0.25)) := by
  unfold update at h
  simp only [hrun, Bool.not_true, Bool.false_eq_true, if_false] at h
  obtain ⟨p1, p2, p3, p4⟩ := updatePlayer_cooldowns env (update.timers s dt) dt
  have hk : Kept (updatePlayer env (update.timers s dt) dt) s2 :=
    kept_step (handleHits_kept _ _ _ h)
      (kept_step (update_advance_kept _ _ _) (update_spawn_kept _ _))
  obtain ⟨k1, k2, k3, k4⟩ := hk
  refine ⟨k2 ?_, k3 ?_, k4 ?_, ?_⟩
  · rw [p2]; exact le_max_left _ _
  · rw [p3]; exact le_max_left _ _
  · rw [p4]; exact le_max_left _ _
  · rw [k1]
    rcases p1 with p1 | p1
    · exact Or.inl p1
    · exact Or.inr p1

/-- The amended C16 on a tick of 0.033 from the start state with the fire key
held: `update` returns, a shot sets the shoot cooldown to 0.24 and the other
three cooldowns are non-negative. -/
theorem update_cooldowns_firing :
    ∃ s2 : State, update quietEnv firingState 0.033 = some s2
      ∧ s2.shootCooldown = 0.24
      ∧ 0 ≤ s2.hitCooldown ∧ 0 ≤ s2.shieldBlockCooldown ∧ 0 ≤ s2.reflectCooldown := by
  have hsome : (update quietEnv firingState 0.033).isSome = true := by decide!
  have hshoot : (update quietEnv firingState 0.033).map (fun s => s.shootCooldown)
      = some 0.24 := by decide!
  obtain ⟨s2, hs2⟩ := Option.isSome_iff_exists.mp hsome
  have h := update_cooldowns quietEnv firingState s2 0.033 rfl hs2
  rw [hs2] at hshoot
  simp only [Option.map_some', Option.some.injEq] at hshoot
  exact ⟨s2, hs2, hshoot, h.1, h.2.1, h.2.2.1⟩

/-- C22: `handleHits` removes a healthy enemy that touches nothing. An explosive
bullet kills the enemy at index 0 while a second enemy with 5 hit points stands
outside the blast and away from the player and from every bullet. The blast
already splices the hit enemy, so the `enemies.splice(i, 1)` of `handleHits`
removes the second enemy, which still has its 5 hit points. -/
theorem handleHits_removes_bystander :
    bystanderState.enemies = [0, 1]
      ∧ (bystanderState.enemyObjs 1).hp = 5
      ∧ rectHit bystanderState.player.rect (bystanderState.enemyObjs 1).rect = false
      ∧ rectHit explosiveBullet.rect (bystanderState.enemyObjs 1).rect = false
      ∧ ¬ hypotLe (((bystanderState.enemyObjs 1).x + (bystanderState.enemyObjs 1).w / 2) - 115)
          (((bystanderState.enemyObjs 1).y + (bystanderState.enemyObjs 1).h / 2) - 127) 58
      ∧ (handleHits quietEnv bystanderState).map
          (fun s => (s.enemies, (s.enemyObjs 1).hp, s.kills)) = some ([], 5, 2) := by
  decide!

/-- C23: a game over with a life left. With one life, an enemy bullet of damage 1
and a boss-reward power-up both on the player, `handleHits` first takes the last
life (lives 0, running false) and then the pickup restores one life: the
simulation is not running and lives = 1. -/
theorem handleHits_game_over_with_life :
    lastLifeState.running = true ∧ lastLifeState.lives = 1 ∧ lastLifeState.maxLives = 8
      ∧ (handleHits quietEnv lastLifeState).map (fun s => (s.running, s.lives))
          = some (false, 1) := by
  decide!

/-- C25: while the hit cooldown runs (hitCooldown > 0) `damagePlayer` returns the
state unchanged: lives, running, hitCooldown, shieldBlockCooldown and all else. -/
theorem damagePlayer_invulnerable (s : State) (amount : ℚ) (h : 0 < s.hitCooldown) :
    damagePlayer s amount = s := by
  unfold damagePlayer
  rw [if_pos h]

/-- C25 on the start state with 0.3 of hit cooldown left and a hit of 2. -/
theorem damagePlayer_invulnerable_example :
    invulnerableState.hitCooldown = 0.3
      ∧ damagePlayer invulnerableState 2 = invulnerableState
      ∧ (damagePlayer invulnerableState 2).lives = 8 := by
  have h := damagePlayer_invulnerable invulnerableState 2 (by decide!)
  exact ⟨by decide!, h, by rw [h]; decide!⟩

/-- C26, as stated, fails: the enemy cap does not depend on the gap factor. The
start state and the maxed state share the elapsed time 0 and have gap factors
-0.00625 and 0.9, yet both caps are 2; and no two states with the same elapsed
time have different caps. -/
theorem getEnemyCap_ignores_gap :
    startState.time = maxedState.time
      ∧ getPowerGapFactor startState = -0.00625 ∧ getPowerGapFactor maxedState = 0.9
      ∧ getEnemyCap startState = 2 ∧ getEnemyCap maxedState = 2
      ∧ ¬ ∃ s1 s2 : State, s1.time = s2.time ∧ getPowerGapFactor s1 ≠ getPowerGapFactor s2
          ∧ getEnemyCap s1 ≠ getEnemyCap s2 := by
  refine ⟨by decide!, by decide!, by decide!, by decide!, by decide!, ?_⟩
  rintro ⟨s1, s2, ht, _, hc⟩
  apply hc
  simp only [getEnemyCap, ht]

/-- C26, amended: the enemy population cap is a function of the elapsed time
alone: two states with the same elapsed time have the same cap, whatever their
gap factors; the cap is 2, 3, 4, 5, 6 with breakpoints at 20, 45, 80, 130. -/
theorem getEnemyCap_time_only (s1 s2 : State) (ht : s1.time = s2.time) :
    getEnemyCap s1 = getEnemyCap s2
      ∧ getEnemyCap s1
          = (if s1.time < 20 then 2 else if s1.time < 45 then 3 else if s1.time < 80 then 4
              else if s1.time < 130 then 5 else 6) := by
  simp only [getEnemyCap, ht, and_self]

/-- The amended C26 on the start state and the maxed state. -/
theorem getEnemyCap_time_only_example :
    getPowerGapFactor startState ≠ getPowerGapFactor maxedState
      ∧ getEnemyCap startState = getEnemyCap maxedState := by
  have h := getEnemyCap_time_only startState maxedState (by decide!)
  exact ⟨by decide!, h.1⟩

theorem updateBoss_chase_modes (env : Env) (s : State) (dt : ℚ) (b : Boss) :
    (updateBoss.chase env s dt b).modes = b.modes := by
  unfold updateBoss.chase
  simp only []
  split_ifs <;> rfl

theorem updateBoss_chase_index (env : Env) (s : State) (dt : ℚ) (b : Boss)
    (h : b.modeIndex < b.modes.length) :
    (updateBoss.chase env s dt b).modeIndex < b.modes.length := by
  unfold updateBoss.chase
  simp only []
  split_ifs
  · exact Nat.mod_lt _ (by omega)
  · exact h

theorem fireEnemyBullet_bossObjs (env : Env) (s : State) (x y speed : ℚ)
    (kind : EnemyBulletType) : (fireEnemyBullet env s x y speed kind).bossObjs = s.bossObjs := by
  unfold fireEnemyBullet
  simp only [random]
  split_ifs <;> rfl

theorem spreadShots_bossObjs (cx y : ℚ) (spread : ℤ) (l : List ℕ) :
    ∀ s : State, (l.foldl (fun s i => fireBoss.spreadShot s cx y spread i) s).bossObjs
      = s.bossObjs := by
  induction l with
  | nil => intro s; rfl
  | cons i l ih =>
    intro s
    simp only [List.foldl_cons]
    rw [ih]
    rfl

theorem fireBoss_bossObjs (env : Env) (s : State) : (fireBoss env s).bossObjs = s.bossObjs := by
  unfold fireBoss
  cases s.boss with
  | none => rfl
  | some r =>
    simp only []
    unfold fireBoss.extra
    simp only []
    split_ifs <;>
      simp only [fireEnemyBullet_bossObjs, spreadShots_bossObjs]

theorem modeOk_refl (r : ℕ) (s : State) : ModeOk r s s := ⟨rfl, id⟩

/-- Transitivity of `ModeOk` with the later step first. -/
theorem modeOk_step {r : ℕ} {s t u : State} (h2 : ModeOk r t u) (h1 : ModeOk r s t) :
    ModeOk r s u :=
  ⟨h2.1.trans h1.1, fun h => h1.1 ▸ h2.2 (h1.1.symm ▸ h1.2 h)⟩

theorem modeOk_ite {r : ℕ} {s a b : State} (c : Prop) [Decidable c]
    (ha : ModeOk r s a) (hb : ModeOk r s b) : ModeOk r s (if c then a else b) := by
  split_ifs
  · exact ha
  · exact hb

theorem modeOk_setBoss (s : State) (r : ℕ) (b : Boss) (h1 : b.modes = (s.bossObjs r).modes)
    (h2 : (s.bossObjs r).modeIndex < (s.bossObjs r).modes.length →
      b.modeIndex < (s.bossObjs r).modes.length) : ModeOk r s (s.setBoss r b) := by
  simp only [ModeOk, State.setBoss, Function.update_same]
  exact ⟨h1, h2⟩

theorem modeOk_of_bossObjs (r : ℕ) (s t : State) (h : t.bossObjs = s.bossObjs) :
    ModeOk r s t := by
  simp only [ModeOk, h]
  exact ⟨trivial, id⟩

theorem updateBoss_retarget_modeOk (env : Env) (s : State) (r : ℕ) :
    ModeOk r s (updateBoss.retarget env s r) := by
  unfold updateBoss.retarget
  simp only [random]
  refine modeOk_ite _ ?_ (modeOk_refl r s)
  exact modeOk_step (modeOk_setBoss _ _ _ rfl id) (modeOk_of_bossObjs _ _ _ rfl)

theorem updateBoss_shoot_modeOk (env : Env) (s : State) (r : ℕ) :
    ModeOk r s (updateBoss.shoot env s r) := by
  unfold updateBoss.shoot
  simp only []
  refine modeOk_ite _ ?_ (modeOk_refl r s)
  exact modeOk_step (modeOk_setBoss _ _ _ rfl id)
    (modeOk_of_bossObjs _ _ _ (fireBoss_bossObjs env s))

theorem updateBoss_modeOk (env : Env) (s : State) (dt : ℚ) (r : ℕ) (hr : s.boss = some r) :
    ModeOk r s (updateBoss env s dt) := by
  unfold updateBoss
  rw [hr]
  simp only []
  have h0 : ModeOk r s (s.setBoss r { s.bossObjs r with age := (s.bossObjs r).age + dt }) :=
    modeOk_setBoss _ _ _ rfl id
  refine modeOk_ite _ (modeOk_step (modeOk_setBoss _ _ _ ?_ ?_) h0) ?_
  · simp [State.setBoss]
  · simp [State.setBoss]
  · unfold updateBoss.active
    simp only []
    refine modeOk_step (updateBoss_shoot_modeOk _ _ _) (modeOk_step
      (modeOk_setBoss _ _ _ ?_ ?_) (modeOk_step (updateBoss_retarget_modeOk _ _ _)
        (modeOk_step (modeOk_setBoss _ _ _ rfl id) h0)))
    · exact updateBoss_chase_modes env _ dt _
    · exact fun h => updateBoss_chase_index env _ dt _ h

/-- C29: the boss created by `spawnBoss` at tier L has the mode list shield,
laser, then missile exactly when L >= 2, then homing exactly when L >= 3, and
mode index 0; and `updateBoss` keeps the mode list and keeps the mode index
below its length, so the lookup `b.modes[b.modeIndex]` of `fireBoss` is in
bounds. -/
theorem boss_mode_index_in_bounds (env : Env) (s : State) (dt : ℚ) :
    ((spawnBoss env s).boss = some s.bossCount
        ∧ (spawnBoss env s).bossLevel = s.bossLevel + 1
        ∧ ((spawnBoss env s).bossObjs s.bossCount).modes
            = [BossMode.shield, BossMode.laser]
                ++ (if 2 ≤ s.bossLevel + 1 then [BossMode.missile] else [])
                ++ (if 3 ≤ s.bossLevel + 1 then [BossMode.homing] else [])
        ∧ ((spawnBoss env s).bossObjs s.bossCount).modeIndex = 0)
      ∧ (∀ r, s.boss = some r → (s.bossObjs r).modeIndex < (s.bossObjs r).modes.length →
          ((updateBoss env s dt).bossObjs r).modes = (s.bossObjs r).modes
            ∧ ((updateBoss env s dt).bossObjs r).modeIndex < (s.bossObjs r).modes.length
            ∧ (((updateBoss env s dt).bossObjs r).modes[
                ((updateBoss env s dt).bossObjs r).modeIndex]?).isSome = true) := by
  constructor
  · refine ⟨rfl, rfl, ?_, ?_⟩
    · simp only [spawnBoss, random, Function.update_same]
      split_ifs <;> rfl
    · simp only [spawnBoss, random, Function.update_same]
  · intro r hr hlt
    obtain ⟨k1, k2⟩ := updateBoss_modeOk env s dt r hr
    refine ⟨k1, k2 hlt, ?_⟩
    rw [List.getElem?_eq_getElem (by rw [k1]; exact k2 hlt)]
    rfl

/-- C29 at the first boss: `spawnBoss` at tier 1 gives the modes shield, laser
and index 0; a tick of `updateBoss` on the hovering tier-1 boss keeps the index
below 2. -/
theorem boss_mode_index_first_boss :
    ((spawnBoss quietEnv bossDueState).bossObjs bossDueState.bossCount).modes
        = [BossMode.shield, BossMode.laser]
      ∧ ((spawnBoss quietEnv bossDueState).bossObjs bossDueState.bossCount).modeIndex = 0
      ∧ ((updateBoss quietEnv bossFightState 0.033).bossObjs 0).modeIndex < 2 := by
  have h := boss_mode_index_in_bounds quietEnv bossDueState 0.033
  have h2 := (boss_mode_index_in_bounds quietEnv bossFightState 0.033).2 0 (by decide!)
    (by decide!)
  exact ⟨h.1.2.2.1.trans (by decide!), h.1.2.2.2, h2.2.1⟩

theorem blast_fields (env : Env) (damage : ℚ) (s : State) (i r : ℕ) :
    (addExplosion.blast env damage s i r).enemyObjs
        = Function.update s.enemyObjs r { s.enemyObjs r with hp := (s.enemyObjs r).hp - damage }
      ∧ (addExplosion.blast env damage s i r).enemies.take i = s.enemies.take i
      ∧ (addExplosion.blast env damage s i r).bossObjs = s.bossObjs
      ∧ (addExplosion.blast env damage s i r).boss = s.boss
      ∧ (addExplosion.blast env damage s i r).explosions = s.explosions := by
  unfold addExplosion.blast
  simp only []
  split_ifs
  · obtain ⟨ps, d, h⟩ := maybeDropPowerup_shape env
      { s.setEnemyHp r ((s.enemyObjs r).hp - damage) with
        enemies := splice (s.setEnemyHp r ((s.enemyObjs r).hp - damage)).enemies i
        kills := (s.setEnemyHp r ((s.enemyObjs r).hp - damage)).kills + 1
        score := (s.setEnemyHp r ((s.enemyObjs r).hp - damage)).score + 15 }
      ((s.enemyObjs r).x + 7) ((s.enemyObjs r).y + 6) 0.75
    rw [h]
    exact ⟨rfl, take_eraseIdx_self _ _, rfl, rfl, rfl⟩
  · exact ⟨rfl, rfl, rfl, rfl, rfl⟩

theorem explosion_enemyLoop_spec (env : Env) (x y radius damage : ℚ) (n : ℕ) :
    ∀ s : State, (s.enemies.take n).Nodup →
      (∀ r, (addExplosion.enemyLoop env x y radius damage n s).enemyObjs r
          = if r ∈ s.enemies.take n
                ∧ hypotLe ((s.enemyObjs r).x + (s.enemyObjs r).w / 2 - x)
                    ((s.enemyObjs r).y + (s.enemyObjs r).h / 2 - y) radius then
              { s.enemyObjs r with hp := (s.enemyObjs r).hp - damage }
            else s.enemyObjs r)
        ∧ (addExplosion.enemyLoop env x y radius damage n s).bossObjs = s.bossObjs
        ∧ (addExplosion.enemyLoop env x y radius damage n s).boss = s.boss
        ∧ (addExplosion.enemyLoop env x y radius damage n s).explosions = s.explosions := by
  induction n with
  | zero =>
    intro s _
    simp [addExplosion.enemyLoop]
  | succ i ih =>
    intro s hnd
    have htake : s.enemies.take (i + 1) = s.enemies.take i ++ s.enemies[i]?.toList :=
      List.take_succ
    rw [htake] at hnd
    have hnd0 : (s.enemies.take i).Nodup := (List.nodup_append.mp hnd).1
    unfold addExplosion.enemyLoop
    cases hr : s.enemies[i]? with
    | none =>
      simp only [htake, hr, Option.toList, List.append_nil]
      exact ih s hnd0
    | some r =>
      have hrnot : r ∉ s.enemies.take i := by
        rw [hr] at hnd
        intro hm
        exact (List.nodup_append.mp hnd).2.2 hm (by simp)
      simp only [htake, hr, Option.toList, List.mem_append, List.mem_singleton]
      by_cases hhit : hypotLe ((s.enemyObjs r).x + (s.enemyObjs r).w / 2 - x)
          ((s.enemyObjs r).y + (s.enemyObjs r).h / 2 - y) radius
      · simp only [hhit, if_true]
        obtain ⟨b1, b2, b3, b4, b5⟩ := blast_fields env damage s i r
        obtain ⟨h1, h2, h3, h4⟩ :=
          ih (addExplosion.blast env damage s i r) (by rw [b2]; exact hnd0)
        refine ⟨?_, h2.trans b3, h3.trans b4, h4.trans b5⟩
        intro q
        rw [h1 q, b1, b2]
        by_cases hq : q = r
        · subst hq
          simp [hrnot, hhit]
        · simp [Function.update, hq]
      · simp only [hhit, if_false]
        obtain ⟨h1, h2, h3, h4⟩ := ih s hnd0
        refine ⟨?_, h2, h3, h4⟩
        intro q
        rw [h1 q]
        by_cases hq : q = r
        · subst hq
          simp [hrnot, hhit]
        · simp [hq]

theorem explosion_bossPart_spec (env : Env) (x y radius damage : ℚ) (s : State) :
    (addExplosion.bossPart env x y radius damage s).enemyObjs = s.enemyObjs
      ∧ (addExplosion.bossPart env x y radius damage s).explosions = s.explosions
      ∧ ∀ b, s.boss = some b →
          ((addExplosion.bossPart env x y radius damage s).bossObjs b).hp
            = (s.bossObjs b).hp
              - (if hypotLe ((s.bossObjs b).x + (s.bossObjs b).w / 2 - x)
                    ((s.bossObjs b).y + (s.bossObjs b).h / 2 - y) (radius + 32)
                  then damage * 2 else 0) := by
  unfold addExplosion.bossPart
  cases hb : s.boss with
  | none => simp
  | some b =>
    simp only []
    by_cases hhit : hypotLe ((s.bossObjs b).x + (s.bossObjs b).w / 2 - x)
        ((s.bossObjs b).y + (s.bossObjs b).h / 2 - y) (radius + 32)
    · simp only [hhit, if_true]
      split_ifs
      · obtain ⟨sc, ps, b2, n, d, h⟩ := defeatBoss_shape env
          (s.setBossHp b ((s.bossObjs b).hp - damage * 2))
          ((s.bossObjs b).x + (s.bossObjs b).w / 2) ((s.bossObjs b).y + (s.bossObjs b).h / 2) 0
        rw [h]
        refine ⟨rfl, rfl, ?_⟩
        intro b3 hb3
        simp only [Option.some.injEq] at hb3
        subst hb3
        simp [State.setBossHp, hhit]
      · refine ⟨rfl, rfl, ?_⟩
        intro b3 hb3
        simp only [Option.some.injEq] at hb3
        subst hb3
        simp [State.setBossHp, hhit]
    · simp only [hhit, if_false]
      refine ⟨trivial, trivial, ?_⟩
      intro b3 hb3
      simp only [Option.some.injEq] at hb3
      subst hb3
      simp [hhit]

/-- C24: `addExplosion(x, y, radius, damage)` appends exactly one explosion
record and, the enemy list holding each enemy object once, subtracts damage
exactly once from every listed enemy whose centre is within radius of (x, y) and
leaves every other enemy's hit points unchanged; a boss whose centre is within
radius + 32 loses exactly 2 damage, else nothing; and the later ageing of the
record by `updatePowerups` changes no enemy or boss object. -/
theorem addExplosion_spec (env : Env) (s : State) (x y radius damage dt : ℚ)
    (hnd : s.enemies.Nodup) :
    (addExplosion env s x y radius damage).explosions = s.explosions ++ [⟨x, y, radius, 0.26⟩]
      ∧ (∀ r, ((addExplosion env s x y radius damage).enemyObjs r).hp
          = (s.enemyObjs r).hp
            - (if r ∈ s.enemies
                  ∧ hypotLe ((s.enemyObjs r).x + (s.enemyObjs r).w / 2 - x)
                      ((s.enemyObjs r).y + (s.enemyObjs r).h / 2 - y) radius
                then damage else 0))
      ∧ (∀ b, s.boss = some b →
          ((addExplosion env s x y radius damage).bossObjs b).hp
            = (s.bossObjs b).hp
              - (if hypotLe ((s.bossObjs b).x + (s.bossObjs b).w / 2 - x)
                    ((s.bossObjs b).y + (s.bossObjs b).h / 2 - y) (radius + 32)
                  then 2 * damage else 0))
      ∧ (∀ t : State, (updatePowerups env t dt).enemyObjs = t.enemyObjs
          ∧ (updatePowerups env t dt).bossObjs = t.bossObjs) := by
  obtain ⟨l1, l2, l3, l4⟩ := explosion_enemyLoop_spec env x y radius damage s.enemies.length
    { s with explosions := s.explosions ++ [⟨x, y, radius, 0.26⟩] }
    (by rw [List.take_length]; exact hnd)
  obtain ⟨b1, b2, b3⟩ := explosion_bossPart_spec env x y radius damage
    (addExplosion.enemyLoop env x y radius damage s.enemies.length
      { s with explosions := s.explosions ++ [⟨x, y, radius, 0.26⟩] })
  have heq : addExplosion env s x y radius damage
      = addExplosion.bossPart env x y radius damage
          (addExplosion.enemyLoop env x y radius damage s.enemies.length
            { s with explosions := s.explosions ++ [⟨x, y, radius, 0.26⟩] }) := rfl
  rw [heq]
  refine ⟨?_, ?_, ?_, fun t => ⟨rfl, rfl⟩⟩
  · rw [b2, l4]
  · intro r
    rw [b1, l1 r, List.take_length]
    by_cases hc : r ∈ s.enemies
        ∧ hypotLe ((s.enemyObjs r).x + (s.enemyObjs r).w / 2 - x)
            ((s.enemyObjs r).y + (s.enemyObjs r).h / 2 - y) radius
    · simp only [hc, and_self, if_true]
    · simp only [hc, if_false, sub_zero]
  · intro b hb
    rw [b3 b (by rw [l3]; exact hb), l2]
    by_cases hhit : hypotLe ((s.bossObjs b).x + (s.bossObjs b).w / 2 - x)
        ((s.bossObjs b).y + (s.bossObjs b).h / 2 - y) (radius + 32)
    · simp only [hhit, if_true]
      ring
    · simp only [hhit, if_false]

/-- C24 on three enemies of 5 hit points and a blast of radius 58 and damage 3
at (115, 127): the two enemies within the radius are left with 2 hit points, the
third keeps its 5, and one explosion record is added. -/
theorem addExplosion_spec_example :
    (addExplosion quietEnv blastState 115 127 58 3).explosions = [⟨115, 127, 58, 0.26⟩]
      ∧ ((addExplosion quietEnv blastState 115 127 58 3).enemyObjs 0).hp = 2
      ∧ ((addExplosion quietEnv blastState 115 127 58 3).enemyObjs 1).hp = 2
      ∧ ((addExplosion quietEnv blastState 115 127 58 3).enemyObjs 2).hp = 5 := by
  have h := addExplosion_spec quietEnv blastState 115 127 58 3 0.033 (by decide)
  refine ⟨h.1, (h.2.1 0).trans (by decide!), (h.2.1 1).trans (by decide!),
    (h.2.1 2).trans (by decide!)⟩

theorem addsOther_refl (s : State) : AddsOther s s :=
  ⟨[], by simp, by simp⟩

/-- Transitivity of `AddsOther` with the later step first. -/
theorem addsOther_step {s t u : State} (h2 : AddsOther t u) (h1 : AddsOther s t) :
    AddsOther s u := by
  obtain ⟨l1, rfl, p1⟩ := h1
  obtain ⟨l2, rfl, p2⟩ := h2
  refine ⟨l1 ++ l2, by simp, ?_⟩
  intro b hb
  rcases List.mem_append.mp hb with h | h
  · exact p1 b h
  · exact p2 b h

theorem addsOther_ite {s a b : State} (c : Prop) [Decidable c]
    (ha : AddsOther s a) (hb : AddsOther s b) : AddsOther s (if c then a else b) := by
  split_ifs
  · exact ha
  · exact hb

theorem addsOther_add {s t : State} (h : AddsOther s t) (d : BulletData)
    (hd : d.type ≠ BulletType.normal) : AddsOther s (addPlayerBullet t d) := by
  refine addsOther_step ⟨_, rfl, ?_⟩ h
  intro b hb
  simp only [List.mem_singleton] at hb
  rw [hb]
  exact hd

theorem fireWingman_addsOther (s : State) (cx : ℚ) : AddsOther s (fireWingman s cx) := by
  have h1 : ∀ (t : State) (l : ℤ) (y : ℚ), AddsOther t (fireWingman.sideShots t l y) := by
    intro t l y
    unfold fireWingman.sideShots
    exact addsOther_add (addsOther_add (addsOther_refl t) _ (by intro h; cases h)) _ (by intro h; cases h)
  have h2 : ∀ (t : State) (l : ℤ), AddsOther t (fireWingman.forwardShot t l cx) := by
    intro t l
    unfold fireWingman.forwardShot
    exact addsOther_ite _ (addsOther_add (addsOther_refl t) _ (by intro h; cases h)) (addsOther_refl t)
  have h3 : ∀ (t : State) (l : ℤ), AddsOther t (fireWingman.angledShots t l) := by
    intro t l
    unfold fireWingman.angledShots
    exact addsOther_ite _
      (addsOther_add (addsOther_add (addsOther_refl t) _ (by intro h; cases h)) _ (by intro h; cases h))
      (addsOther_refl t)
  have h4 : ∀ (t : State) (l : ℤ), AddsOther t (fireWingman.missiles t l) := by
    intro t l
    unfold fireWingman.missiles
    exact addsOther_ite _
      (addsOther_add (addsOther_add (addsOther_refl t) _ (by intro h; cases h)) _ (by intro h; cases h))
      (addsOther_refl t)
  unfold fireWingman
  refine addsOther_ite _ (addsOther_refl s) ?_
  exact addsOther_step (h4 _ _) (addsOther_step (h3 _ _) (addsOther_step (h2 _ _) (h1 _ _ _)))

theorem normalShot_eq (t : State) (cx baseDamage sizeMul : ℚ) (spread i : ℕ) :
    firePlayer.normalShot t cx baseDamage sizeMul spread i
      = { t with playerBullets := t.playerBullets
            ++ [firePlayer.volleyBullet t.player.y cx baseDamage sizeMul spread i] } := by
  simp [firePlayer.normalShot, addPlayerBullet, firePlayer.volleyBullet]

theorem normalShots_eq (cx baseDamage sizeMul : ℚ) (spread : ℕ) (l : List ℕ) :
    ∀ t : State,
      l.foldl (fun s i => firePlayer.normalShot s cx baseDamage sizeMul spread i) t
        = { t with playerBullets := t.playerBullets
              ++ l.map (firePlayer.volleyBullet t.player.y cx baseDamage sizeMul spread) } := by
  induction l with
  | nil => intro t; simp
  | cons i l ih =>
    intro t
    simp only [List.foldl_cons, List.map_cons]
    rw [normalShot_eq, ih]
    simp

theorem firePlayer_decomp (s : State) :
    ∃ s2 : State, AddsOther s s2
      ∧ firePlayer s
          = fireWingman
              ((List.range (firePlayer.spread s2)).foldl
                (fun t i => firePlayer.normalShot t (s.player.x + s.player.w / 2)
                  (1 + getPlayerPowerLevel s * 0.22)
                  (1 + min 0.45 (getPlayerPowerLevel s * 0.035)) (firePlayer.spread s2) i) s2)
              (s.player.x + s.player.w / 2) := by
  unfold firePlayer
  simp only []
  refine ⟨_, ?_, rfl⟩
  repeat' first
    | exact addsOther_refl _
    | apply addsOther_ite
    | refine addsOther_add ?_ _ ?_
    | (intro h; cases h)

theorem volley_symmetric (py cx bd sm : ℚ) (k : ℕ) (hk : k = 1 ∨ k = 2 ∨ k = 3) :
    ∀ b ∈ (List.range k).map (firePlayer.volleyBullet py cx bd sm k),
      ∃ b2 ∈ (List.range k).map (firePlayer.volleyBullet py cx bd sm k),
        (b2.x + b2.w / 2) - cx = -((b.x + b.w / 2) - cx) ∧ b2.vx = -b.vx := by
  have r1 : List.range 1 = [0] := rfl
  have r2 : List.range 2 = [0, 1] := rfl
  have r3 : List.range 3 = [0, 1, 2] := rfl
  rcases hk with rfl | rfl | rfl
  · intro b hb
    rw [r1] at hb ⊢
    simp only [List.map_cons, List.map_nil, List.mem_singleton] at hb
    subst hb
    refine ⟨_, List.mem_cons_self _ _, ?_, ?_⟩ <;>
      simp [firePlayer.volleyBullet] <;> ring
  · intro b hb
    rw [r2] at hb ⊢
    simp only [List.map_cons, List.map_nil, List.mem_cons, List.mem_singleton,
      List.not_mem_nil, or_false] at hb
    rcases hb with rfl | rfl
    · refine ⟨firePlayer.volleyBullet py cx bd sm 2 1, by simp, ?_, ?_⟩ <;>
        norm_num [firePlayer.volleyBullet] <;> ring
    · refine ⟨firePlayer.volleyBullet py cx bd sm 2 0, by simp, ?_, ?_⟩ <;>
        norm_num [firePlayer.volleyBullet] <;> ring
  · intro b hb
    rw [r3] at hb ⊢
    simp only [List.map_cons, List.map_nil, List.mem_cons, List.mem_singleton,
      List.not_mem_nil, or_false] at hb
    rcases hb with rfl | rfl | rfl
    · refine ⟨firePlayer.volleyBullet py cx bd sm 3 2, by simp, ?_, ?_⟩ <;>
        norm_num [firePlayer.volleyBullet] <;> ring
    · refine ⟨firePlayer.volleyBullet py cx bd sm 3 1, by simp, ?_, ?_⟩ <;>
        norm_num [firePlayer.volleyBullet] <;> ring
    · refine ⟨firePlayer.volleyBullet py cx bd sm 3 0, by simp, ?_, ?_⟩ <;>
        norm_num [firePlayer.volleyBullet] <;> ring

/-- C28: the bullets that `firePlayer` appends are some bullets of other types,
then the normal volley, then some bullets of other types. The volley has exactly
1 bullet of type normal below level 2, 2 at levels 2 and 3, and 3 from level 4,
and it is symmetric about the player's centre x: for every volley bullet with
centre offset d and horizontal velocity v there is a volley bullet with offset
-d and velocity -v. -/
theorem firePlayer_volley (s : State) :
    ∃ pre volley post : List Bullet,
      (firePlayer s).playerBullets = s.playerBullets ++ pre ++ volley ++ post
        ∧ (∀ b ∈ pre ++ post, b.type ≠ BulletType.normal)
        ∧ (∀ b ∈ volley, b.type = BulletType.normal)
        ∧ volley.length = (if s.level ≥ 4 then 3 else if s.level ≥ 2 then 2 else 1)
        ∧ (∀ b ∈ volley, ∃ b2 ∈ volley,
            (b2.x + b2.w / 2) - (s.player.x + s.player.w / 2)
                = -((b.x + b.w / 2) - (s.player.x + s.player.w / 2))
              ∧ b2.vx = -b.vx) := by
  obtain ⟨s2, ⟨pre, hpre, ppre⟩, hfire⟩ := firePlayer_decomp s
  subst hpre
  have hspread : firePlayer.spread { s with playerBullets := s.playerBullets ++ pre }
      = firePlayer.spread s := rfl
  rw [hspread, normalShots_eq] at hfire
  have hw := fireWingman_addsOther
    { s with
      playerBullets := (s.playerBullets ++ pre)
        ++ (List.range (firePlayer.spread s)).map
            (firePlayer.volleyBullet s.player.y (s.player.x + s.player.w / 2)
              (1 + getPlayerPowerLevel s * 0.22)
              (1 + min 0.45 (getPlayerPowerLevel s * 0.035)) (firePlayer.spread s)) }
    (s.player.x + s.player.w / 2)
  obtain ⟨post, hpost, ppost⟩ := hw
  have hfire2 := hfire.trans hpost
  have hk : firePlayer.spread s = 1 ∨ firePlayer.spread s = 2 ∨ firePlayer.spread s = 3 := by
    unfold firePlayer.spread
    split_ifs <;> simp
  refine ⟨pre, (List.range (firePlayer.spread s)).map
      (firePlayer.volleyBullet s.player.y (s.player.x + s.player.w / 2)
        (1 + getPlayerPowerLevel s * 0.22)
        (1 + min 0.45 (getPlayerPowerLevel s * 0.035)) (firePlayer.spread s)), post,
    ?_, ?_, ?_, ?_, volley_symmetric _ _ _ _ _ hk⟩
  · rw [hfire2]
  · intro b hb
    rcases List.mem_append.mp hb with h | h
    · exact ppre b h
    · exact ppost b h
  · intro b hb
    obtain ⟨i, _, rfl⟩ := List.mem_map.mp hb
    rfl
  · rw [List.length_map, List.length_range]
    rfl

/-- At level 4 without gear three normal bullets are emitted, with centre offsets -9, 0
and 9 from the player's centre x = 240 and horizontal velocities -70, 0 and 70. -/
theorem firePlayer_volley_level4 :
    (firePlayer level4State).playerBullets.map
        (fun b => (b.type, b.x + b.w / 2 - 240, b.vx))
      = [(BulletType.normal, -9, -70), (BulletType.normal, 0, 0), (BulletType.normal, 9, 70)] := by
  decide!

theorem gain_refl (s : State) : Gain s s := ⟨rfl, fun _ => le_refl _, le_refl _, rfl⟩

theorem gain_trans {s t u : State} (h1 : Gain s t) (h2 : Gain t u) : Gain s u :=
  ⟨h2.1.trans h1.1, fun h => le_trans (h1.2.1 h) (h2.2.1 (h1.1 ▸ h)),
    le_trans h2.2.2.1 h1.2.2.1, h2.2.2.2.trans h1.2.2.2⟩

theorem gain_ite {s a b : State} (c : Prop) [Decidable c] (ha : Gain s a) (hb : Gain s b) :
    Gain s (if c then a else b) := by
  split_ifs
  · exact ha
  · exact hb

theorem gain_same {s t : State} (h1 : t.bossLevel = s.bossLevel) (h2 : t.score = s.score)
    (h3 : t.enemies = s.enemies) (h4 : t.time = s.time) : Gain s t :=
  ⟨h1, fun _ => le_of_eq h2.symm, le_of_eq (congrArg List.length h3), h4⟩

theorem gain_of {s t : State} (h1 : t.bossLevel = s.bossLevel) (h2 : s.score ≤ t.score)
    (h3 : t.enemies.length ≤ s.enemies.length) (h4 : t.time = s.time) : Gain s t :=
  ⟨h1, fun _ => h2, h3, h4⟩

theorem splice_length_le {α : Type} (l : List α) (i : ℕ) : (splice l i).length ≤ l.length :=
  List.length_eraseIdx_le l i

/-- Transitivity of `Gain` with the later step first. -/
theorem gain_step {s t u : State} (h2 : Gain t u) (h1 : Gain s t) : Gain s u :=
  gain_trans h1 h2

theorem gain_score (s : State) (k : ℤ) (hk : 0 ≤ k) : Gain s { s with score := s.score + k } :=
  gain_of rfl (le_add_of_nonneg_right hk) (le_refl _) rfl

theorem gain_splice (s : State) (i : ℕ) : Gain s { s with enemies := splice s.enemies i } :=
  gain_of rfl (le_refl _) (splice_length_le _ _) rfl

theorem maybeDropPowerup_gain (env : Env) (s : State) (x y mult : ℚ) :
    Gain s (maybeDropPowerup env s x y mult) := by
  obtain ⟨ps, d, h⟩ := maybeDropPowerup_shape env s x y mult
  rw [h]
  exact gain_same rfl rfl rfl rfl

theorem defeatBoss_gain (env : Env) (s : State) (x y : ℚ) (bonus : ℤ) (hb : -520 ≤ bonus) :
    Gain s (defeatBoss env s x y bonus) := by
  unfold defeatBoss
  cases s.boss with
  | none => exact gain_refl s
  | some b =>
    refine ⟨rfl, fun h => ?_, le_refl _, rfl⟩
    show s.score ≤ s.score + (520 + s.bossLevel * 160 + bonus)
    linarith

theorem equipGear_gain (s : State) (type : GearKind) (tier : ℤ) :
    Gain s (equipGear s type tier) := by
  refine gain_of rfl ?_ (le_refl _) rfl
  show s.score ≤ s.score + (if tier > s.effects.get type then 16 else 8)
  split_ifs <;> linarith

theorem addExplosion_blast_gain (env : Env) (damage : ℚ) (s : State) (i r : ℕ) :
    Gain s (addExplosion.blast env damage s i r) := by
  unfold addExplosion.blast
  simp only []
  exact gain_ite _
    (gain_step (maybeDropPowerup_gain _ _ _ _ _) (gain_of rfl (le_add_of_nonneg_right (by norm_num)) (splice_length_le _ _) rfl))
    (gain_same rfl rfl rfl rfl)

theorem addExplosion_enemyLoop_gain (env : Env) (x y radius damage : ℚ) (n : ℕ) :
    ∀ s : State, Gain s (addExplosion.enemyLoop env x y radius damage n s) := by
  induction n with
  | zero => intro s; exact gain_refl s
  | succ i ih =>
    intro s
    unfold addExplosion.enemyLoop
    cases s.enemies[i]? with
    | none => exact ih s
    | some r =>
      simp only []
      exact gain_ite _ (gain_step (ih _) (addExplosion_blast_gain _ _ _ _ _)) (ih s)

theorem addExplosion_bossPart_gain (env : Env) (x y radius damage : ℚ) (s : State) :
    Gain s (addExplosion.bossPart env x y radius damage s) := by
  unfold addExplosion.bossPart
  cases s.boss with
  | none => exact gain_refl s
  | some b =>
    simp only []
    exact gain_ite _
      (gain_ite _ (gain_step (defeatBoss_gain _ _ _ _ _ (by norm_num)) (gain_same rfl rfl rfl rfl))
        (gain_same rfl rfl rfl rfl))
      (gain_refl s)

theorem addExplosion_gain (env : Env) (s : State) (x y radius damage : ℚ) :
    Gain s (addExplosion env s x y radius damage) :=
  gain_step (addExplosion_bossPart_gain _ _ _ _ _ _)
    (gain_step (addExplosion_enemyLoop_gain _ _ _ _ _ _ _) (gain_same rfl rfl rfl rfl))

theorem setTargetHp_gain (s : State) (t : Target) (v : ℚ) : Gain s (s.setTargetHp t v) := by
  cases t <;> exact gain_same rfl rfl rfl rfl

theorem bossHop_gain (env : Env) (s : State) (best : Target) :
    Gain s (chainDamage.bossHop env s best) := by
  unfold chainDamage.bossHop
  simp only []
  exact gain_ite _ (gain_step (defeatBoss_gain _ _ _ _ _ (by norm_num)) (setTargetHp_gain _ _ _))
    (setTargetHp_gain _ _ _)

theorem enemyHop_gain (env : Env) (s : State) (best : Target) :
    Gain s (chainDamage.enemyHop env s best) := by
  unfold chainDamage.enemyHop
  simp only []
  refine gain_ite _ ?_ (setTargetHp_gain _ _ _)
  cases (s.setTargetHp best (s.targetHp best - 2)).enemiesIndexOf best with
  | none => exact setTargetHp_gain _ _ _
  | some idx =>
    exact gain_step (maybeDropPowerup_gain _ _ _ _ _)
      (gain_step (gain_score _ 18 (by norm_num)) (gain_step (gain_same rfl rfl rfl rfl)
        (gain_step (gain_splice _ _) (setTargetHp_gain s best (s.targetHp best - 2)))))

theorem chainDamage_loop_gain (env : Env) (n : ℕ) :
    ∀ (s : State) (visited : List Target) (source : Target),
      Gain s (chainDamage.loop env n s visited source).1 := by
  induction n with
  | zero => intro s _ _; exact gain_refl s
  | succ n ih =>
    intro s visited source
    unfold chainDamage.loop
    cases chainDamage.pick s visited source with
    | none => exact gain_refl s
    | some best =>
      simp only []
      have harc : Gain s (chainDamage.addArc s source best) := gain_same rfl rfl rfl rfl
      split_ifs
      · exact gain_step (bossHop_gain _ _ _) harc
      · exact gain_step (ih _ _ _) (gain_step (enemyHop_gain _ _ _) harc)

theorem chainDamage_gain (env : Env) (s : State) (start : Target) :
    Gain s (chainDamage env s start) := by
  unfold chainDamage
  exact gain_ite _ (gain_refl s) (chainDamage_loop_gain _ _ _ _ _)

theorem damagePlayer_gain (s : State) (amount : ℚ) : Gain s (damagePlayer s amount) := by
  have happly : ∀ a : ℚ, Gain s (damagePlayer.apply s a) := by
    intro a
    unfold damagePlayer.apply
    simp only []
    split_ifs
    · exact gain_same rfl rfl rfl rfl
    · exact gain_same rfl rfl rfl rfl
  unfold damagePlayer
  refine gain_ite _ (gain_refl s) (gain_ite _ (gain_ite _ ?_ (happly _)) (happly _))
  exact gain_same rfl rfl rfl rfl

theorem spendBullet_gain (env : Env) (s : State) (j : ℕ) (b : Bullet) (radius : ℚ) :
    Gain s (handleHits.spendBullet env s j b radius) := by
  unfold handleHits.spendBullet
  simp only []
  refine gain_ite _ (gain_same rfl rfl rfl rfl) ?_
  exact gain_step (gain_same rfl rfl rfl rfl)
    (gain_ite _ (addExplosion_gain _ _ _ _ _ _) (gain_refl s))

theorem chainFrom_gain (env : Env) (s : State) (t : Target) :
    Gain s (handleHits.chainFrom env s t) :=
  gain_ite _ (chainDamage_gain _ _ _) (gain_refl s)

theorem countKill_gain (env : Env) (s : State) (i : ℕ) (e : Enemy) :
    Gain s (handleHits.countKill env s i e) := by
  unfold handleHits.countKill
  simp only []
  have h : Gain s (maybeDropPowerup env
      { s with enemies := splice s.enemies i, kills := s.kills + 1, score := s.score + 15 }
      (e.x + 7) (e.y + 6) 1) :=
    gain_step (maybeDropPowerup_gain _ _ _ _ _) (gain_of rfl (le_add_of_nonneg_right (by norm_num)) (splice_length_le _ _) rfl)
  exact gain_ite _ (gain_step (gain_same rfl rfl rfl rfl) h) h

theorem finishEnemy_gain (env : Env) (s : State) (i r : ℕ) :
    Gain s (handleHits.finishEnemy env s i r) :=
  gain_ite _ (countKill_gain _ _ _ _) (gain_refl s)

theorem enemyHit_gain (env : Env) (s : State) (i r j : ℕ) (b : Bullet) :
    Gain s (handleHits.enemyHit env s i r j b) :=
  gain_step (finishEnemy_gain _ _ _ _) (gain_step (chainFrom_gain _ _ _)
    (gain_step (spendBullet_gain _ _ _ _ _) (gain_same rfl rfl rfl rfl)))

theorem bulletLoop_gain (env : Env) (i r : ℕ) (n : ℕ) :
    ∀ s : State, Gain s (handleHits.bulletLoop env i r n s) := by
  induction n with
  | zero => intro s; exact gain_refl s
  | succ j ih =>
    intro s
    unfold handleHits.bulletLoop
    cases s.playerBullets[j]? with
    | none => exact ih s
    | some b => exact gain_ite _ (ih s) (enemyHit_gain _ _ _ _ _ _)

theorem enemyLoop_gain (env : Env) (n : ℕ) :
    ∀ s t : State, handleHits.enemyLoop env n s = some t → Gain s t := by
  induction n with
  | zero =>
    intro s t h
    simp only [handleHits.enemyLoop, Option.some.injEq] at h
    rw [← h]
    exact gain_refl s
  | succ i ih =>
    intro s t h
    unfold handleHits.enemyLoop at h
    cases hr : s.enemies[i]? with
    | none => rw [hr] at h; exact absurd h (by simp)
    | some r =>
      rw [hr] at h
      simp only [] at h
      split_ifs at h
      · exact gain_step (ih _ _ h) (gain_step (damagePlayer_gain _ _) (gain_splice _ _))
      · exact gain_step (ih _ _ h) (bulletLoop_gain _ _ _ _ _)

theorem bossHit_gain (env : Env) (s : State) (b i : ℕ) (bullet : Bullet) :
    Gain s (handleHits.bossHit env s b i bullet) :=
  gain_step (chainFrom_gain _ _ _)
    (gain_step (spendBullet_gain _ _ _ _ _) (gain_same rfl rfl rfl rfl))

theorem bossLoop_gain (env : Env) (b : ℕ) (n : ℕ) :
    ∀ s : State, Gain s (handleHits.bossLoop env b n s) := by
  induction n with
  | zero => intro s; exact gain_refl s
  | succ i ih =>
    intro s
    unfold handleHits.bossLoop
    cases s.playerBullets[i]? with
    | none => exact ih s
    | some bullet =>
      have h := bossHit_gain env s b i bullet
      simp only []
      exact gain_ite _ (ih s)
        (gain_ite _ (gain_step (defeatBoss_gain _ _ _ _ _ (by norm_num)) h) (gain_step (ih _) h))

theorem bossPart_gain (env : Env) (s : State) : Gain s (handleHits.bossPart env s) := by
  unfold handleHits.bossPart
  cases s.boss with
  | none => exact gain_refl s
  | some b =>
    simp only []
    exact gain_step (bossLoop_gain _ _ _ _)
      (gain_ite _ (damagePlayer_gain _ _) (gain_refl s))

theorem reflectBullet_gain (env : Env) (s : State) (i : ℕ) (bullet : EnemyBullet) :
    Gain s (handleHits.reflectBullet env s i bullet) :=
  gain_same rfl rfl rfl rfl

theorem enemyBulletLoop_gain (env : Env) (n : ℕ) :
    ∀ s : State, Gain s (handleHits.enemyBulletLoop env n s) := by
  induction n with
  | zero => intro s; exact gain_refl s
  | succ i ih =>
    intro s
    unfold handleHits.enemyBulletLoop
    cases s.enemyBullets[i]? with
    | none => exact ih s
    | some bullet =>
      simp only []
      refine gain_ite _ (gain_ite _ ?_ ?_) (ih s)
      · exact gain_step (ih _) (reflectBullet_gain _ _ _ _)
      · exact gain_step (ih _) (gain_step (damagePlayer_gain _ _) (gain_same rfl rfl rfl rfl))

theorem pickup_gain (s : State) (p : Powerup) : Gain s (handleHits.pickup s p) := by
  unfold handleHits.pickup
  cases p.type with
  | none => exact gain_refl s
  | some type =>
    simp only []
    refine gain_ite _ ?_ (gain_refl s)
    exact gain_step (gain_same rfl rfl rfl rfl)
      (equipGear_gain s type (if p.tier = 0 then 1 else p.tier))

theorem powerupLoop_gain (n : ℕ) : ∀ s : State, Gain s (handleHits.powerupLoop n s) := by
  induction n with
  | zero => intro s; exact gain_refl s
  | succ i ih =>
    intro s
    unfold handleHits.powerupLoop
    cases s.powerups[i]? with
    | none => exact ih s
    | some p =>
      simp only []
      exact gain_ite _ (ih s)
        (gain_step (ih _) (gain_step (gain_same rfl rfl rfl rfl) (pickup_gain s p)))

theorem handleHits_gain (env : Env) (s t : State) (h : handleHits env s = some t) : Gain s t := by
  unfold handleHits at h
  cases he : handleHits.enemyLoop env s.enemies.length s with
  | none => rw [he] at h; exact absurd h (by simp)
  | some s1 =>
    rw [he] at h
    simp only [Option.some.injEq] at h
    rw [← h]
    exact gain_step (powerupLoop_gain _ _) (gain_step (enemyBulletLoop_gain _ _ _)
      (gain_step (bossPart_gain _ _) (enemyLoop_gain _ _ _ _ he)))

theorem gain_draws (s : State) (d : ℕ) : Gain s { s with draws := d } :=
  gain_same rfl rfl rfl rfl

theorem gain_enemyBullets (s : State) (l : List EnemyBullet) :
    Gain s { s with enemyBullets := l } :=
  gain_same rfl rfl rfl rfl

theorem gain_playerBullets (s : State) (l : List Bullet) :
    Gain s { s with playerBullets := l } :=
  gain_same rfl rfl rfl rfl

theorem setEnemy_gain (s : State) (r : ℕ) (e : Enemy) : Gain s (s.setEnemy r e) :=
  gain_same rfl rfl rfl rfl

theorem setBoss_gain (s : State) (r : ℕ) (b : Boss) : Gain s (s.setBoss r b) :=
  gain_same rfl rfl rfl rfl

theorem setBossHp_gain (s : State) (r : ℕ) (v : ℚ) : Gain s (s.setBossHp r v) :=
  gain_same rfl rfl rfl rfl

theorem fireEnemyBullet_gain (env : Env) (s : State) (x y speed : ℚ) (kind : EnemyBulletType) :
    Gain s (fireEnemyBullet env s x y speed kind) := by
  unfold fireEnemyBullet
  simp only [random]
  exact gain_ite _ (gain_same rfl rfl rfl rfl) (gain_same rfl rfl rfl rfl)

theorem spreadShots_gain (cx y : ℚ) (spread : ℤ) (l : List ℕ) :
    ∀ s t : State, Gain s t →
      Gain s (l.foldl (fun s i => fireBoss.spreadShot s cx y spread i) t) := by
  induction l with
  | nil => intro s t h; exact h
  | cons i l ih =>
    intro s t h
    simp only [List.foldl_cons]
    exact ih s _ (gain_step (gain_same rfl rfl rfl rfl) h)

theorem fireBoss_extra_gain (env : Env) (s : State) (mode : Option BossMode) (cx y : ℚ) :
    Gain s (fireBoss.extra env s mode cx y) := by
  unfold fireBoss.extra
  have h1 : Gain s (if mode = some BossMode.laser then
      { s with enemyBullets := s.enemyBullets ++
          [⟨cx - 6, y + 2, 12, 46, 0, 260, 1.4, EnemyBulletType.bossLaser, 2, some 99, none⟩] }
      else s) := gain_ite _ (gain_enemyBullets _ _) (gain_refl s)
  revert h1
  generalize (if mode = some BossMode.laser then
      { s with enemyBullets := s.enemyBullets ++
          [⟨cx - 6, y + 2, 12, 46, 0, 260, 1.4, EnemyBulletType.bossLaser, 2, some 99, none⟩] }
      else s) = s1
  intro h1
  simp only []
  have h2 : Gain s (if mode = some BossMode.missile then
      { s1 with enemyBullets := s1.enemyBullets ++
          [⟨cx - 4, y, 8, 12, 0, 160, 7, EnemyBulletType.bossMissile, 2, none, some 2.8⟩] }
      else s1) := gain_step (gain_ite _ (gain_enemyBullets _ _) (gain_refl s1)) h1
  exact gain_ite _
    (gain_step (fireEnemyBullet_gain _ _ _ _ _ _) (gain_step (fireEnemyBullet_gain _ _ _ _ _ _) h2))
    h2

theorem fireBoss_gain (env : Env) (s : State) : Gain s (fireBoss env s) := by
  unfold fireBoss
  cases s.boss with
  | none => exact gain_refl s
  | some r =>
    simp only []
    exact gain_step (fireBoss_extra_gain _ _ _ _ _) (spreadShots_gain _ _ _ _ _ _ (gain_refl s))

theorem updateEnemies_fire_gain (env : Env) (s : State) (dt : ℚ) (r : ℕ) :
    Gain s (updateEnemies.fire env s dt r) := by
  unfold updateEnemies.fire
  simp only [random]
  refine gain_ite _ ?_ (setEnemy_gain _ _ _)
  exact gain_step (setEnemy_gain _ _ _) (gain_step (gain_draws _ _)
    (gain_step (fireEnemyBullet_gain _ _ _ _ _ _) (gain_step (gain_draws _ _)
      (setEnemy_gain _ _ _))))

theorem updateEnemies_loop_gain (env : Env) (dt : ℚ) (n : ℕ) :
    ∀ s : State, Gain s (updateEnemies.loop env dt n s) := by
  induction n with
  | zero => intro s; exact gain_refl s
  | succ i ih =>
    intro s
    unfold updateEnemies.loop
    cases s.enemies[i]? with
    | none => exact ih s
    | some r =>
      have hF : Gain s (updateEnemies.fire env
          (s.setEnemy r (updateEnemies.move env s dt (s.enemyObjs r))) dt r) :=
        gain_step (updateEnemies_fire_gain _ _ _ _) (setEnemy_gain _ _ _)
      simp only []
      exact gain_step (ih _) (gain_ite _ (gain_step (gain_splice _ _) hF) hF)

theorem updateBoss_retarget_gain (env : Env) (s : State) (r : ℕ) :
    Gain s (updateBoss.retarget env s r) := by
  unfold updateBoss.retarget
  simp only [random]
  exact gain_ite _ (gain_step (setBoss_gain _ _ _) (gain_draws _ _)) (gain_refl s)

theorem updateBoss_shoot_gain (env : Env) (s : State) (r : ℕ) :
    Gain s (updateBoss.shoot env s r) := by
  unfold updateBoss.shoot
  simp only []
  exact gain_ite _ (gain_step (setBoss_gain _ _ _) (fireBoss_gain _ _)) (gain_refl s)

theorem updateBoss_gain (env : Env) (s : State) (dt : ℚ) : Gain s (updateBoss env s dt) := by
  unfold updateBoss
  cases s.boss with
  | none => exact gain_refl s
  | some r =>
    simp only []
    refine gain_ite _ (gain_step (setBoss_gain _ _ _) (setBoss_gain _ _ _)) ?_
    unfold updateBoss.active
    simp only []
    exact gain_step (updateBoss_shoot_gain _ _ _) (gain_step (setBoss_gain _ _ _)
      (gain_step (updateBoss_retarget_gain _ _ _) (gain_step (setBoss_gain _ _ _)
        (setBoss_gain _ _ _))))

theorem updatePlayerBullets_loop_gain (env : Env) (dt : ℚ) (n : ℕ) :
    ∀ s : State, Gain s (updatePlayerBullets.loop env dt n s) := by
  induction n with
  | zero => intro s; exact gain_refl s
  | succ i ih =>
    intro s
    unfold updatePlayerBullets.loop
    cases s.playerBullets[i]? with
    | none => exact ih s
    | some b =>
      simp only []
      exact gain_step (ih _)
        (gain_ite _ (gain_same rfl rfl rfl rfl) (gain_same rfl rfl rfl rfl))

theorem updateEnemyBullets_loop_gain (env : Env) (dt : ℚ) (n : ℕ) :
    ∀ s : State, Gain s (updateEnemyBullets.loop env dt n s) := by
  induction n with
  | zero => intro s; exact gain_refl s
  | succ i ih =>
    intro s
    unfold updateEnemyBullets.loop
    cases s.enemyBullets[i]? with
    | none => exact ih s
    | some b =>
      simp only []
      exact gain_step (ih _)
        (gain_ite _ (gain_same rfl rfl rfl rfl) (gain_same rfl rfl rfl rfl))

theorem beam_burn_gain (env : Env) (tick : ℚ) (s : State) (i r : ℕ) :
    Gain s (updateBeamDamage.burn env tick s i r) := by
  unfold updateBeamDamage.burn
  simp only []
  exact gain_ite _
    (gain_step (maybeDropPowerup_gain _ _ _ _ _) (gain_of rfl (le_add_of_nonneg_right (by norm_num)) (splice_length_le _ _) rfl))
    (gain_same rfl rfl rfl rfl)

theorem beam_enemyLoop_gain (env : Env) (beam : Rect) (tick : ℚ) (n : ℕ) :
    ∀ s : State, Gain s (updateBeamDamage.enemyLoop env beam tick n s) := by
  induction n with
  | zero => intro s; exact gain_refl s
  | succ i ih =>
    intro s
    unfold updateBeamDamage.enemyLoop
    cases s.enemies[i]? with
    | none => exact ih s
    | some r => exact gain_ite _ (ih s) (gain_step (ih _) (beam_burn_gain _ _ _ _ _))

theorem beam_bossPart_gain (env : Env) (beam : Rect) (tick : ℚ) (s : State) :
    Gain s (updateBeamDamage.bossPart env beam tick s) := by
  unfold updateBeamDamage.bossPart
  cases s.boss with
  | none => exact gain_refl s
  | some b =>
    simp only []
    exact gain_ite _
      (gain_ite _ (gain_step (defeatBoss_gain _ _ _ _ _ (by norm_num)) (setBossHp_gain _ _ _))
        (setBossHp_gain _ _ _))
      (gain_refl s)

theorem updateBeamDamage_gain (env : Env) (s : State) (dt : ℚ) :
    Gain s (updateBeamDamage env s dt) := by
  unfold updateBeamDamage
  simp only []
  refine gain_ite _ (gain_same rfl rfl rfl rfl) (gain_ite _ (gain_same rfl rfl rfl rfl) ?_)
  exact gain_step (beam_bossPart_gain _ _ _ _)
    (gain_step (beam_enemyLoop_gain _ _ _ _ _) (gain_same rfl rfl rfl rfl))

theorem updatePowerups_gain (env : Env) (s : State) (dt : ℚ) :
    Gain s (updatePowerups env s dt) :=
  gain_same rfl rfl rfl rfl

theorem update_advance_gain (env : Env) (s : State) (dt : ℚ) :
    Gain s (update.advance env s dt) :=
  gain_step (updatePowerups_gain _ _ _) (gain_step (updateBeamDamage_gain _ _ _)
    (gain_step (updateEnemyBullets_loop_gain _ _ _ _) (gain_step
      (updatePlayerBullets_loop_gain _ _ _ _) (gain_step (updateBoss_gain _ _ _)
        (updateEnemies_loop_gain _ _ _ _)))))

theorem getEnemyCap_of_time (s t : State) (h : t.time = s.time) :
    getEnemyCap t = getEnemyCap s := by
  simp only [getEnemyCap, h]

theorem getEnemyCap_le_six (s : State) : getEnemyCap s ≤ 6 := by
  unfold getEnemyCap
  simp only []
  split_ifs <;> decide

theorem getEnemyCap_mono (s t : State) (h : s.time ≤ t.time) :
    getEnemyCap s ≤ getEnemyCap t := by
  unfold getEnemyCap
  simp only []
  split_ifs <;> first | decide | (exfalso; linarith)

theorem tryUpgradeEffect_score (env : Env) (s : State) (key : GearKind) (maxLevel : ℤ) :
    s.score ≤ (tryUpgradeEffect env s key maxLevel).score := by
  unfold tryUpgradeEffect
  simp only [random]
  split_ifs
  · exact le_add_of_nonneg_right (by norm_num)
  · exact le_refl _
  · exact le_add_of_nonneg_right (by norm_num)

theorem updatePlayer_frame (env : Env) (s : State) (dt : ℚ) :
    (updatePlayer env s dt).score = s.score
      ∧ (updatePlayer env s dt).bossLevel = s.bossLevel
      ∧ (updatePlayer env s dt).enemies = s.enemies
      ∧ (updatePlayer env s dt).time = s.time
      ∧ (updatePlayer env s dt).boss = s.boss := by
  unfold updatePlayer
  simp only []
  split_ifs
  · obtain ⟨bs, hbs⟩ := firePlayer_only (updatePlayer.move env s dt)
    rw [hbs]
    exact ⟨rfl, rfl, rfl, rfl, rfl⟩
  · exact ⟨rfl, rfl, rfl, rfl, rfl⟩

theorem maybeSpawnBoss_frame (env : Env) (s : State) :
    (maybeSpawnBoss env s).score = s.score
      ∧ (maybeSpawnBoss env s).time = s.time
      ∧ s.bossLevel ≤ (maybeSpawnBoss env s).bossLevel
      ∧ (maybeSpawnBoss env s).enemies.length ≤ s.enemies.length
      ∧ (s.boss ≠ none → maybeSpawnBoss env s = s) := by
  unfold maybeSpawnBoss
  cases hb : s.boss with
  | some b => exact ⟨rfl, rfl, le_refl _, le_refl _, fun _ => rfl⟩
  | none =>
    simp only []
    split_ifs
    · refine ⟨rfl, rfl, ?_, Nat.zero_le _, fun h => absurd rfl h⟩
      show s.bossLevel ≤ s.bossLevel + 1
      linarith
    · exact ⟨rfl, rfl, le_refl _, le_refl _, fun _ => rfl⟩

theorem update_spawn_frame (env : Env) (s : State) :
    (update.spawn env s).score = s.score
      ∧ (update.spawn env s).time = s.time
      ∧ s.bossLevel ≤ (update.spawn env s).bossLevel
      ∧ (update.spawn env s).enemies.length ≤ s.enemies.length + 1
      ∧ (s.enemies.length ≤ getEnemyCap s →
          (update.spawn env s).enemies.length ≤ getEnemyCap s)
      ∧ (s.boss ≠ none → (update.spawn env s).enemies.length ≤ s.enemies.length) := by
  obtain ⟨m1, m2, m3, m4, m5⟩ := maybeSpawnBoss_frame env s
  have hcap : getEnemyCap (maybeSpawnBoss env s) = getEnemyCap s := getEnemyCap_of_time _ _ m2
  unfold update.spawn
  simp only []
  split_ifs with hc
  · have hlen : ({ spawnEnemy env (maybeSpawnBoss env s) with
          spawnTimer := getSpawnInterval (spawnEnemy env (maybeSpawnBoss env s)) }).enemies.length
        = (maybeSpawnBoss env s).enemies.length + 1 := by
      show ((maybeSpawnBoss env s).enemies ++ [_]).length = _
      simp
    refine ⟨m1, m2, m3, ?_, ?_, ?_⟩
    · rw [hlen]; omega
    · intro _
      rw [hlen]
      have := hc.2.2
      omega
    · intro hb
      exfalso
      have h1 := hc.1
      rw [m5 hb] at h1
      exact hb h1
  · exact ⟨m1, m2, m3, by omega, fun h => by omega, fun _ => m4⟩

theorem update_timers_frame (s : State) (dt : ℚ) :
    (update.timers s dt).score = s.score
      ∧ (update.timers s dt).bossLevel = s.bossLevel
      ∧ (update.timers s dt).enemies = s.enemies
      ∧ (update.timers s dt).time = s.time + dt
      ∧ (update.timers s dt).boss = s.boss :=
  ⟨rfl, rfl, rfl, rfl, rfl⟩

/-- What one call of `update` does to the score and to the enemy list. -/
theorem update_tick (env : Env) (s t : State) (dt : ℚ) (h : update env s dt = some t) :
    (0 ≤ s.bossLevel → s.score ≤ t.score ∧ 0 ≤ t.bossLevel)
      ∧ (0 ≤ dt → s.enemies.length ≤ getEnemyCap s → t.enemies.length ≤ getEnemyCap t)
      ∧ t.enemies.length ≤ s.enemies.length + 1
      ∧ (s.boss ≠ none → t.enemies.length ≤ s.enemies.length) := by
  unfold update at h
  by_cases hr : s.running = true
  · rw [if_neg (by simp [hr])] at h
    simp only [] at h
    obtain ⟨t1, t2, t3, t4, t5⟩ := update_timers_frame s dt
    obtain ⟨p1, p2, p3, p4, p5⟩ := updatePlayer_frame env (update.timers s dt) dt
    obtain ⟨u1, u2, u3, u4, u5, u6⟩ :=
      update_spawn_frame env (updatePlayer env (update.timers s dt) dt)
    obtain ⟨a1, a2, a3, a4⟩ := update_advance_gain env
      (update.spawn env (updatePlayer env (update.timers s dt) dt)) dt
    obtain ⟨h1, h2, h3, h4⟩ := handleHits_gain env _ t h
    rw [p3, t3] at u4 u5 u6
    rw [p5, t5] at u6
    rw [p2, t2] at u3
    have hbl : t.bossLevel
        = (update.spawn env (updatePlayer env (update.timers s dt) dt)).bossLevel :=
      h1.trans a1
    have hlen : t.enemies.length
        ≤ (update.spawn env (updatePlayer env (update.timers s dt) dt)).enemies.length :=
      le_trans h3 a3
    have htime : t.time = s.time + dt := by rw [h4, a4, u2, p4, t4]
    refine ⟨fun hb => ⟨?_, by rw [hbl]; exact le_trans hb u3⟩, ?_, le_trans hlen u4,
      fun hb => le_trans hlen (u6 hb)⟩
    · have hb2 : 0 ≤ (update.spawn env (updatePlayer env (update.timers s dt) dt)).bossLevel :=
        le_trans hb u3
      have e1 := a2 hb2
      have e2 := h2 (a1 ▸ hb2)
      rw [u1, p1, t1] at e1
      exact le_trans e1 e2
    · intro hdt hcap
      have c1 : getEnemyCap s ≤ getEnemyCap (updatePlayer env (update.timers s dt) dt) :=
        getEnemyCap_mono _ _ (by rw [p4, t4]; linarith)
      have c2 := u5 (le_trans hcap c1)
      have c3 : getEnemyCap t = getEnemyCap (updatePlayer env (update.timers s dt) dt) :=
        getEnemyCap_of_time _ _ (by rw [htime, p4, t4])
      rw [c3]
      exact le_trans hlen c2
  · rw [if_pos (by simp [hr])] at h
    simp only [Option.some.injEq] at h
    subst h
    exact ⟨fun hb => ⟨le_refl _, hb⟩, fun _ hc => hc, Nat.le_succ _, fun _ => le_refl _⟩

theorem runTicks_facts (env : Env) (dts : List ℚ) (hdt : ∀ dt ∈ dts, 0 ≤ dt) :
    ∀ s t : State, runTicks env s dts = some t →
      (0 ≤ s.bossLevel → s.score ≤ t.score)
        ∧ (s.enemies.length ≤ getEnemyCap s → t.enemies.length ≤ getEnemyCap t) := by
  induction dts with
  | nil =>
    intro s t h
    simp only [runTicks, Option.some.injEq] at h
    subst h
    exact ⟨fun _ => le_refl _, id⟩
  | cons dt dts ih =>
    intro s t h
    unfold runTicks at h
    cases hu : update env s dt with
    | none => rw [hu] at h; exact absurd h (by simp)
    | some s2 =>
      rw [hu] at h
      simp only [] at h
      obtain ⟨k1, k2, _, _⟩ := update_tick env s s2 dt hu
      obtain ⟨r1, r2⟩ := ih (fun d hd => hdt d (List.mem_cons_of_mem _ hd)) s2 t h
      exact ⟨fun hb => le_trans (k1 hb).1 (r1 (k1 hb).2),
        fun hc => r2 (k2 (hdt dt (List.mem_cons_self _ _)) hc)⟩

/-- C21: when the boss level is not negative, a call of `update` that completes
leaves the score at or above its value before the call (whether or not the game
is running, and whatever the frame time), and every operation that changes the
score adds a non-negative amount: `equipGear`, `tryUpgradeEffect`, `defeatBoss`
with bonus 0 and with the chain bonus -100, and the enemy kills of
`addExplosion`, `chainDamage`, `updateBeamDamage` and `handleHits`. -/
theorem update_score_monotone (env : Env) (s s2 : State) (dt : ℚ) (hb : 0 ≤ s.bossLevel)
    (h : update env s dt = some s2) :
    s.score ≤ s2.score
      ∧ (∀ type tier, s.score ≤ (equipGear s type tier).score)
      ∧ (∀ key maxLevel, s.score ≤ (tryUpgradeEffect env s key maxLevel).score)
      ∧ (∀ x y, s.score ≤ (defeatBoss env s x y 0).score
          ∧ s.score ≤ (defeatBoss env s x y (-100)).score)
      ∧ (∀ x y radius damage, s.score ≤ (addExplosion env s x y radius damage).score)
      ∧ (∀ start, s.score ≤ (chainDamage env s start).score)
      ∧ (∀ dt2, s.score ≤ (updateBeamDamage env s dt2).score)
      ∧ (∀ t, handleHits env s = some t → s.score ≤ t.score) :=
  ⟨((update_tick env s s2 dt h).1 hb).1,
    fun type tier => (equipGear_gain s type tier).2.1 hb,
    fun key maxLevel => tryUpgradeEffect_score env s key maxLevel,
    fun x y => ⟨(defeatBoss_gain env s x y 0 (by norm_num)).2.1 hb,
      (defeatBoss_gain env s x y (-100) (by norm_num)).2.1 hb⟩,
    fun x y radius damage => (addExplosion_gain env s x y radius damage).2.1 hb,
    fun start => (chainDamage_gain env s start).2.1 hb,
    fun dt2 => (updateBeamDamage_gain env s dt2).2.1 hb,
    fun t ht => (handleHits_gain env s t ht).2.1 hb⟩

/-- C21 on a tick in which a bullet kills an enemy: the call completes and the
score goes from 0 to 15. -/
theorem update_score_monotone_example :
    directKillState.score = 0
      ∧ (update quietEnv directKillState 0.033).map (fun s => s.score) = some 15
      ∧ ∃ s2, update quietEnv directKillState 0.033 = some s2
          ∧ directKillState.score ≤ s2.score := by
  have hsome : (update quietEnv directKillState 0.033).isSome = true := by decide!
  obtain ⟨s2, h2⟩ := Option.isSome_iff_exists.mp hsome
  exact ⟨by decide!, by decide!, s2, h2,
    (update_score_monotone quietEnv directKillState s2 0.033 (by decide!) h2).1⟩

/-- C27: from the state produced by `reset`, after any run of completed `update`
calls with frame times dt >= 0 the number of listed enemies is at most
`getEnemyCap` at the elapsed time, hence at most 6; and one call of `update`
adds at most one enemy, and none when a boss is present at the start of the
call. -/
theorem enemies_within_cap (env : Env) (s0 s : State) (dts : List ℚ)
    (hdt : ∀ dt ∈ dts, 0 ≤ dt) (h : runTicks env (reset env s0) dts = some s) :
    s.enemies.length ≤ getEnemyCap s
      ∧ getEnemyCap s ≤ 6
      ∧ s.enemies.length ≤ 6
      ∧ (∀ dt t, update env s dt = some t →
          t.enemies.length ≤ s.enemies.length + 1
            ∧ (s.boss ≠ none → t.enemies.length ≤ s.enemies.length)) := by
  have h1 : s.enemies.length ≤ getEnemyCap s :=
    (runTicks_facts env dts hdt (reset env s0) s h).2 (Nat.zero_le _)
  refine ⟨h1, getEnemyCap_le_six s, le_trans h1 (getEnemyCap_le_six s), ?_⟩
  intro dt t ht
  exact ⟨(update_tick env s t dt ht).2.2.1, (update_tick env s t dt ht).2.2.2⟩

/-- C27 on four frames of 0.6 s after the restart: the run completes with two
enemies, which is the cap at 2.4 s. -/
theorem enemies_within_cap_example :
    (runTicks quietEnv (reset quietEnv (initState quietEnv)) [0.6, 0.6, 0.6, 0.6]).map
        (fun s => (s.enemies.length, getEnemyCap s)) = some (2, 2)
      ∧ ∃ s, runTicks quietEnv (reset quietEnv (initState quietEnv)) [0.6, 0.6, 0.6, 0.6] = some s
          ∧ s.enemies.length ≤ getEnemyCap s := by
  have hsome :
      (runTicks quietEnv (reset quietEnv (initState quietEnv)) [0.6, 0.6, 0.6, 0.6]).isSome
        = true := by decide!
  obtain ⟨s, hs⟩ := Option.isSome_iff_exists.mp hsome
  refine ⟨by decide!, s, hs, (enemies_within_cap quietEnv (initState quietEnv) s
    [0.6, 0.6, 0.6, 0.6] ?_ hs).1⟩
  intro dt hd
  simp only [List.mem_cons, List.mem_singleton, List.not_mem_nil, or_false, or_self] at hd
  rw [hd]
  norm_num

end FlightGame
